import Mathlib

/-!
# HPGMG finite-volume 7-point operator: a shallow embedding

Source files embedded here:

* `finite-volume/source/operators.7pt.c`: the `apply_op_ijk` stencil forms, `apply_BCs`,
  `rebuild_operator` and the build-time smoother selection;
* `finite-volume/source/cuda/stencils/residual.fv2.h`: `residual_kernel`.

Conventions of the embedding.

* A C `double` is an element of a linearly ordered field `R` (exact arithmetic); every
  definition is computable once `R` is, for instance at `R = ℚ`.  Quotients by zero follow the
  field convention, so statements that depend on the value of a quotient carry a non-zero
  hypothesis on the divisor.
* A C `int` is an unbounded integer; the one place where the code converts an `int` to
  `unsigned int` before comparing (the thread guard of `residual_kernel`) is written with an
  explicit reduction modulo `2^32`.
* One vector of a box is a function from buffer offsets to values; a pointer into a vector is
  a vector together with a base offset, and `p[i]` reads offset `base + i`.
* Sequential `for` loops run their iterations in increasing order.
-/

namespace HPGMG

/-! ## Data model (`level.h` as used by the two source files) -/

/-- Modelled from the spec: the field identifiers of `level.h`, which is not part of the
excerpt.  The seven constants used by name in the two source files are distinct identifiers;
every other field of a box (solution, right-hand side, residual, scratch) is `other n`. -/
inductive VectorId where
  | VECTOR_ALPHA
  | VECTOR_BETA_I
  | VECTOR_BETA_J
  | VECTOR_BETA_K
  | VECTOR_DINV
  | VECTOR_L1INV
  | VECTOR_VALID
  | other (n : Nat)
deriving DecidableEq

open VectorId

/-- The `dim` member of a block: its extent along the three axes. -/
structure BlockDim where
  i : Int
  j : Int
  k : Int
deriving DecidableEq

/-- The `read` member of a block: the box it works on and its origin in that box. -/
structure BlockRead where
  box : Int
  i : Int
  j : Int
  k : Int
deriving DecidableEq

/-- One entry of `level->my_blocks`. -/
structure Block where
  dim : BlockDim
  read : BlockRead
deriving DecidableEq

/-- One entry of `level->my_boxes`: strides, ghost width and the per-field flat buffers. -/
structure Box (R : Type) where
  jStride : Int
  kStride : Int
  ghosts : Int
  vectors : VectorId → Int → R

/-- The members of `level_type` read or written by the two source files. -/
structure Level (R : Type) where
  h : R
  my_rank : Int
  box_dim : Int
  num_my_blocks : Int
  my_blocks : Int → Block
  my_boxes : Int → Box R
  dominant_eigenvalue_of_DinvA : R

variable {R : Type}

/-- Read `level.my_boxes[box].vectors[id][addr]`. -/
def Level.load (level : Level R) (box : Int) (id : VectorId) (addr : Int) : R :=
  (level.my_boxes box).vectors id addr

/-- Write `v` to `vectors[id][addr]` of a box. -/
def Box.store (bx : Box R) (id : VectorId) (addr : Int) (v : R) : Box R :=
  { bx with vectors := fun id' p => if id' = id ∧ p = addr then v else bx.vectors id' p }

/-- Write `v` to `level.my_boxes[box].vectors[id][addr]`. -/
def Level.store (level : Level R) (box : Int) (id : VectorId) (addr : Int) (v : R) : Level R :=
  { level with
    my_boxes := fun b => if b = box then (level.my_boxes b).store id addr v else level.my_boxes b }

/-- The pointer `level.my_boxes[box].vectors[id] + off`, read at index `i`. -/
def Level.ptr (level : Level R) (box : Int) (id : VectorId) (off : Int) : Int → R :=
  fun i => level.load box id (off + i)

/-- The addressing formula `index = ghosts*(1+jStride+kStride) + i + j*jStride + k*kStride`. -/
def index (ghosts jStride kStride i j k : Int) : Int :=
  ghosts * (1 + jStride + kStride) + i + j * jStride + k * kStride

/-- A sequential loop of `n` iterations over `lo, lo+1, ..`, the last iteration outermost. -/
def forLoopN {σ : Type} (lo : Int) (body : Int → σ → σ) : Nat → σ → σ
  | 0, s => s
  | n + 1, s => body (lo + (n : Int)) (forLoopN lo body n s)

/-- The loop `for(v=lo; v<hi; v++) body`. -/
def forLoop {σ : Type} (lo hi : Int) (body : Int → σ → σ) (s : σ) : σ :=
  forLoopN lo body (hi - lo).toNat s

/-- Conversion of an `int` to `unsigned int` (32 bits). -/
def toUnsigned (n : Int) : Int := n % 4294967296

/-! ## The stencil macros of `operators.7pt.c` -/

/-- The local names a stencil macro captures at its expansion site. -/
structure StencilEnv (R : Type) where
  a : R
  b : R
  h2inv : R
  alpha : Int → R
  beta_i : Int → R
  beta_j : Int → R
  beta_k : Int → R
  valid : Int → R
  jStride : Int
  kStride : Int

/-- The coefficient mode selected by `STENCIL_VARIABLE_COEFFICIENT` and `USE_HELMHOLTZ`. -/
inductive CoeffMode where
  | helmholtz
  | poisson
  | constant
deriving DecidableEq

section Stencils

variable [LinearOrderedField R]

/-- Macro `apply_op_ijk(x)` under `STENCIL_FUSE_BC`, variable-coefficient Helmholtz (lines 107-118). -/
def apply_op_ijk_fuse_helmholtz (e : StencilEnv R) (x : Int → R) (ijk : Int) : R :=
  e.a * e.alpha ijk * x ijk
  - e.b * e.h2inv * (
      e.beta_i ijk * (e.valid (ijk - 1) * (x ijk + x (ijk - 1)) - 2 * x ijk)
    + e.beta_j ijk * (e.valid (ijk - e.jStride) * (x ijk + x (ijk - e.jStride)) - 2 * x ijk)
    + e.beta_k ijk * (e.valid (ijk - e.kStride) * (x ijk + x (ijk - e.kStride)) - 2 * x ijk)
    + e.beta_i (ijk + 1) * (e.valid (ijk + 1) * (x ijk + x (ijk + 1)) - 2 * x ijk)
    + e.beta_j (ijk + e.jStride)
        * (e.valid (ijk + e.jStride) * (x ijk + x (ijk + e.jStride)) - 2 * x ijk)
    + e.beta_k (ijk + e.kStride)
        * (e.valid (ijk + e.kStride) * (x ijk + x (ijk + e.kStride)) - 2 * x ijk))

/-- Macro `apply_op_ijk(x)` under `STENCIL_FUSE_BC`, variable-coefficient Poisson (lines 120-130). -/
def apply_op_ijk_fuse_poisson (e : StencilEnv R) (x : Int → R) (ijk : Int) : R :=
  (-e.b) * e.h2inv * (
      e.beta_i ijk * (e.valid (ijk - 1) * (x ijk + x (ijk - 1)) - 2 * x ijk)
    + e.beta_j ijk * (e.valid (ijk - e.jStride) * (x ijk + x (ijk - e.jStride)) - 2 * x ijk)
    + e.beta_k ijk * (e.valid (ijk - e.kStride) * (x ijk + x (ijk - e.kStride)) - 2 * x ijk)
    + e.beta_i (ijk + 1) * (e.valid (ijk + 1) * (x ijk + x (ijk + 1)) - 2 * x ijk)
    + e.beta_j (ijk + e.jStride)
        * (e.valid (ijk + e.jStride) * (x ijk + x (ijk + e.jStride)) - 2 * x ijk)
    + e.beta_k (ijk + e.kStride)
        * (e.valid (ijk + e.kStride) * (x ijk + x (ijk + e.kStride)) - 2 * x ijk))

/-- Macro `apply_op_ijk(x)` under `STENCIL_FUSE_BC`, constant coefficient (lines 133-144). -/
def apply_op_ijk_fuse_constant (e : StencilEnv R) (x : Int → R) (ijk : Int) : R :=
  e.a * x ijk - e.b * e.h2inv * (
      e.valid (ijk - 1) * (x ijk + x (ijk - 1))
    + e.valid (ijk - e.jStride) * (x ijk + x (ijk - e.jStride))
    + e.valid (ijk - e.kStride) * (x ijk + x (ijk - e.kStride))
    + e.valid (ijk + 1) * (x ijk + x (ijk + 1))
    + e.valid (ijk + e.jStride) * (x ijk + x (ijk + e.jStride))
    + e.valid (ijk + e.kStride) * (x ijk + x (ijk + e.kStride))
    - 12 * (x ijk))

/-- Macro `apply_op_ijk(x)` without `STENCIL_FUSE_BC`, variable-coefficient Helmholtz
(lines 155-166). -/
def apply_op_ijk_helmholtz (e : StencilEnv R) (x : Int → R) (ijk : Int) : R :=
  e.a * e.alpha ijk * x ijk
  - e.b * e.h2inv * (
      e.beta_i (ijk + 1) * (x (ijk + 1) - x ijk)
    + e.beta_i ijk * (x (ijk - 1) - x ijk)
    + e.beta_j (ijk + e.jStride) * (x (ijk + e.jStride) - x ijk)
    + e.beta_j ijk * (x (ijk - e.jStride) - x ijk)
    + e.beta_k (ijk + e.kStride) * (x (ijk + e.kStride) - x ijk)
    + e.beta_k ijk * (x (ijk - e.kStride) - x ijk))

/-- Macro `apply_op_ijk(x)` without `STENCIL_FUSE_BC`, variable-coefficient Poisson
(lines 168-178). -/
def apply_op_ijk_poisson (e : StencilEnv R) (x : Int → R) (ijk : Int) : R :=
  (-e.b) * e.h2inv * (
      e.beta_i (ijk + 1) * (x (ijk + 1) - x ijk)
    + e.beta_i ijk * (x (ijk - 1) - x ijk)
    + e.beta_j (ijk + e.jStride) * (x (ijk + e.jStride) - x ijk)
    + e.beta_j ijk * (x (ijk - e.jStride) - x ijk)
    + e.beta_k (ijk + e.kStride) * (x (ijk + e.kStride) - x ijk)
    + e.beta_k ijk * (x (ijk - e.kStride) - x ijk))

/-- Macro `apply_op_ijk(x)` without `STENCIL_FUSE_BC`, constant coefficient (lines 181-192). -/
def apply_op_ijk_constant (e : StencilEnv R) (x : Int → R) (ijk : Int) : R :=
  e.a * x ijk - e.b * e.h2inv * (
      x (ijk + 1)
    + x (ijk - 1)
    + x (ijk + e.jStride)
    + x (ijk - e.jStride)
    + x (ijk + e.kStride)
    + x (ijk - e.kStride)
    - x ijk * 6)

/-- The macro `apply_op_ijk(x)` as selected by `STENCIL_FUSE_BC` and the coefficient mode. -/
def apply_op_ijk (fuse_bc : Bool) (mode : CoeffMode) (e : StencilEnv R) (x : Int → R)
    (ijk : Int) : R :=
  match fuse_bc, mode with
  | true, CoeffMode.helmholtz => apply_op_ijk_fuse_helmholtz e x ijk
  | true, CoeffMode.poisson => apply_op_ijk_fuse_poisson e x ijk
  | true, CoeffMode.constant => apply_op_ijk_fuse_constant e x ijk
  | false, CoeffMode.helmholtz => apply_op_ijk_helmholtz e x ijk
  | false, CoeffMode.poisson => apply_op_ijk_poisson e x ijk
  | false, CoeffMode.constant => apply_op_ijk_constant e x ijk


/-! ## The compute phase of `rebuild_operator` (`operators.7pt.c`, lines 230-324) -/

/-- The Gershgorin radius `sumAbsAij` of a cell, variable-coefficient form (lines 262-269). -/
def rebuild_sumAbsAij (e : StencilEnv R) (ijk : Int) : R :=
  |e.b * e.h2inv| * (
      |e.beta_i ijk * e.valid (ijk - 1)|
    + |e.beta_j ijk * e.valid (ijk - e.jStride)|
    + |e.beta_k ijk * e.valid (ijk - e.kStride)|
    + |e.beta_i (ijk + 1) * e.valid (ijk + 1)|
    + |e.beta_j (ijk + e.jStride) * e.valid (ijk + e.jStride)|
    + |e.beta_k (ijk + e.kStride) * e.valid (ijk + e.kStride)|)

/-- The diagonal term `Aii` of a cell, variable-coefficient form (lines 272-279). -/
def rebuild_Aii (e : StencilEnv R) (ijk : Int) : R :=
  e.a * e.alpha ijk - e.b * e.h2inv * (
      e.beta_i ijk * (e.valid (ijk - 1) - 2)
    + e.beta_j ijk * (e.valid (ijk - e.jStride) - 2)
    + e.beta_k ijk * (e.valid (ijk - e.kStride) - 2)
    + e.beta_i (ijk + 1) * (e.valid (ijk + 1) - 2)
    + e.beta_j (ijk + e.jStride) * (e.valid (ijk + e.jStride) - 2)
    + e.beta_k (ijk + e.kStride) * (e.valid (ijk + e.kStride) - 2))

/-- The value stored in `Dinv[ijk]` (line 303). -/
def rebuild_Dinv (e : StencilEnv R) (ijk : Int) : R :=
  1 / rebuild_Aii e ijk

/-- The value stored in `L1inv[ijk]` (lines 305-306); `3/2` is the constant 1.5 and `1/2` the
constant 0.5. -/
def rebuild_L1inv (e : StencilEnv R) (ijk : Int) : R :=
  if rebuild_Aii e ijk ≥ 3 / 2 * rebuild_sumAbsAij e ijk then 1 / (rebuild_Aii e ijk)
  else 1 / (rebuild_Aii e ijk + 1 / 2 * rebuild_sumAbsAij e ijk)

/-- The per-cell Gershgorin bound `Di` (line 307). -/
def rebuild_Di (e : StencilEnv R) (ijk : Int) : R :=
  (rebuild_Aii e ijk + rebuild_sumAbsAij e ijk) / rebuild_Aii e ijk

/-- The locals of a loop over the cells of a box, as `rebuild_operator` sets them up for one
block (lines 242-252): scalars, strides and the ghost-offset pointers into the box's
coefficient vectors, read from the current memory. -/
def box_env (level : Level R) (box : Int) (a b : R) : StencilEnv R :=
  let jStride := (level.my_boxes box).jStride
  let kStride := (level.my_boxes box).kStride
  let ghosts := (level.my_boxes box).ghosts
  { a := a
    b := b
    h2inv := 1 / (level.h * level.h)
    alpha := level.ptr box VECTOR_ALPHA (ghosts * (1 + jStride + kStride))
    beta_i := level.ptr box VECTOR_BETA_I (ghosts * (1 + jStride + kStride))
    beta_j := level.ptr box VECTOR_BETA_J (ghosts * (1 + jStride + kStride))
    beta_k := level.ptr box VECTOR_BETA_K (ghosts * (1 + jStride + kStride))
    valid := level.ptr box VECTOR_VALID (ghosts * (1 + jStride + kStride))
    jStride := jStride
    kStride := kStride }

/-- The state threaded through the cells of one block: memory and `block_eigenvalue`. -/
structure RebuildState (R : Type) where
  level : Level R
  block_eigenvalue : R

/-- The body of the innermost loop of `rebuild_operator` at `ijk` (lines 258-307). -/
def rebuild_operator_cell (a b : R) (box : Int) (ijk : Int) (s : RebuildState R) :
    RebuildState R :=
  let e := box_env s.level box a b
  let ghosts := (s.level.my_boxes box).ghosts
  let g := ghosts * (1 + e.jStride + e.kStride)
  let sumAbsAij := rebuild_sumAbsAij e ijk
  let Aii := rebuild_Aii e ijk
  let level1 := s.level.store box VECTOR_DINV (g + ijk) (1 / Aii)
  let level2 :=
    if Aii ≥ 3 / 2 * sumAbsAij then level1.store box VECTOR_L1INV (g + ijk) (1 / Aii)
    else level1.store box VECTOR_L1INV (g + ijk) (1 / (Aii + 1 / 2 * sumAbsAij))
  let Di := (Aii + sumAbsAij) / Aii
  { level := level2
    block_eigenvalue := if Di > s.block_eigenvalue then Di else s.block_eigenvalue }

/-- The body of the loop over blocks of `rebuild_operator` (lines 233-309); the state is the
memory together with `dominant_eigenvalue`. -/
def rebuild_operator_block (a b : R) (block : Int) (s : Level R × R) : Level R × R :=
  let level := s.1
  let box := (level.my_blocks block).read.box
  let ilo := (level.my_blocks block).read.i
  let jlo := (level.my_blocks block).read.j
  let klo := (level.my_blocks block).read.k
  let ihi := (level.my_blocks block).dim.i + ilo
  let jhi := (level.my_blocks block).dim.j + jlo
  let khi := (level.my_blocks block).dim.k + klo
  let jStride := (level.my_boxes box).jStride
  let kStride := (level.my_boxes box).kStride
  let r := forLoop klo khi (fun k => forLoop jlo jhi (fun j => forLoop ilo ihi (fun i =>
      rebuild_operator_cell a b box (i + j * jStride + k * kStride))))
    { level := level, block_eigenvalue := -1000000000 }
  (r.level, if r.block_eigenvalue > s.2 then r.block_eigenvalue else s.2)

/-- Lines 230-310 of `rebuild_operator`: the loop over the owned blocks, started from
`dominant_eigenvalue = -1e9`. -/
def rebuild_operator_compute (level : Level R) (a b : R) : Level R × R :=
  forLoop 0 level.num_my_blocks (rebuild_operator_block a b) (level, -1000000000)

/-- The reduction `MPI_Allreduce(..., MPI_MAX, MPI_COMM_WORLD)` seen from one rank: the maximum
of the rank's own `send` and the values sent by the other ranks. -/
def MPI_Allreduce_MAX (send : R) (others : List R) : R :=
  others.foldl max send

/-- Lines 230-324 of `rebuild_operator`: compute phase, reduction of the eigenvalue estimate
over the ranks when `USE_MPI` is defined, and the store into
`level->dominant_eigenvalue_of_DinvA`. -/
def rebuild_operator_local (USE_MPI : Bool) (level : Level R) (a b : R) (others : List R) :
    Level R :=
  let r := rebuild_operator_compute level a b
  let dominant_eigenvalue := if USE_MPI then MPI_Allreduce_MAX r.2 others else r.2
  { r.1 with dominant_eigenvalue_of_DinvA := dominant_eigenvalue }

end Stencils

/-! ## `residual_kernel` (`cuda/stencils/residual.fv2.h`, lines 30-100) -/

/-- Modelled from the spec: the read macro `X` of `cuda/common.h` (not part of the excerpt),
a plain read of `x`. -/
def X (x : Int → R) (i : Int) : R := x i

/-- Modelled from the spec: the read macro `BI` of `cuda/common.h` (not part of the excerpt),
a plain read of `beta_i`. -/
def BI (beta_i : Int → R) (i : Int) : R := beta_i i

/-- Modelled from the spec: the read macro `BJ` of `cuda/common.h` (not part of the excerpt),
a plain read of `beta_j`. -/
def BJ (beta_j : Int → R) (i : Int) : R := beta_j i

/-- Modelled from the spec: the read macro `BK` of `cuda/common.h` (not part of the excerpt),
a plain read of `beta_k`. -/
def BK (beta_k : Int → R) (i : Int) : R := beta_k i

/-- The constants one thread computes in the prologue of `residual_kernel` (lines 41-59):
the box, its strides, `h2inv`, and the common offset
`ghosts*(1+jStride+kStride) + (ilo + jlo*jStride + klo*kStride)` of its pointers. -/
structure KernelCtx (R : Type) where
  box : Int
  jStride : Int
  kStride : Int
  h2inv : R
  off : Int

/-- The state one thread carries through its k-loop: device memory and the register window. -/
structure KernelState (R : Type) where
  level : Level R
  xc0 : R
  xc1 : R
  bkc1 : R

section Kernel

variable [LinearOrderedField R]

/-- The prologue of `residual_kernel` (lines 41-59). -/
def residual_kernel_prologue (BLOCK_K : Int) (level : Level R) (blockIdx_x blockIdx_y : Nat) :
    KernelCtx R :=
  let box := (level.my_blocks blockIdx_x).read.box
  let ilo := (level.my_blocks blockIdx_x).read.i
  let jlo := (level.my_blocks blockIdx_x).read.j
  let klo := (level.my_blocks blockIdx_x).read.k + BLOCK_K * blockIdx_y
  let ghosts := (level.my_boxes box).ghosts
  let jStride := (level.my_boxes box).jStride
  let kStride := (level.my_boxes box).kStride
  { box := box
    jStride := jStride
    kStride := kStride
    h2inv := 1 / (level.h * level.h)
    off := ghosts * (1 + jStride + kStride) + (ilo + jlo * jStride + klo * kStride) }

/-- The registers loaded before the k-loop (lines 64-69). -/
def residual_kernel_init (c : KernelCtx R) (level : Level R) (x_id : VectorId)
    (threadIdx_x threadIdx_y : Nat) : KernelState R :=
  let x := level.ptr c.box x_id c.off
  let beta_k := level.ptr c.box VECTOR_BETA_K c.off
  let ijk : Int := threadIdx_x + threadIdx_y * c.jStride
  { level := level
    xc1 := X x ijk
    xc0 := X x (ijk - c.kStride)
    bkc1 := BK beta_k ijk }

/-- One iteration of the k-loop of `residual_kernel` (lines 72-98). -/
def residual_kernel_iter (USE_HELMHOLTZ : Bool) (c : KernelCtx R)
    (res_id x_id rhs_id : VectorId) (a b : R) (threadIdx_x threadIdx_y : Nat)
    (k : Int) (s : KernelState R) : KernelState R :=
  let rhs := s.level.ptr c.box rhs_id c.off
  let alpha := s.level.ptr c.box VECTOR_ALPHA c.off
  let beta_i := s.level.ptr c.box VECTOR_BETA_I c.off
  let beta_j := s.level.ptr c.box VECTOR_BETA_J c.off
  let beta_k := s.level.ptr c.box VECTOR_BETA_K c.off
  let x := s.level.ptr c.box x_id c.off
  let ijk : Int := threadIdx_x + threadIdx_y * c.jStride + k * c.kStride
  let xc2 := X x (ijk + c.kStride)
  let bkc2 := BK beta_k (ijk + c.kStride)
  let flux :=
      BI beta_i (ijk + 1) * (X x (ijk + 1) - s.xc1)
    + BI beta_i ijk * (X x (ijk - 1) - s.xc1)
    + BJ beta_j (ijk + c.jStride) * (X x (ijk + c.jStride) - s.xc1)
    + BJ beta_j ijk * (X x (ijk - c.jStride) - s.xc1)
    + bkc2 * (xc2 - s.xc1)
    + s.bkc1 * (s.xc0 - s.xc1)
  let Ax :=
    if USE_HELMHOLTZ then a * alpha ijk * s.xc1 - b * c.h2inv * flux
    else (-b) * c.h2inv * flux
  { level := s.level.store c.box res_id (c.off + ijk) (rhs ijk - Ax)
    xc0 := s.xc1
    xc1 := xc2
    bkc1 := bkc2 }

/-- The kernel `residual_kernel<LOG_DIM_I, BLOCK_I, BLOCK_J, BLOCK_K>` as run by the thread
`(threadIdx.x, threadIdx.y)` of the thread block `(blockIdx.x, blockIdx.y)`: the memory it
leaves behind. -/
def residual_kernel (USE_HELMHOLTZ : Bool) (BLOCK_K : Int) (level : Level R)
    (res_id x_id rhs_id : VectorId) (a b : R)
    (blockIdx_x blockIdx_y threadIdx_x threadIdx_y : Nat) : Level R :=
  let idim := (level.my_blocks blockIdx_x).dim.i
  let jdim := (level.my_blocks blockIdx_x).dim.j
  let kdim := min (level.my_blocks blockIdx_x).dim.k BLOCK_K
  if (threadIdx_x : Int) ≥ toUnsigned idim ∨ (threadIdx_y : Int) ≥ toUnsigned jdim then level
  else
    let c := residual_kernel_prologue BLOCK_K level blockIdx_x blockIdx_y
    (forLoop 0 kdim
      (residual_kernel_iter USE_HELMHOLTZ c res_id x_id rhs_id a b threadIdx_x threadIdx_y)
      (residual_kernel_init c level x_id threadIdx_x threadIdx_y)).level

end Kernel

/-! ## `apply_BCs` (`operators.7pt.c`, lines 48-53) -/

/-- The function `apply_BCs`; `apply_BCs_p1` is defined outside the excerpt and is a
parameter. -/
def apply_BCs (STENCIL_FUSE_BC : Bool) (apply_BCs_p1 : Level R → VectorId → Int → Level R)
    (level : Level R) (x_id : VectorId) (shape : Int) : Level R :=
  if STENCIL_FUSE_BC then level else apply_BCs_p1 level x_id shape

/-! ## Build-time smoother selection (`operators.7pt.c`, lines 338-356) -/

/-- The smoother variants of the conditional inclusion chain. -/
inductive Smoother where
  | gsrb
  | chebyshev
  | jacobi
  | l1jacobi
  | symgs
deriving DecidableEq

/-- The source file a branch of the chain includes. -/
inductive SmootherFile where
  | gsrb_c
  | chebyshev_c
  | jacobi_c
  | symgs_c
deriving DecidableEq

/-- What a successful branch of the chain defines and includes. -/
structure SmootherBuild where
  smoother : Smoother
  NUM_SMOOTHS : Nat
  CHEBYSHEV_DEGREE : Option Nat
  file : SmootherFile
deriving DecidableEq

/-- The `#error` of the final `#else` branch. -/
inductive BuildError where
  | no_smoother_selected
deriving DecidableEq

/-- A preprocessor name: undefined (`none`) or defined with an integer value. -/
abbrev PPName := Option Int

/-- The command-line option `-DNAME` defines `NAME` as 1; without it `NAME` is undefined. -/
def dflag (set : Bool) : PPName := if set then some 1 else none

/-- The test `#ifdef NAME`. -/
def ifdef (m : PPName) : Bool := m.isSome

/-- The test `#elif NAME`: the value of `NAME` is non-zero (an undefined name counts as 0). -/
def elifValue (m : PPName) : Bool :=
  match m with
  | some v => v != 0
  | none => false

/-- The conditional chain of lines 338-356. -/
def smoother_select (USE_GSRB USE_CHEBY USE_JACOBI USE_L1JACOBI USE_SYMGS : PPName) :
    Except BuildError SmootherBuild :=
  if ifdef USE_GSRB then
    .ok { smoother := .gsrb, NUM_SMOOTHS := 2, CHEBYSHEV_DEGREE := none, file := .gsrb_c }
  else if elifValue USE_CHEBY then
    .ok { smoother := .chebyshev, NUM_SMOOTHS := 1, CHEBYSHEV_DEGREE := some 4,
          file := .chebyshev_c }
  else if elifValue USE_JACOBI then
    .ok { smoother := .jacobi, NUM_SMOOTHS := 6, CHEBYSHEV_DEGREE := none, file := .jacobi_c }
  else if elifValue USE_L1JACOBI then
    .ok { smoother := .l1jacobi, NUM_SMOOTHS := 6, CHEBYSHEV_DEGREE := none, file := .jacobi_c }
  else if elifValue USE_SYMGS then
    .ok { smoother := .symgs, NUM_SMOOTHS := 2, CHEBYSHEV_DEGREE := none, file := .symgs_c }
  else
    .error .no_smoother_selected

/-! ## `calculate_Dinv` and `Dinv_ijk` (`operators.7pt.c`, lines 55-101) -/

section DinvMacros

variable [LinearOrderedField R]

/-- Macro `calculate_Dinv()`, variable-coefficient Helmholtz (lines 58-68). -/
def calculate_Dinv_helmholtz (e : StencilEnv R) (ijk : Int) : R :=
  1 / (e.a * e.alpha ijk - e.b * e.h2inv * (
      e.beta_i ijk * (e.valid (ijk - 1) - 2)
    + e.beta_j ijk * (e.valid (ijk - e.jStride) - 2)
    + e.beta_k ijk * (e.valid (ijk - e.kStride) - 2)
    + e.beta_i (ijk + 1) * (e.valid (ijk + 1) - 2)
    + e.beta_j (ijk + e.jStride) * (e.valid (ijk + e.jStride) - 2)
    + e.beta_k (ijk + e.kStride) * (e.valid (ijk + e.kStride) - 2)))

/-- Macro `calculate_Dinv()`, variable-coefficient Poisson (lines 70-80). -/
def calculate_Dinv_poisson (e : StencilEnv R) (ijk : Int) : R :=
  1 / ((-e.b) * e.h2inv * (
      e.beta_i ijk * (e.valid (ijk - 1) - 2)
    + e.beta_j ijk * (e.valid (ijk - e.jStride) - 2)
    + e.beta_k ijk * (e.valid (ijk - e.kStride) - 2)
    + e.beta_i (ijk + 1) * (e.valid (ijk + 1) - 2)
    + e.beta_j (ijk + e.jStride) * (e.valid (ijk + e.jStride) - 2)
    + e.beta_k (ijk + e.kStride) * (e.valid (ijk + e.kStride) - 2)))

/-- Macro `calculate_Dinv()`, constant coefficient (lines 83-94). -/
def calculate_Dinv_constant (e : StencilEnv R) (ijk : Int) : R :=
  1 / (e.a - e.b * e.h2inv * (
      e.valid (ijk - 1)
    + e.valid (ijk - e.jStride)
    + e.valid (ijk - e.kStride)
    + e.valid (ijk + 1)
    + e.valid (ijk + e.jStride)
    + e.valid (ijk + e.kStride)
    - 12))

/-- The macro `calculate_Dinv()` as selected by the coefficient mode. -/
def calculate_Dinv (mode : CoeffMode) (e : StencilEnv R) (ijk : Int) : R :=
  match mode with
  | CoeffMode.helmholtz => calculate_Dinv_helmholtz e ijk
  | CoeffMode.poisson => calculate_Dinv_poisson e ijk
  | CoeffMode.constant => calculate_Dinv_constant e ijk

/-- Macro `Dinv_ijk()` (lines 97-101): recomputed when both `STENCIL_FUSE_DINV` and
`STENCIL_FUSE_BC` are defined, read from the array `Dinv` otherwise. -/
def Dinv_ijk (STENCIL_FUSE_DINV STENCIL_FUSE_BC : Bool) (mode : CoeffMode)
    (e : StencilEnv R) (Dinv : Int → R) (ijk : Int) : R :=
  if STENCIL_FUSE_DINV && STENCIL_FUSE_BC then calculate_Dinv mode e ijk else Dinv ijk

end DinvMacros

/-! ## `stencil_get_radius`, `stencil_get_shape` (`operators.7pt.c`, lines 199-200) -/

/-- Modelled from the spec: the stencil footprints of `defines.h` (not part of the excerpt),
the face-only "star" and the full "box" with edges and corners. -/
inductive StencilShape where
  | STENCIL_SHAPE_STAR
  | STENCIL_SHAPE_BOX
deriving DecidableEq

/-- The function `stencil_get_radius` (line 199). -/
def stencil_get_radius : Int := 1

/-- The function `stencil_get_shape` (line 200). -/
def stencil_get_shape : StencilShape := StencilShape.STENCIL_SHAPE_STAR

/-! ## `cuda_residual` (`cuda/stencils/residual.fv2.h`, lines 102-116) -/

/-- The execution configuration of one kernel launch `<<<dim3(gx, gy), dim3(bx, by)>>>`. -/
structure KernelLaunch where
  gridDim_x : Int
  gridDim_y : Int
  blockDim_x : Int
  blockDim_y : Int
deriving DecidableEq

section Launch

variable [LinearOrderedField R]

/-- The macro `STENCIL_KERNEL(log_dim_i, block_i, block_j, block_k)` (lines 103-104): the launch
of `residual_kernel` on the grid `dim3(num_blocks, (block_dim_k+block_k-1)/block_k)` with
thread blocks `dim3(block_i, block_j)`.  The threads are run one after another, in the order
of their indices: one schedule of the launch. -/
def STENCIL_KERNEL (USE_HELMHOLTZ : Bool) (block_i block_j block_k : Int)
    (num_blocks block_dim_k : Int) (level : Level R) (res_id x_id rhs_id : VectorId)
    (a b : R) : Level R :=
  forLoop 0 num_blocks (fun blockIdx_x =>
    forLoop 0 (Int.tdiv (block_dim_k + block_k - 1) block_k) (fun blockIdx_y =>
      forLoop 0 block_j (fun threadIdx_y =>
        forLoop 0 block_i (fun threadIdx_x lvl =>
          residual_kernel USE_HELMHOLTZ block_k lvl res_id x_id rhs_id a b
            blockIdx_x.toNat blockIdx_y.toNat threadIdx_x.toNat threadIdx_y.toNat)))) level

/-- The function `cuda_residual` (lines 107-116): the memory it leaves and the kernel launches
it made.  `BLOCKCOPY_TILE_K` and the template arguments `block_i`, `block_j`, `block_k` that
`STENCIL_KERNEL_LEVEL(log_dim_i)` passes to `STENCIL_KERNEL` are defined outside the excerpt
and are parameters. -/
def cuda_residual (USE_HELMHOLTZ : Bool) (BLOCKCOPY_TILE_K : Int)
    (block_i block_j block_k : Int) (level : Level R) (res_id x_id rhs_id : VectorId)
    (a b : R) : Level R × List KernelLaunch :=
  let num_blocks := level.num_my_blocks
  if num_blocks ≤ 0 then (level, [])
  else
    let block_dim_k := min level.box_dim BLOCKCOPY_TILE_K
    (STENCIL_KERNEL USE_HELMHOLTZ block_i block_j block_k num_blocks block_dim_k level
        res_id x_id rhs_id a b,
      [{ gridDim_x := num_blocks
         gridDim_y := Int.tdiv (block_dim_k + block_k - 1) block_k
         blockDim_x := block_i
         blockDim_y := block_j }])

end Launch

/-! ## `rebuild_operator` and its collaborators (`operators.7pt.c`, lines 202-334) -/

/-- Modelled from the spec: the restriction kinds of `defines.h` (not part of the excerpt),
cell-centred and face-centred along each axis. -/
inductive RestrictType where
  | RESTRICT_CELL
  | RESTRICT_FACE_I
  | RESTRICT_FACE_J
  | RESTRICT_FACE_K
deriving DecidableEq

/-- The functions `rebuild_operator` calls that are defined outside the excerpt:
`restriction(level, id_c, fromLevel, id_f, type)`, `exchange_boundary(level, id, shape)` and
`cudaDeviceSynchronize()`, each as its effect on the memory of the level. -/
structure Collaborators (R : Type) where
  restriction : Level R → VectorId → Level R → VectorId → RestrictType → Level R
  exchange_boundary : Level R → VectorId → StencilShape → Level R
  cudaDeviceSynchronize : Level R → Level R

/-- The steps of `rebuild_operator` that are observed: a collaborator call with its arguments,
the compute phase (lines 230-310, the only place where `Dinv`, `L1inv` and the eigenvalue
estimate are computed), the reduction over the ranks and the store of the estimate. -/
inductive Step where
  | restriction (id_c id_f : VectorId) (type : RestrictType)
  | exchange_boundary (id : VectorId) (shape : StencilShape)
  | cudaDeviceSynchronize
  | compute
  | MPI_Allreduce
  | store_dominant_eigenvalue
deriving DecidableEq

/-- The memory of the level together with the steps executed so far and the local variable
`dominant_eigenvalue`. -/
structure Run (R : Type) where
  level : Level R
  dominant_eigenvalue : R
  steps : List Step

/-- Execute one step: apply its effect to the memory and record it. -/
def Run.step (r : Run R) (st : Step) (f : Level R → Level R) : Run R :=
  { r with level := f r.level, steps := r.steps ++ [st] }

section Rebuild

variable [LinearOrderedField R]

/-- The function `rebuild_operator` (lines 202-334); `printf` and the timers are left out. -/
def rebuild_operator (USE_MPI : Bool) (co : Collaborators R) (level : Level R)
    (fromLevel : Option (Level R)) (a b : R) (others : List R) : Run R :=
  let r0 : Run R := { level := level, dominant_eigenvalue := 0, steps := [] }
  let r1 :=
    match fromLevel with
    | some fromLevel =>
      (((r0.step (Step.restriction VECTOR_ALPHA VECTOR_ALPHA RestrictType.RESTRICT_CELL)
            (fun l => co.restriction l VECTOR_ALPHA fromLevel VECTOR_ALPHA
              RestrictType.RESTRICT_CELL)).step
          (Step.restriction VECTOR_BETA_I VECTOR_BETA_I RestrictType.RESTRICT_FACE_I)
            (fun l => co.restriction l VECTOR_BETA_I fromLevel VECTOR_BETA_I
              RestrictType.RESTRICT_FACE_I)).step
          (Step.restriction VECTOR_BETA_J VECTOR_BETA_J RestrictType.RESTRICT_FACE_J)
            (fun l => co.restriction l VECTOR_BETA_J fromLevel VECTOR_BETA_J
              RestrictType.RESTRICT_FACE_J)).step
          (Step.restriction VECTOR_BETA_K VECTOR_BETA_K RestrictType.RESTRICT_FACE_K)
            (fun l => co.restriction l VECTOR_BETA_K fromLevel VECTOR_BETA_K
              RestrictType.RESTRICT_FACE_K)
    | none => r0
  let r2 := r1.step (Step.exchange_boundary VECTOR_ALPHA StencilShape.STENCIL_SHAPE_BOX)
    (fun l => co.exchange_boundary l VECTOR_ALPHA StencilShape.STENCIL_SHAPE_BOX)
  let r3 := r2.step (Step.exchange_boundary VECTOR_BETA_I StencilShape.STENCIL_SHAPE_BOX)
    (fun l => co.exchange_boundary l VECTOR_BETA_I StencilShape.STENCIL_SHAPE_BOX)
  let r4 := r3.step (Step.exchange_boundary VECTOR_BETA_J StencilShape.STENCIL_SHAPE_BOX)
    (fun l => co.exchange_boundary l VECTOR_BETA_J StencilShape.STENCIL_SHAPE_BOX)
  let r5 := r4.step (Step.exchange_boundary VECTOR_BETA_K StencilShape.STENCIL_SHAPE_BOX)
    (fun l => co.exchange_boundary l VECTOR_BETA_K StencilShape.STENCIL_SHAPE_BOX)
  let r6 := r5.step Step.cudaDeviceSynchronize co.cudaDeviceSynchronize
  let r7 : Run R :=
    { level := (rebuild_operator_compute r6.level a b).1
      dominant_eigenvalue := (rebuild_operator_compute r6.level a b).2
      steps := r6.steps ++ [Step.compute] }
  let r8 : Run R :=
    if USE_MPI then
      { r7 with dominant_eigenvalue := MPI_Allreduce_MAX r7.dominant_eigenvalue others
                steps := r7.steps ++ [Step.MPI_Allreduce] }
    else r7
  let r9 := r8.step Step.store_dominant_eigenvalue
    (fun l => { l with dominant_eigenvalue_of_DinvA := r8.dominant_eigenvalue })
  let r10 := r9.step (Step.exchange_boundary VECTOR_DINV StencilShape.STENCIL_SHAPE_BOX)
    (fun l => co.exchange_boundary l VECTOR_DINV StencilShape.STENCIL_SHAPE_BOX)
  let r11 := r10.step (Step.exchange_boundary VECTOR_L1INV StencilShape.STENCIL_SHAPE_BOX)
    (fun l => co.exchange_boundary l VECTOR_L1INV StencilShape.STENCIL_SHAPE_BOX)
  r11.step Step.cudaDeviceSynchronize co.cudaDeviceSynchronize

end Rebuild

/-! ## Specification vocabulary -/

section SpecDefs

variable [LinearOrderedField R]

/-- The coefficient mode a value of `USE_HELMHOLTZ` selects under
`STENCIL_VARIABLE_COEFFICIENT`. -/
def modeOf (USE_HELMHOLTZ : Bool) : CoeffMode :=
  if USE_HELMHOLTZ then CoeffMode.helmholtz else CoeffMode.poisson

/-- The names a stencil sees inside `residual_kernel`: the kernel's scalars and its pointers
(all offset by `c.off`) read in the memory `level`. -/
def kernel_env (c : KernelCtx R) (level : Level R) (a b : R) : StencilEnv R :=
  { a := a
    b := b
    h2inv := c.h2inv
    alpha := level.ptr c.box VECTOR_ALPHA c.off
    beta_i := level.ptr c.box VECTOR_BETA_I c.off
    beta_j := level.ptr c.box VECTOR_BETA_J c.off
    beta_k := level.ptr c.box VECTOR_BETA_K c.off
    valid := level.ptr c.box VECTOR_VALID c.off
    jStride := c.jStride
    kStride := c.kStride }

/-- The index `ijk` of iteration `n` of the k-loop of `residual_kernel` (line 72). -/
def kernel_ijk (c : KernelCtx R) (threadIdx_x threadIdx_y : Nat) (n : Nat) : Int :=
  threadIdx_x + threadIdx_y * c.jStride + (n : Int) * c.kStride

/-- The register-window invariant of `residual_kernel` at the start of iteration `n`, with
respect to the memory `level` the kernel was launched on: nothing but `res_id` has been
written, and the registers hold `x[ijk-kStride]`, `x[ijk]` and `beta_k[ijk]`. -/
def KernelInv (level : Level R) (c : KernelCtx R) (res_id x_id : VectorId)
    (threadIdx_x threadIdx_y : Nat) (n : Nat) (s : KernelState R) : Prop :=
  (∀ box id addr, id ≠ res_id → s.level.load box id addr = level.load box id addr) ∧
  s.xc0 = level.ptr c.box x_id c.off (kernel_ijk c threadIdx_x threadIdx_y n - c.kStride) ∧
  s.xc1 = level.ptr c.box x_id c.off (kernel_ijk c threadIdx_x threadIdx_y n) ∧
  s.bkc1 = level.ptr c.box VECTOR_BETA_K c.off (kernel_ijk c threadIdx_x threadIdx_y n)

/-- The cell `(i,j,k)` lies in the extent of the owned block number `block` of `level`:
the iteration space of lines 233-257 of `rebuild_operator`. -/
def InBlock (level : Level R) (block i j k : Int) : Prop :=
  0 ≤ block ∧ block < level.num_my_blocks
  ∧ (level.my_blocks block).read.i ≤ i
  ∧ i < (level.my_blocks block).dim.i + (level.my_blocks block).read.i
  ∧ (level.my_blocks block).read.j ≤ j
  ∧ j < (level.my_blocks block).dim.j + (level.my_blocks block).read.j
  ∧ (level.my_blocks block).read.k ≤ k
  ∧ k < (level.my_blocks block).dim.k + (level.my_blocks block).read.k

/-- The index `ijk = i + j*jStride + k*kStride` (line 258) of a cell of a block. -/
def cell_ijk (level : Level R) (block i j k : Int) : Int :=
  i + j * (level.my_boxes (level.my_blocks block).read.box).jStride
    + k * (level.my_boxes (level.my_blocks block).read.box).kStride

/-- The locals of `rebuild_operator` for the block number `block` (lines 234-252). -/
def block_env (level : Level R) (block : Int) (a b : R) : StencilEnv R :=
  box_env level (level.my_blocks block).read.box a b

/-- The element of a vector of the block's box that the ghost-offset pointer addresses at
index `ijk`. -/
def block_load (level : Level R) (block : Int) (id : VectorId) (ijk : Int) : R :=
  level.ptr (level.my_blocks block).read.box id
    ((level.my_boxes (level.my_blocks block).read.box).ghosts
      * (1 + (level.my_boxes (level.my_blocks block).read.box).jStride
          + (level.my_boxes (level.my_blocks block).read.box).kStride)) ijk

/-- The per-cell Gershgorin bound `Di = (Aii + sumAbsAij)/Aii` (line 307) of the cell
`(i,j,k)` of the block number `block`, computed from the coefficients stored in `level`. -/
def cell_Di (level : Level R) (a b : R) (block i j k : Int) : R :=
  rebuild_Di (block_env level block a b) (cell_ijk level block i j k)

/-- What the compute phase of `rebuild_operator` leaves untouched in a memory `lvl` reached
from `level0`: scalars, blocks, box geometry and every vector but `Dinv` and `L1inv`. -/
def RebuildFrame (level0 lvl : Level R) : Prop :=
  lvl.h = level0.h ∧ lvl.num_my_blocks = level0.num_my_blocks
  ∧ lvl.my_blocks = level0.my_blocks
  ∧ (∀ b, (lvl.my_boxes b).jStride = (level0.my_boxes b).jStride
      ∧ (lvl.my_boxes b).kStride = (level0.my_boxes b).kStride
      ∧ (lvl.my_boxes b).ghosts = (level0.my_boxes b).ghosts)
  ∧ ∀ box id addr, id ≠ VECTOR_DINV → id ≠ VECTOR_L1INV →
      lvl.load box id addr = level0.load box id addr

/-- The element `ijk` of `Dinv` and of `L1inv` in box `box` of `lvl` holds the value
`rebuild_operator` computes for it from the coefficients of `level0`. -/
def CellDone (level0 : Level R) (a b : R) (box ijk : Int) (lvl : Level R) : Prop :=
  lvl.load box VECTOR_DINV
      ((level0.my_boxes box).ghosts
        * (1 + (level0.my_boxes box).jStride + (level0.my_boxes box).kStride) + ijk)
    = rebuild_Dinv (box_env level0 box a b) ijk
  ∧ lvl.load box VECTOR_L1INV
      ((level0.my_boxes box).ghosts
        * (1 + (level0.my_boxes box).jStride + (level0.my_boxes box).kStride) + ijk)
    = rebuild_L1inv (box_env level0 box a b) ijk

/-- The six face neighbours `ijk-1`, `ijk-jStride`, `ijk-kStride`, `ijk+1`, `ijk+jStride`,
`ijk+kStride` read by the 7-point stencil at `ijk`, in the order of lines 111-116. -/
def neighbours (e : StencilEnv R) (ijk : Int) : List Int :=
  [ijk - 1, ijk - e.jStride, ijk - e.kStride, ijk + 1, ijk + e.jStride, ijk + e.kStride]

/-- The field obtained from `x` by replacing the value at each face neighbour of `ijk` whose
validity is 0 by `-x[ijk]`: the ghost values a homogeneous Dirichlet boundary fill would
store. -/
def ghost_fill (e : StencilEnv R) (x : Int → R) (ijk : Int) : Int → R :=
  fun p => if p ∈ neighbours e ijk ∧ e.valid p = 0 then -x ijk else x p

/-- The box coordinates `(i,j,k)` of the cell whose `res` element iteration `k` of the thread
`(threadIdx.x, threadIdx.y)` of the thread block `(blockIdx.x, blockIdx.y)` of
`residual_kernel` stores to (lines 42-44, 58, 72, 93). -/
def kernel_cell (BLOCK_K : Int) (level : Level R) (blockIdx_x blockIdx_y threadIdx_x
    threadIdx_y k : Nat) : Int × Int × Int :=
  ((level.my_blocks blockIdx_x).read.i + threadIdx_x,
   (level.my_blocks blockIdx_x).read.j + threadIdx_y,
   (level.my_blocks blockIdx_x).read.k + BLOCK_K * blockIdx_y + k)

/-- Iteration `k` of the k-loop is executed by the thread `(threadIdx.x, threadIdx.y)` of a
thread block working on the block `blockIdx.x`: the thread is not stopped by the guard of
line 37 and `k < kdim` (line 71). -/
def KernelRuns (BLOCK_K : Int) (level : Level R) (blockIdx_x threadIdx_x threadIdx_y k : Nat) :
    Prop :=
  (threadIdx_x : Int) < toUnsigned (level.my_blocks blockIdx_x).dim.i
  ∧ (threadIdx_y : Int) < toUnsigned (level.my_blocks blockIdx_x).dim.j
  ∧ (k : Int) < min (level.my_blocks blockIdx_x).dim.k BLOCK_K

/-- The box coordinates `(i,j,k)` lie in the real extent of the block number `block`. -/
def InExtent (level : Level R) (block : Int) (c : Int × Int × Int) : Prop :=
  (level.my_blocks block).read.i ≤ c.1
  ∧ c.1 < (level.my_blocks block).read.i + (level.my_blocks block).dim.i
  ∧ (level.my_blocks block).read.j ≤ c.2.1
  ∧ c.2.1 < (level.my_blocks block).read.j + (level.my_blocks block).dim.j
  ∧ (level.my_blocks block).read.k ≤ c.2.2
  ∧ c.2.2 < (level.my_blocks block).read.k + (level.my_blocks block).dim.k

/-- The buffer offset of the cell `c` of the box of the block number `block`, by the
addressing formula with the strides and ghost width stored in the box. -/
def cell_index (level : Level R) (block : Int) (c : Int × Int × Int) : Int :=
  index (level.my_boxes (level.my_blocks block).read.box).ghosts
    (level.my_boxes (level.my_blocks block).read.box).jStride
    (level.my_boxes (level.my_blocks block).read.box).kStride c.1 c.2.1 c.2.2

/-- The state of a thread of `residual_kernel` at the start of iteration `k` of its k-loop:
the first `k` iterations run from the registers loaded before the loop. -/
def kernel_state_at (USE_HELMHOLTZ : Bool) (BLOCK_K : Int) (level : Level R)
    (res_id x_id rhs_id : VectorId) (a b : R)
    (blockIdx_x blockIdx_y threadIdx_x threadIdx_y k : Nat) : KernelState R :=
  forLoopN 0
    (residual_kernel_iter USE_HELMHOLTZ
      (residual_kernel_prologue BLOCK_K level blockIdx_x blockIdx_y)
      res_id x_id rhs_id a b threadIdx_x threadIdx_y) k
    (residual_kernel_init (residual_kernel_prologue BLOCK_K level blockIdx_x blockIdx_y) level
      x_id threadIdx_x threadIdx_y)

/-- The value found in the `res` element of the cell of iteration `k` right after that
iteration of the thread: the residual the kernel writes at the cell. -/
def kernel_stored_value (USE_HELMHOLTZ : Bool) (BLOCK_K : Int) (level : Level R)
    (res_id x_id rhs_id : VectorId) (a b : R)
    (blockIdx_x blockIdx_y threadIdx_x threadIdx_y k : Nat) : R :=
  (residual_kernel_iter USE_HELMHOLTZ
      (residual_kernel_prologue BLOCK_K level blockIdx_x blockIdx_y)
      res_id x_id rhs_id a b threadIdx_x threadIdx_y (k : Int)
      (kernel_state_at USE_HELMHOLTZ BLOCK_K level res_id x_id rhs_id a b
        blockIdx_x blockIdx_y threadIdx_x threadIdx_y k)).level.load
    (level.my_blocks blockIdx_x).read.box res_id
    (cell_index level blockIdx_x
      (kernel_cell BLOCK_K level blockIdx_x blockIdx_y threadIdx_x threadIdx_y k))

/-- The `rhs` element of the cell of iteration `k` as the thread reads it in that
iteration. -/
def kernel_rhs_value (USE_HELMHOLTZ : Bool) (BLOCK_K : Int) (level : Level R)
    (res_id x_id rhs_id : VectorId) (a b : R)
    (blockIdx_x blockIdx_y threadIdx_x threadIdx_y k : Nat) : R :=
  (kernel_state_at USE_HELMHOLTZ BLOCK_K level res_id x_id rhs_id a b
      blockIdx_x blockIdx_y threadIdx_x threadIdx_y k).level.load
    (level.my_blocks blockIdx_x).read.box rhs_id
    (cell_index level blockIdx_x
      (kernel_cell BLOCK_K level blockIdx_x blockIdx_y threadIdx_x threadIdx_y k))

/-- The box index `ijk` of the cell of iteration `k` of a thread of `residual_kernel`. -/
def kernel_cell_ijk (BLOCK_K : Int) (level : Level R)
    (blockIdx_x blockIdx_y threadIdx_x threadIdx_y k : Nat) : Int :=
  cell_ijk level blockIdx_x
    (kernel_cell BLOCK_K level blockIdx_x blockIdx_y threadIdx_x threadIdx_y k).1
    (kernel_cell BLOCK_K level blockIdx_x blockIdx_y threadIdx_x threadIdx_y k).2.1
    (kernel_cell BLOCK_K level blockIdx_x blockIdx_y threadIdx_x threadIdx_y k).2.2

/-- The coefficient multiplying `x[ijk]` in the fused variable-coefficient `apply_op_ijk`
(lines 107-130): `a*alpha[ijk]` (Helmholtz only) minus `b*h2inv` times the sum over the six
faces of `beta_face*(valid[neighbour] - 2)`. -/
def fused_diag (mode : CoeffMode) (e : StencilEnv R) (ijk : Int) : R :=
  (if mode = CoeffMode.helmholtz then e.a * e.alpha ijk else 0)
  - e.b * e.h2inv * (
      e.beta_i ijk * (e.valid (ijk - 1) - 2)
    + e.beta_j ijk * (e.valid (ijk - e.jStride) - 2)
    + e.beta_k ijk * (e.valid (ijk - e.kStride) - 2)
    + e.beta_i (ijk + 1) * (e.valid (ijk + 1) - 2)
    + e.beta_j (ijk + e.jStride) * (e.valid (ijk + e.jStride) - 2)
    + e.beta_k (ijk + e.kStride) * (e.valid (ijk + e.kStride) - 2))

/-- The six off-diagonal coefficients of the fused variable-coefficient `apply_op_ijk`
(lines 107-130), each with the neighbour it multiplies:
`-b*h2inv*beta_face*valid[neighbour]`, in the order of lines 111-116. -/
def fused_offdiag (e : StencilEnv R) (ijk : Int) : List (Int × R) :=
  [(ijk - 1, -(e.b * e.h2inv * e.beta_i ijk * e.valid (ijk - 1))),
   (ijk - e.jStride, -(e.b * e.h2inv * e.beta_j ijk * e.valid (ijk - e.jStride))),
   (ijk - e.kStride, -(e.b * e.h2inv * e.beta_k ijk * e.valid (ijk - e.kStride))),
   (ijk + 1, -(e.b * e.h2inv * e.beta_i (ijk + 1) * e.valid (ijk + 1))),
   (ijk + e.jStride,
     -(e.b * e.h2inv * e.beta_j (ijk + e.jStride) * e.valid (ijk + e.jStride))),
   (ijk + e.kStride,
     -(e.b * e.h2inv * e.beta_k (ijk + e.kStride) * e.valid (ijk + e.kStride)))]

/-- The field that is 1 at the element `q` and 0 at every other element. -/
def unit_field (q : Int) : Int → R :=
  fun r => if r = q then 1 else 0

/-- The coefficient multiplying `x[q]` in the un-fused `apply_op_ijk(x)` expanded at
`ijk = p` (lines 155-178): the macro is a sum of products of a coefficient with an element of
`x`, so this is its value on the field that is 1 at `q` and 0 elsewhere. -/
def unfused_coeff (mode : CoeffMode) (e : StencilEnv R) (p q : Int) : R :=
  apply_op_ijk false mode e (unit_field q) p

end SpecDefs

/-! ## Test inputs -/

/-- A test box over `ℚ`: 2x2x2 cells with one ghost layer (`jStride = 4`, `kStride = 16`),
unit coefficients, validity 1, a field `other 0` with a few distinct values and a zero field
`other 1`. -/
def exBox : Box ℚ :=
  { jStride := 4
    kStride := 16
    ghosts := 1
    vectors := fun id p =>
      match id with
      | VECTOR_ALPHA => 1
      | VECTOR_BETA_I => 1
      | VECTOR_BETA_J => 1
      | VECTOR_BETA_K => 1
      | VECTOR_VALID => 1
      | other 0 => if p = 42 then 5 else if p = 43 then 7 else if p = 58 then 3 else 1
      | _ => 0 }

/-- A test box over `ℚ` with constant coefficient fields: `alpha = -6000000001`, every `beta`
equal to `1000000000`, validity 1 (all values are integers below `2^53`). -/
def steepBox : Box ℚ :=
  { jStride := 3
    kStride := 9
    ghosts := 1
    vectors := fun id _ =>
      match id with
      | VECTOR_ALPHA => -6000000001
      | VECTOR_BETA_I => 1000000000
      | VECTOR_BETA_J => 1000000000
      | VECTOR_BETA_K => 1000000000
      | VECTOR_VALID => 1
      | _ => 0 }

/-- A test level over `ℚ`: spacing 1 and one block made of the single cell of `steepBox`. -/
def steepLevel : Level ℚ :=
  { h := 1
    my_rank := 0
    box_dim := 1
    num_my_blocks := 1
    my_blocks := fun _ => { dim := { i := 1, j := 1, k := 1 },
                            read := { box := 0, i := 0, j := 0, k := 0 } }
    my_boxes := fun _ => steepBox
    dominant_eigenvalue_of_DinvA := 0 }

/-- A test box over `ℚ`: 6x6x6 cells with one ghost layer (`jStride = 8`, `kStride = 64`,
a buffer of 512 elements per vector), unit coefficients and a field `other 0` equal to 1. -/
def tailBox : Box ℚ :=
  { jStride := 8
    kStride := 64
    ghosts := 1
    vectors := fun id _ =>
      match id with
      | VECTOR_ALPHA => 1
      | VECTOR_BETA_I => 1
      | VECTOR_BETA_J => 1
      | VECTOR_BETA_K => 1
      | VECTOR_VALID => 1
      | other 0 => 1
      | _ => 0 }

/-- A test level over `ℚ`: `box_dim = 6`, spacing 1, and one block covering the 6x6x6 cells
of `tailBox`. -/
def tailLevel : Level ℚ :=
  { h := 1
    my_rank := 0
    box_dim := 6
    num_my_blocks := 1
    my_blocks := fun _ => { dim := { i := 6, j := 6, k := 6 },
                            read := { box := 0, i := 0, j := 0, k := 0 } }
    my_boxes := fun _ => tailBox
    dominant_eigenvalue_of_DinvA := 0 }

/-- A test level over `ℚ` that owns no block. -/
def emptyLevel : Level ℚ :=
  { h := 1
    my_rank := 1
    box_dim := 8
    num_my_blocks := 0
    my_blocks := fun _ => { dim := { i := 0, j := 0, k := 0 },
                            read := { box := 0, i := 0, j := 0, k := 0 } }
    my_boxes := fun _ => exBox
    dominant_eigenvalue_of_DinvA := 0 }

/-- A test environment over `ℚ`: unit scalars and coefficients, strides 4 and 16, and a
validity mask that is 0 at the single element 22. -/
def exEnv : StencilEnv ℚ :=
  { a := 1
    b := 1
    h2inv := 1
    alpha := fun _ => 1
    beta_i := fun _ => 1
    beta_j := fun _ => 1
    beta_k := fun _ => 1
    valid := fun p => if p = 22 then 0 else 1
    jStride := 4
    kStride := 16 }

/-- A test environment over `ℚ` with coefficients that differ from face to face: `a = 2`,
`b = 3`, `h2inv = 5`, `alpha[p] = p`, `beta_i[p] = p + 1`, `beta_j[p] = 2p + 3`,
`beta_k[p] = p*p`, strides 4 and 16. -/
def faceEnv : StencilEnv ℚ :=
  { a := 2
    b := 3
    h2inv := 5
    alpha := fun p => p
    beta_i := fun p => p + 1
    beta_j := fun p => 2 * p + 3
    beta_k := fun p => p * p
    valid := fun _ => 1
    jStride := 4
    kStride := 16 }

/-- A test field over `ℚ` with value 5 at element 21 and 100 at element 22. -/
def exField : Int → ℚ :=
  fun p => if p = 21 then 5 else if p = 22 then 100 else 1

/-- A test field over `ℚ` that differs from `exField` at element 26 only, an edge neighbour
(`21 + 1 + jStride`) of the cell 21 in `exEnv`. -/
def exField3 : Int → ℚ :=
  fun p => if p = 21 then 5 else if p = 22 then 100 else if p = 26 then 9 else 1

/-- A test field over `ℚ` that differs from `exField` at element 22 only. -/
def exField2 : Int → ℚ :=
  fun p => if p = 21 then 5 else if p = 22 then 7 else 1

/-- The box of the constant-coefficient 7-point Laplacian on 8x8x8 cells with one ghost layer
(`jStride = 10`, `kStride = 100`): `alpha = beta = 1` and `valid = 1` everywhere. -/
def lapBox : Box ℚ :=
  { jStride := 10
    kStride := 100
    ghosts := 1
    vectors := fun id _ =>
      match id with
      | VECTOR_ALPHA => 1
      | VECTOR_BETA_I => 1
      | VECTOR_BETA_J => 1
      | VECTOR_BETA_K => 1
      | VECTOR_VALID => 1
      | _ => 0 }

/-- The 8x8x8 level with `h = 1` whose single block covers the cells of `lapBox`. -/
def lapLevel : Level ℚ :=
  { h := 1
    my_rank := 0
    box_dim := 8
    num_my_blocks := 1
    my_blocks := fun _ => { dim := { i := 8, j := 8, k := 8 },
                            read := { box := 0, i := 0, j := 0, k := 0 } }
    my_boxes := fun _ => lapBox
    dominant_eigenvalue_of_DinvA := 0 }

/-- A test level over `ℚ`: spacing 1 and a single block covering the cells of `exBox`. -/
def exLevel : Level ℚ :=
  { h := 1
    my_rank := 0
    box_dim := 2
    num_my_blocks := 1
    my_blocks := fun _ => { dim := { i := 2, j := 2, k := 2 },
                            read := { box := 0, i := 0, j := 0, k := 0 } }
    my_boxes := fun _ => exBox
    dominant_eigenvalue_of_DinvA := 0 }

/-! ## Memory and loop lemmas -/

section Lemmas

theorem Level.load_store (level : Level R) (box box' : Int) (id id' : VectorId)
    (addr addr' : Int) (v : R) :
    (level.store box id addr v).load box' id' addr'
      = if box' = box ∧ id' = id ∧ addr' = addr then v else level.load box' id' addr' := by
  unfold Level.store Level.load Box.store
  by_cases hb : box' = box
  · by_cases hi : id' = id ∧ addr' = addr
    · simp [hb, hi]
    · have hi' : ¬ (id' = id ∧ addr' = addr) := hi
      simp only [hb, if_true, true_and, if_neg hi']
  · simp [hb]

theorem Level.load_store_ne_id (level : Level R) (box box' : Int) (id id' : VectorId)
    (addr addr' : Int) (v : R) (h : id' ≠ id) :
    (level.store box id addr v).load box' id' addr' = level.load box' id' addr' := by
  rw [Level.load_store, if_neg]
  rintro ⟨_, h', _⟩
  exact h h'

theorem Level.load_store_same (level : Level R) (box : Int) (id : VectorId) (addr : Int)
    (v : R) : (level.store box id addr v).load box id addr = v := by
  rw [Level.load_store, if_pos ⟨rfl, rfl, rfl⟩]

theorem Level.store_my_blocks (level : Level R) (box : Int) (id : VectorId) (addr : Int)
    (v : R) : (level.store box id addr v).my_blocks = level.my_blocks := rfl

theorem Level.store_num_my_blocks (level : Level R) (box : Int) (id : VectorId) (addr : Int)
    (v : R) : (level.store box id addr v).num_my_blocks = level.num_my_blocks := rfl

theorem Level.store_h (level : Level R) (box : Int) (id : VectorId) (addr : Int)
    (v : R) : (level.store box id addr v).h = level.h := rfl

theorem Level.store_jStride (level : Level R) (box b : Int) (id : VectorId) (addr : Int)
    (v : R) : ((level.store box id addr v).my_boxes b).jStride = (level.my_boxes b).jStride := by
  unfold Level.store Box.store
  by_cases hb : b = box <;> simp [hb]

theorem Level.store_kStride (level : Level R) (box b : Int) (id : VectorId) (addr : Int)
    (v : R) : ((level.store box id addr v).my_boxes b).kStride = (level.my_boxes b).kStride := by
  unfold Level.store Box.store
  by_cases hb : b = box <;> simp [hb]

theorem Level.store_ghosts (level : Level R) (box b : Int) (id : VectorId) (addr : Int)
    (v : R) : ((level.store box id addr v).my_boxes b).ghosts = (level.my_boxes b).ghosts := by
  unfold Level.store Box.store
  by_cases hb : b = box <;> simp [hb]

/-- An invariant kept by every iteration holds after the loop. -/
theorem forLoopN_invariant {σ : Type} (P : σ → Prop) (lo : Int) (body : Int → σ → σ)
    (n : Nat) (s : σ) (h0 : P s)
    (hstep : ∀ m : Nat, m < n → ∀ t, P t → P (body (lo + (m : Int)) t)) :
    P (forLoopN lo body n s) := by
  induction n with
  | zero => exact h0
  | succ n ih =>
    exact hstep n (Nat.lt_succ_self n) _
      (ih (fun m hm t ht => hstep m (Nat.lt_succ_of_lt hm) t ht))

/-- A property established by iteration `m` under an invariant, and kept by every iteration
under that invariant, holds after the loop. -/
theorem forLoopN_established {σ : Type} (Inv D : σ → Prop) (lo : Int) (body : Int → σ → σ)
    (n : Nat) (s : σ) (m : Nat) (hm : m < n) (h0 : Inv s)
    (hinv : ∀ i : Nat, i < n → ∀ t, Inv t → Inv (body (lo + (i : Int)) t))
    (hest : ∀ t, Inv t → D (body (lo + (m : Int)) t))
    (hkeep : ∀ i : Nat, i < n → ∀ t, Inv t → D t → D (body (lo + (i : Int)) t)) :
    D (forLoopN lo body n s) := by
  induction n with
  | zero => exact absurd hm (Nat.not_lt_zero m)
  | succ n ih =>
    have hI : Inv (forLoopN lo body n s) :=
      forLoopN_invariant Inv lo body n s h0 (fun i hi t ht => hinv i (Nat.lt_succ_of_lt hi) t ht)
    rcases Nat.lt_succ_iff_lt_or_eq.mp hm with hlt | heq
    · exact hkeep n (Nat.lt_succ_self n) _ hI
        (ih hlt (fun i hi t ht => hinv i (Nat.lt_succ_of_lt hi) t ht)
          (fun i hi t ht hd => hkeep i (Nat.lt_succ_of_lt hi) t ht hd))
    · subst heq
      exact hest _ hI

/-- Running `m + n` iterations is running `m` iterations and then the next `n`. -/
theorem forLoopN_split {σ : Type} (lo : Int) (body : Int → σ → σ) (m n : Nat) (s : σ) :
    forLoopN lo body (m + n) s = forLoopN (lo + (m : Int)) body n (forLoopN lo body m s) := by
  induction n with
  | zero => rfl
  | succ n ih =>
    show body (lo + ((m + n : Nat) : Int)) (forLoopN lo body (m + n) s) = _
    rw [ih]
    simp only [forLoopN]
    congr 1
    push_cast
    ring

theorem forLoop_invariant {σ : Type} (P : σ → Prop) (lo hi : Int) (body : Int → σ → σ)
    (s : σ) (h0 : P s)
    (hstep : ∀ v : Int, lo ≤ v → v < hi → ∀ t, P t → P (body v t)) :
    P (forLoop lo hi body s) := by
  unfold forLoop
  apply forLoopN_invariant P lo body _ s h0
  intro m hm t ht
  apply hstep _ (by omega) (by omega) t ht

theorem forLoop_established {σ : Type} (Inv D : σ → Prop) (lo hi : Int) (body : Int → σ → σ)
    (s : σ) (v : Int) (hlo : lo ≤ v) (hhi : v < hi) (h0 : Inv s)
    (hinv : ∀ i : Int, lo ≤ i → i < hi → ∀ t, Inv t → Inv (body i t))
    (hest : ∀ t, Inv t → D (body v t))
    (hkeep : ∀ i : Int, lo ≤ i → i < hi → ∀ t, Inv t → D t → D (body i t)) :
    D (forLoop lo hi body s) := by
  unfold forLoop
  have hv : lo + (((v - lo).toNat : Nat) : Int) = v := by omega
  apply forLoopN_established Inv D lo body _ s (v - lo).toNat (by omega) h0
  · intro i hi' t ht
    exact hinv _ (by omega) (by omega) t ht
  · intro t ht
    rw [hv]
    exact hest t ht
  · intro i hi' t ht hd
    exact hkeep _ (by omega) (by omega) t ht hd

theorem RebuildFrame.refl (level : Level R) : RebuildFrame level level :=
  ⟨rfl, rfl, rfl, fun _ => ⟨rfl, rfl, rfl⟩, fun _ _ _ _ _ => rfl⟩

theorem RebuildFrame.store (level0 lvl : Level R) (box : Int) (id : VectorId) (addr : Int)
    (v : R) (hid : id = VECTOR_DINV ∨ id = VECTOR_L1INV) (hf : RebuildFrame level0 lvl) :
    RebuildFrame level0 (lvl.store box id addr v) := by
  obtain ⟨hh, hn, hb, hs, hmem⟩ := hf
  refine ⟨hh, hn, hb, fun b' => ?_, fun box' id' addr' h1 h2 => ?_⟩
  · rw [Level.store_jStride, Level.store_kStride, Level.store_ghosts]
    exact hs b'
  · rw [Level.load_store_ne_id _ _ _ _ _ _ _ _ (by rcases hid with h | h <;> rw [h] <;> assumption)]
    exact hmem box' id' addr' h1 h2

/-- An invariant kept by every body execution holds after a triple loop nest. -/
theorem forLoop3_invariant {σ : Type} (P : σ → Prop) (klo khi jlo jhi ilo ihi : Int)
    (body : Int → Int → Int → σ → σ) (s : σ) (h0 : P s)
    (hstep : ∀ k j i : Int, klo ≤ k → k < khi → jlo ≤ j → j < jhi → ilo ≤ i → i < ihi →
      ∀ t, P t → P (body k j i t)) :
    P (forLoop klo khi (fun k => forLoop jlo jhi (fun j => forLoop ilo ihi (fun i =>
      body k j i))) s) := by
  apply forLoop_invariant P klo khi _ s h0
  intro k hk1 hk2 t ht
  apply forLoop_invariant P jlo jhi _ t ht
  intro j hj1 hj2 t' ht'
  apply forLoop_invariant P ilo ihi _ t' ht'
  intro i hi1 hi2 t'' ht''
  exact hstep k j i hk1 hk2 hj1 hj2 hi1 hi2 t'' ht''

/-- A property established by the body at `(k0,j0,i0)` under an invariant, and kept by every
body execution under that invariant, holds after a triple loop nest that visits
`(k0,j0,i0)`. -/
theorem forLoop3_established {σ : Type} (Inv D : σ → Prop)
    (klo khi jlo jhi ilo ihi : Int) (body : Int → Int → Int → σ → σ) (s : σ)
    (k0 j0 i0 : Int) (hk1 : klo ≤ k0) (hk2 : k0 < khi) (hj1 : jlo ≤ j0) (hj2 : j0 < jhi)
    (hi1 : ilo ≤ i0) (hi2 : i0 < ihi) (h0 : Inv s)
    (hinv : ∀ k j i : Int, klo ≤ k → k < khi → jlo ≤ j → j < jhi → ilo ≤ i → i < ihi →
      ∀ t, Inv t → Inv (body k j i t))
    (hest : ∀ t, Inv t → D (body k0 j0 i0 t))
    (hkeep : ∀ k j i : Int, klo ≤ k → k < khi → jlo ≤ j → j < jhi → ilo ≤ i → i < ihi →
      ∀ t, Inv t → D t → D (body k j i t)) :
    D (forLoop klo khi (fun k => forLoop jlo jhi (fun j => forLoop ilo ihi (fun i =>
      body k j i))) s) := by
  have hInvI : ∀ k j : Int, klo ≤ k → k < khi → jlo ≤ j → j < jhi → ∀ t, Inv t →
      Inv (forLoop ilo ihi (fun i => body k j i) t) := by
    intro k j a1 a2 a3 a4 t ht
    exact forLoop_invariant Inv ilo ihi _ t ht (fun i b1 b2 u hu => hinv k j i a1 a2 a3 a4 b1 b2 u hu)
  have hBothI : ∀ k j : Int, klo ≤ k → k < khi → jlo ≤ j → j < jhi → ∀ t, Inv t → D t →
      D (forLoop ilo ihi (fun i => body k j i) t) := by
    intro k j a1 a2 a3 a4 t ht hd
    exact (forLoop_invariant (fun u => Inv u ∧ D u) ilo ihi _ t ⟨ht, hd⟩
      (fun i b1 b2 u hu => ⟨hinv k j i a1 a2 a3 a4 b1 b2 u hu.1,
        hkeep k j i a1 a2 a3 a4 b1 b2 u hu.1 hu.2⟩)).2
  have hInvJ : ∀ k : Int, klo ≤ k → k < khi → ∀ t, Inv t →
      Inv (forLoop jlo jhi (fun j => forLoop ilo ihi (fun i => body k j i)) t) := by
    intro k a1 a2 t ht
    exact forLoop_invariant Inv jlo jhi _ t ht (fun j b1 b2 u hu => hInvI k j a1 a2 b1 b2 u hu)
  have hBothJ : ∀ k : Int, klo ≤ k → k < khi → ∀ t, Inv t → D t →
      D (forLoop jlo jhi (fun j => forLoop ilo ihi (fun i => body k j i)) t) := by
    intro k a1 a2 t ht hd
    exact (forLoop_invariant (fun u => Inv u ∧ D u) jlo jhi _ t ⟨ht, hd⟩
      (fun j b1 b2 u hu => ⟨hInvI k j a1 a2 b1 b2 u hu.1,
        hBothI k j a1 a2 b1 b2 u hu.1 hu.2⟩)).2
  apply forLoop_established Inv D klo khi _ s k0 hk1 hk2 h0 hInvJ
  · intro t ht
    apply forLoop_established Inv D jlo jhi _ t j0 hj1 hj2 ht
      (fun j b1 b2 u hu => hInvI k0 j hk1 hk2 b1 b2 u hu)
    · intro t' ht'
      exact forLoop_established Inv D ilo ihi _ t' i0 hi1 hi2 ht'
        (fun i b1 b2 u hu => hinv k0 j0 i hk1 hk2 hj1 hj2 b1 b2 u hu) hest
        (fun i b1 b2 u hu hd => hkeep k0 j0 i hk1 hk2 hj1 hj2 b1 b2 u hu hd)
    · exact fun j b1 b2 u hu hd => hBothI k0 j hk1 hk2 b1 b2 u hu hd
  · exact hBothJ

/-- Two-digit mixed radix: a digit below `n` and the rest are determined by the number. -/
theorem mixed_radix_unique (n a b a' b' : Int) (ha : 0 ≤ a) (han : a < n) (ha' : 0 ≤ a')
    (han' : a' < n) (h : a + b * n = a' + b' * n) : a = a' ∧ b = b' := by
  have hb : b = b' := by
    rcases lt_trichotomy b b' with hlt | heq | hgt
    · exfalso
      have h1 : b + 1 ≤ b' := hlt
      nlinarith
    · exact heq
    · exfalso
      have h1 : b' + 1 ≤ b := hgt
      nlinarith
  subst hb
  exact ⟨by linarith, rfl⟩

/-- The addressing formula maps padded coordinates into the buffer. -/
theorem index_range (dim_i dim_j dim_k ghosts : Int) :
    ∀ i j k : Int, -ghosts ≤ i → i < dim_i + ghosts → -ghosts ≤ j → j < dim_j + ghosts →
      -ghosts ≤ k → k < dim_k + ghosts →
      0 ≤ index ghosts (dim_i + 2 * ghosts) ((dim_i + 2 * ghosts) * (dim_j + 2 * ghosts)) i j k
      ∧ index ghosts (dim_i + 2 * ghosts) ((dim_i + 2 * ghosts) * (dim_j + 2 * ghosts)) i j k
          < (dim_i + 2 * ghosts) * (dim_j + 2 * ghosts) * (dim_k + 2 * ghosts) := by
  intro i j k hi1 hi2 hj1 hj2 hk1 hk2
  have hidx : index ghosts (dim_i + 2 * ghosts) ((dim_i + 2 * ghosts) * (dim_j + 2 * ghosts))
      i j k = (i + ghosts) + (j + ghosts) * (dim_i + 2 * ghosts)
        + (k + ghosts) * ((dim_i + 2 * ghosts) * (dim_j + 2 * ghosts)) := by
    unfold index
    ring
  rw [hidx]
  have a0 : 0 ≤ i + ghosts := by omega
  have a1 : i + ghosts + 1 ≤ dim_i + 2 * ghosts := by omega
  have b0 : 0 ≤ j + ghosts := by omega
  have b1 : j + ghosts + 1 ≤ dim_j + 2 * ghosts := by omega
  have c0 : 0 ≤ k + ghosts := by omega
  have c1 : k + ghosts + 1 ≤ dim_k + 2 * ghosts := by omega
  have hJ : 0 ≤ dim_i + 2 * ghosts := by omega
  have hD : 0 ≤ dim_j + 2 * ghosts := by omega
  have hJD : 0 ≤ (dim_i + 2 * ghosts) * (dim_j + 2 * ghosts) := mul_nonneg hJ hD
  have t1 : 0 ≤ (j + ghosts) * (dim_i + 2 * ghosts) := mul_nonneg b0 hJ
  have t2 : 0 ≤ (k + ghosts) * ((dim_i + 2 * ghosts) * (dim_j + 2 * ghosts)) :=
    mul_nonneg c0 hJD
  have u1 : (j + ghosts + 1) * (dim_i + 2 * ghosts)
      ≤ (dim_j + 2 * ghosts) * (dim_i + 2 * ghosts) := mul_le_mul_of_nonneg_right b1 hJ
  have u2 : (k + ghosts + 1) * ((dim_i + 2 * ghosts) * (dim_j + 2 * ghosts))
      ≤ (dim_k + 2 * ghosts) * ((dim_i + 2 * ghosts) * (dim_j + 2 * ghosts)) :=
    mul_le_mul_of_nonneg_right c1 hJD
  refine ⟨by linarith, ?_⟩
  nlinarith

/-- The addressing formula is injective on padded coordinates. -/
theorem index_injective (dim_i dim_j dim_k ghosts : Int) :
    ∀ i j k i' j' k' : Int,
      -ghosts ≤ i → i < dim_i + ghosts → -ghosts ≤ j → j < dim_j + ghosts →
      -ghosts ≤ k → k < dim_k + ghosts →
      -ghosts ≤ i' → i' < dim_i + ghosts → -ghosts ≤ j' → j' < dim_j + ghosts →
      -ghosts ≤ k' → k' < dim_k + ghosts →
      index ghosts (dim_i + 2 * ghosts) ((dim_i + 2 * ghosts) * (dim_j + 2 * ghosts)) i j k
        = index ghosts (dim_i + 2 * ghosts) ((dim_i + 2 * ghosts) * (dim_j + 2 * ghosts))
            i' j' k' →
      i = i' ∧ j = j' ∧ k = k' := by
  intro i j k i' j' k' hi1 hi2 hj1 hj2 hk1 hk2 hi1' hi2' hj1' hj2' hk1' hk2' h
  have hJ : 0 ≤ dim_i + 2 * ghosts := by omega
  have low : ∀ x y : Int, 0 ≤ x + ghosts → x + ghosts + 1 ≤ dim_i + 2 * ghosts →
      0 ≤ y + ghosts → y + ghosts + 1 ≤ dim_j + 2 * ghosts →
      0 ≤ (x + ghosts) + (y + ghosts) * (dim_i + 2 * ghosts)
      ∧ (x + ghosts) + (y + ghosts) * (dim_i + 2 * ghosts)
          < (dim_i + 2 * ghosts) * (dim_j + 2 * ghosts) := by
    intro x y x0 x1 y0 y1
    have t1 : 0 ≤ (y + ghosts) * (dim_i + 2 * ghosts) := mul_nonneg y0 hJ
    have u1 : (y + ghosts + 1) * (dim_i + 2 * ghosts)
        ≤ (dim_j + 2 * ghosts) * (dim_i + 2 * ghosts) := mul_le_mul_of_nonneg_right y1 hJ
    refine ⟨by linarith, ?_⟩
    nlinarith
  have h' : ((i + ghosts) + (j + ghosts) * (dim_i + 2 * ghosts))
        + (k + ghosts) * ((dim_i + 2 * ghosts) * (dim_j + 2 * ghosts))
      = ((i' + ghosts) + (j' + ghosts) * (dim_i + 2 * ghosts))
        + (k' + ghosts) * ((dim_i + 2 * ghosts) * (dim_j + 2 * ghosts)) := by
    unfold index at h
    linarith
  obtain ⟨l1, l2⟩ := low i j (by omega) (by omega) (by omega) (by omega)
  obtain ⟨l1', l2'⟩ := low i' j' (by omega) (by omega) (by omega) (by omega)
  obtain ⟨hlow, hk⟩ := mixed_radix_unique _ _ _ _ _ l1 l2 l1' l2' h'
  obtain ⟨hi, hj⟩ := mixed_radix_unique (dim_i + 2 * ghosts) (i + ghosts) (j + ghosts)
    (i' + ghosts) (j' + ghosts) (by omega) (by omega) (by omega) (by omega) hlow
  exact ⟨by omega, by omega, by omega⟩

end Lemmas

/-! ## The register window of `residual_kernel` -/

section KernelLemmas

variable [LinearOrderedField R]

theorem kernel_window (USE_HELMHOLTZ : Bool) (c : KernelCtx R) (level : Level R)
    (res_id x_id rhs_id : VectorId) (a b : R) (tx ty : Nat)
    (hx : x_id ≠ res_id) (hbk : VECTOR_BETA_K ≠ res_id) (n : Nat) :
    KernelInv level c res_id x_id tx ty n
      (forLoopN 0 (residual_kernel_iter USE_HELMHOLTZ c res_id x_id rhs_id a b tx ty) n
        (residual_kernel_init c level x_id tx ty)) := by
  induction n with
  | zero =>
    refine ⟨fun _ _ _ _ => rfl, ?_, ?_, ?_⟩ <;>
      simp [forLoopN, residual_kernel_init, kernel_ijk, X, BK]
  | succ n ih =>
    obtain ⟨hframe, -, h1, -⟩ := ih
    have hidx : kernel_ijk c tx ty n + c.kStride = kernel_ijk c tx ty (n + 1) := by
      unfold kernel_ijk; push_cast; ring
    refine ⟨?_, ?_, ?_, ?_⟩
    · intro box id addr hid
      simp only [forLoopN, residual_kernel_iter]
      rw [Level.load_store_ne_id _ _ _ _ _ _ _ _ hid]
      exact hframe box id addr hid
    · simp only [forLoopN, residual_kernel_iter]
      rw [h1, ← hidx]
      congr 1
      ring
    · simp only [forLoopN, residual_kernel_iter, X, Level.ptr, zero_add]
      rw [hframe _ _ _ hx, ← hidx]
      rfl
    · simp only [forLoopN, residual_kernel_iter, BK, Level.ptr, zero_add]
      rw [hframe _ _ _ hbk, ← hidx]
      rfl

theorem kernel_iter_level (USE_HELMHOLTZ : Bool) (c : KernelCtx R) (level : Level R)
    (res_id x_id rhs_id : VectorId) (a b : R) (tx ty : Nat)
    (hx : x_id ≠ res_id) (ha : VECTOR_ALPHA ≠ res_id) (hbi : VECTOR_BETA_I ≠ res_id)
    (hbj : VECTOR_BETA_J ≠ res_id) (hbk : VECTOR_BETA_K ≠ res_id)
    (n : Nat) (s : KernelState R) (hs : KernelInv level c res_id x_id tx ty n s) :
    (residual_kernel_iter USE_HELMHOLTZ c res_id x_id rhs_id a b tx ty (0 + (n : Int)) s).level
      = s.level.store c.box res_id (c.off + kernel_ijk c tx ty n)
          (s.level.ptr c.box rhs_id c.off (kernel_ijk c tx ty n)
            - apply_op_ijk false (modeOf USE_HELMHOLTZ) (kernel_env c level a b)
                (level.ptr c.box x_id c.off) (kernel_ijk c tx ty n)) := by
  obtain ⟨hframe, h0, h1, hb⟩ := hs
  have e1 : ∀ d, s.level.ptr c.box x_id c.off d = level.ptr c.box x_id c.off d :=
    fun d => hframe _ _ _ hx
  have e2 : ∀ d, s.level.ptr c.box VECTOR_ALPHA c.off d = level.ptr c.box VECTOR_ALPHA c.off d :=
    fun d => hframe _ _ _ ha
  have e3 : ∀ d,
      s.level.ptr c.box VECTOR_BETA_I c.off d = level.ptr c.box VECTOR_BETA_I c.off d :=
    fun d => hframe _ _ _ hbi
  have e4 : ∀ d,
      s.level.ptr c.box VECTOR_BETA_J c.off d = level.ptr c.box VECTOR_BETA_J c.off d :=
    fun d => hframe _ _ _ hbj
  have e5 : ∀ d,
      s.level.ptr c.box VECTOR_BETA_K c.off d = level.ptr c.box VECTOR_BETA_K c.off d :=
    fun d => hframe _ _ _ hbk
  cases USE_HELMHOLTZ <;>
    simp only [residual_kernel_iter, zero_add, X, BI, BJ, BK, e1, e2, e3, e4, e5, h0, h1, hb,
      apply_op_ijk, modeOf, apply_op_ijk_helmholtz, apply_op_ijk_poisson, kernel_env,
      kernel_ijk, if_true, if_false, Bool.false_eq_true]

/-- Translation of the stencil macros: reading every captured array `d` elements further at
the index `d + ijk` gives the same value. -/
theorem apply_op_ijk_shift (fuse_bc : Bool) (mode : CoeffMode) (e e' : StencilEnv R)
    (x x' : Int → R) (d ijk : Int)
    (ha : e.a = e'.a) (hb : e.b = e'.b) (hh : e.h2inv = e'.h2inv)
    (hj : e.jStride = e'.jStride) (hk : e.kStride = e'.kStride)
    (hal : ∀ p, e.alpha p = e'.alpha (d + p)) (hbi : ∀ p, e.beta_i p = e'.beta_i (d + p))
    (hbj : ∀ p, e.beta_j p = e'.beta_j (d + p)) (hbk : ∀ p, e.beta_k p = e'.beta_k (d + p))
    (hv : ∀ p, e.valid p = e'.valid (d + p)) (hx : ∀ p, x p = x' (d + p)) :
    apply_op_ijk fuse_bc mode e x ijk = apply_op_ijk fuse_bc mode e' x' (d + ijk) := by
  cases fuse_bc <;> cases mode <;>
    simp only [apply_op_ijk, apply_op_ijk_helmholtz, apply_op_ijk_poisson,
      apply_op_ijk_constant, apply_op_ijk_fuse_helmholtz, apply_op_ijk_fuse_poisson,
      apply_op_ijk_fuse_constant, ha, hb, hh, hj, hk, hal, hbi, hbj, hbk, hv, hx,
      ← add_assoc, ← add_sub_assoc]

/-- The stencil evaluated with the kernel's names at the kernel's `ijk` is the stencil
evaluated with the box's ghost-offset pointers at the box index of the same cell. -/
theorem kernel_apply_op_eq (USE_HELMHOLTZ : Bool) (BLOCK_K : Int) (level : Level R)
    (x_id : VectorId) (a b : R) (bx by_ tx ty n : Nat) :
    apply_op_ijk false (modeOf USE_HELMHOLTZ)
        (kernel_env (residual_kernel_prologue BLOCK_K level bx by_) level a b)
        (level.ptr (residual_kernel_prologue BLOCK_K level bx by_).box x_id
          (residual_kernel_prologue BLOCK_K level bx by_).off)
        (kernel_ijk (residual_kernel_prologue BLOCK_K level bx by_) tx ty n)
      = apply_op_ijk false (modeOf USE_HELMHOLTZ)
          (box_env level (level.my_blocks bx).read.box a b)
          (level.ptr (level.my_blocks bx).read.box x_id
            ((level.my_boxes (level.my_blocks bx).read.box).ghosts
              * (1 + (level.my_boxes (level.my_blocks bx).read.box).jStride
                  + (level.my_boxes (level.my_blocks bx).read.box).kStride)))
          (((level.my_blocks bx).read.i + tx)
            + ((level.my_blocks bx).read.j + ty)
                * (level.my_boxes (level.my_blocks bx).read.box).jStride
            + ((level.my_blocks bx).read.k + BLOCK_K * by_ + n)
                * (level.my_boxes (level.my_blocks bx).read.box).kStride) := by
  have hidx : (((level.my_blocks bx).read.i + tx)
      + ((level.my_blocks bx).read.j + ty)
          * (level.my_boxes (level.my_blocks bx).read.box).jStride
      + ((level.my_blocks bx).read.k + BLOCK_K * by_ + n)
          * (level.my_boxes (level.my_blocks bx).read.box).kStride)
      = ((level.my_blocks bx).read.i
          + (level.my_blocks bx).read.j * (level.my_boxes (level.my_blocks bx).read.box).jStride
          + ((level.my_blocks bx).read.k + BLOCK_K * by_)
              * (level.my_boxes (level.my_blocks bx).read.box).kStride)
        + kernel_ijk (residual_kernel_prologue BLOCK_K level bx by_) tx ty n := by
    simp only [kernel_ijk, residual_kernel_prologue]
    ring
  rw [hidx]
  apply apply_op_ijk_shift <;>
    first
    | rfl
    | (intro p
       simp only [kernel_env, box_env, residual_kernel_prologue, Level.ptr, add_assoc])

/-- When `res_id` is also different from `rhs_id`, every element written by the first `n`
iterations still holds, after them, the residual of its cell. -/
theorem kernel_writes_kept (USE_HELMHOLTZ : Bool) (c : KernelCtx R) (level : Level R)
    (res_id x_id rhs_id : VectorId) (a b : R) (tx ty : Nat)
    (hx : x_id ≠ res_id) (hr : rhs_id ≠ res_id) (ha : VECTOR_ALPHA ≠ res_id)
    (hbi : VECTOR_BETA_I ≠ res_id) (hbj : VECTOR_BETA_J ≠ res_id)
    (hbk : VECTOR_BETA_K ≠ res_id) (n : Nat) :
    ∀ m : Nat, m < n →
      (forLoopN 0 (residual_kernel_iter USE_HELMHOLTZ c res_id x_id rhs_id a b tx ty) n
          (residual_kernel_init c level x_id tx ty)).level.load c.box res_id
          (c.off + kernel_ijk c tx ty m)
        = level.ptr c.box rhs_id c.off (kernel_ijk c tx ty m)
          - apply_op_ijk false (modeOf USE_HELMHOLTZ) (kernel_env c level a b)
              (level.ptr c.box x_id c.off) (kernel_ijk c tx ty m) := by
  induction n with
  | zero => intro m hm; exact absurd hm (Nat.not_lt_zero m)
  | succ n ih =>
    intro m hm
    have hinv := kernel_window USE_HELMHOLTZ c level res_id x_id rhs_id a b tx ty hx hbk n
    have hw := kernel_iter_level USE_HELMHOLTZ c level res_id x_id rhs_id a b tx ty
      hx ha hbi hbj hbk n _ hinv
    have hrhs : ∀ d,
        (forLoopN 0 (residual_kernel_iter USE_HELMHOLTZ c res_id x_id rhs_id a b tx ty) n
          (residual_kernel_init c level x_id tx ty)).level.ptr c.box rhs_id c.off d
          = level.ptr c.box rhs_id c.off d := fun d => hinv.1 _ _ _ hr
    show (residual_kernel_iter USE_HELMHOLTZ c res_id x_id rhs_id a b tx ty (0 + (n : Int))
      _).level.load _ _ _ = _
    rw [hw, Level.load_store, hrhs]
    by_cases hadr : c.off + kernel_ijk c tx ty m = c.off + kernel_ijk c tx ty n
    · rw [if_pos ⟨rfl, rfl, hadr⟩, add_left_cancel hadr]
    · have hne : ¬ (c.box = c.box ∧ res_id = res_id
          ∧ c.off + kernel_ijk c tx ty m = c.off + kernel_ijk c tx ty n) :=
        fun h => hadr h.2.2
      rw [if_neg hne]
      rcases Nat.lt_succ_iff_lt_or_eq.mp hm with hlt | heq
      · exact ih m hlt
      · exact absurd (by rw [heq]) hadr

/-- A thread inside the block's i/j extent passes the guard of line 37 and runs the k-loop. -/
theorem residual_kernel_eq_loop (USE_HELMHOLTZ : Bool) (BLOCK_K : Int) (level : Level R)
    (res_id x_id rhs_id : VectorId) (a b : R) (bx by_ tx ty : Nat)
    (hi : (tx : Int) < (level.my_blocks bx).dim.i)
    (hi32 : (level.my_blocks bx).dim.i < 4294967296)
    (hj : (ty : Int) < (level.my_blocks bx).dim.j)
    (hj32 : (level.my_blocks bx).dim.j < 4294967296) :
    residual_kernel USE_HELMHOLTZ BLOCK_K level res_id x_id rhs_id a b bx by_ tx ty
      = (forLoopN 0
          (residual_kernel_iter USE_HELMHOLTZ (residual_kernel_prologue BLOCK_K level bx by_)
            res_id x_id rhs_id a b tx ty)
          (min (level.my_blocks bx).dim.k BLOCK_K).toNat
          (residual_kernel_init (residual_kernel_prologue BLOCK_K level bx by_) level x_id
            tx ty)).level := by
  have h1 : toUnsigned (level.my_blocks bx).dim.i = (level.my_blocks bx).dim.i := by
    unfold toUnsigned
    omega
  have h2 : toUnsigned (level.my_blocks bx).dim.j = (level.my_blocks bx).dim.j := by
    unfold toUnsigned
    omega
  have hg : ¬ ((tx : Int) ≥ toUnsigned (level.my_blocks bx).dim.i
      ∨ (ty : Int) ≥ toUnsigned (level.my_blocks bx).dim.j) := by
    rw [h1, h2]
    omega
  unfold residual_kernel
  simp only [if_neg hg, forLoop, sub_zero]

end KernelLemmas

/-! ## The compute phase of `rebuild_operator` -/

section RebuildLemmas

variable [LinearOrderedField R]

theorem box_env_frame (level0 lvl : Level R) (box : Int) (a b : R)
    (hf : RebuildFrame level0 lvl) : box_env lvl box a b = box_env level0 box a b := by
  obtain ⟨hh, -, -, hs, hmem⟩ := hf
  obtain ⟨hj, hk, hg⟩ := hs box
  have hptr : ∀ id, id ≠ VECTOR_DINV → id ≠ VECTOR_L1INV → ∀ off,
      lvl.ptr box id off = level0.ptr box id off := by
    intro id h1 h2 off
    funext i
    exact hmem box id _ h1 h2
  unfold box_env
  simp only [hh, hj, hk, hg]
  rw [hptr VECTOR_ALPHA (by decide) (by decide), hptr VECTOR_BETA_I (by decide) (by decide),
    hptr VECTOR_BETA_J (by decide) (by decide), hptr VECTOR_BETA_K (by decide) (by decide),
    hptr VECTOR_VALID (by decide) (by decide)]

/-- The effect of one cell of `rebuild_operator` in terms of the coefficients of the memory
`level0` the compute phase started from. -/
theorem rebuild_operator_cell_eq (level0 : Level R) (a b : R) (box ijk : Int)
    (s : RebuildState R) (hf : RebuildFrame level0 s.level) :
    rebuild_operator_cell a b box ijk s
      = { level := (s.level.store box VECTOR_DINV
              ((level0.my_boxes box).ghosts
                * (1 + (level0.my_boxes box).jStride + (level0.my_boxes box).kStride) + ijk)
              (rebuild_Dinv (box_env level0 box a b) ijk)).store box VECTOR_L1INV
              ((level0.my_boxes box).ghosts
                * (1 + (level0.my_boxes box).jStride + (level0.my_boxes box).kStride) + ijk)
              (rebuild_L1inv (box_env level0 box a b) ijk)
          block_eigenvalue :=
            if rebuild_Di (box_env level0 box a b) ijk > s.block_eigenvalue
            then rebuild_Di (box_env level0 box a b) ijk else s.block_eigenvalue } := by
  have he := box_env_frame level0 s.level box a b hf
  obtain ⟨-, -, -, hs, -⟩ := hf
  obtain ⟨hj, hk, hg⟩ := hs box
  have hej : (box_env level0 box a b).jStride = (level0.my_boxes box).jStride := rfl
  have hek : (box_env level0 box a b).kStride = (level0.my_boxes box).kStride := rfl
  unfold rebuild_operator_cell
  simp only [he, hg, hej, hek, rebuild_Dinv, rebuild_L1inv, rebuild_Di]
  split <;> rfl

theorem rebuild_operator_cell_frame (level0 : Level R) (a b : R) (box ijk : Int)
    (s : RebuildState R) (hf : RebuildFrame level0 s.level) :
    RebuildFrame level0 (rebuild_operator_cell a b box ijk s).level := by
  rw [rebuild_operator_cell_eq level0 a b box ijk s hf]
  exact RebuildFrame.store _ _ _ _ _ _ (Or.inr rfl)
    (RebuildFrame.store _ _ _ _ _ _ (Or.inl rfl) hf)

theorem rebuild_operator_cell_done (level0 : Level R) (a b : R) (box ijk : Int)
    (s : RebuildState R) (hf : RebuildFrame level0 s.level) :
    CellDone level0 a b box ijk (rebuild_operator_cell a b box ijk s).level := by
  rw [rebuild_operator_cell_eq level0 a b box ijk s hf]
  refine ⟨?_, ?_⟩
  · show Level.load (Level.store _ _ _ _ _) _ _ _ = _
    rw [Level.load_store_ne_id _ _ _ _ _ _ _ _ (by decide), Level.load_store_same]
  · show Level.load (Level.store _ _ _ _ _) _ _ _ = _
    rw [Level.load_store_same]

theorem rebuild_operator_cell_keep (level0 : Level R) (a b : R) (box ijk box' ijk' : Int)
    (s : RebuildState R) (hf : RebuildFrame level0 s.level)
    (hd : CellDone level0 a b box ijk s.level) :
    CellDone level0 a b box ijk (rebuild_operator_cell a b box' ijk' s).level := by
  rw [rebuild_operator_cell_eq level0 a b box' ijk' s hf]
  obtain ⟨hd1, hd2⟩ := hd
  refine ⟨?_, ?_⟩
  · show Level.load (Level.store _ _ _ _ _) _ _ _ = _
    rw [Level.load_store_ne_id _ _ _ _ _ _ _ _ (by decide), Level.load_store]
    split
    · rename_i h
      obtain ⟨hb, -, hadr⟩ := h
      subst hb
      rw [add_left_cancel hadr]
    · exact hd1
  · show Level.load (Level.store _ _ _ _ _) _ _ _ = _
    rw [Level.load_store]
    split
    · rename_i h
      obtain ⟨hb, -, hadr⟩ := h
      subst hb
      rw [add_left_cancel hadr]
    · rw [Level.load_store_ne_id _ _ _ _ _ _ _ _ (by decide)]
      exact hd2

theorem rebuild_operator_cell_eig (level0 : Level R) (a b : R) (box ijk : Int)
    (s : RebuildState R) (hf : RebuildFrame level0 s.level) :
    s.block_eigenvalue ≤ (rebuild_operator_cell a b box ijk s).block_eigenvalue
    ∧ rebuild_Di (box_env level0 box a b) ijk
        ≤ (rebuild_operator_cell a b box ijk s).block_eigenvalue
    ∧ ((rebuild_operator_cell a b box ijk s).block_eigenvalue = s.block_eigenvalue
        ∨ (rebuild_operator_cell a b box ijk s).block_eigenvalue
            = rebuild_Di (box_env level0 box a b) ijk) := by
  rw [rebuild_operator_cell_eq level0 a b box ijk s hf]
  show _ ≤ (if _ then _ else _) ∧ _ ≤ (if _ then _ else _) ∧ ((if _ then _ else _) = _ ∨
    (if _ then _ else _) = _)
  split
  · rename_i h
    exact ⟨le_of_lt h, le_refl _, Or.inr rfl⟩
  · rename_i h
    exact ⟨le_refl _, not_lt.mp h, Or.inl rfl⟩

/-- The block body of `rebuild_operator` with the block's locals read in `level0`. -/
theorem rebuild_operator_block_eq (level0 : Level R) (a b : R) (block : Int)
    (s : Level R × R) (hf : RebuildFrame level0 s.1) :
    rebuild_operator_block a b block s
      = ((forLoop (level0.my_blocks block).read.k
            ((level0.my_blocks block).dim.k + (level0.my_blocks block).read.k)
            (fun k => forLoop (level0.my_blocks block).read.j
              ((level0.my_blocks block).dim.j + (level0.my_blocks block).read.j)
              (fun j => forLoop (level0.my_blocks block).read.i
                ((level0.my_blocks block).dim.i + (level0.my_blocks block).read.i)
                (fun i => rebuild_operator_cell a b (level0.my_blocks block).read.box
                  (cell_ijk level0 block i j k))))
            { level := s.1, block_eigenvalue := -1000000000 }).level,
         if (forLoop (level0.my_blocks block).read.k
            ((level0.my_blocks block).dim.k + (level0.my_blocks block).read.k)
            (fun k => forLoop (level0.my_blocks block).read.j
              ((level0.my_blocks block).dim.j + (level0.my_blocks block).read.j)
              (fun j => forLoop (level0.my_blocks block).read.i
                ((level0.my_blocks block).dim.i + (level0.my_blocks block).read.i)
                (fun i => rebuild_operator_cell a b (level0.my_blocks block).read.box
                  (cell_ijk level0 block i j k))))
            { level := s.1, block_eigenvalue := -1000000000 }).block_eigenvalue > s.2
         then (forLoop (level0.my_blocks block).read.k
            ((level0.my_blocks block).dim.k + (level0.my_blocks block).read.k)
            (fun k => forLoop (level0.my_blocks block).read.j
              ((level0.my_blocks block).dim.j + (level0.my_blocks block).read.j)
              (fun j => forLoop (level0.my_blocks block).read.i
                ((level0.my_blocks block).dim.i + (level0.my_blocks block).read.i)
                (fun i => rebuild_operator_cell a b (level0.my_blocks block).read.box
                  (cell_ijk level0 block i j k))))
            { level := s.1, block_eigenvalue := -1000000000 }).block_eigenvalue
         else s.2) := by
  obtain ⟨-, -, hb, hs, -⟩ := hf
  obtain ⟨hj, hk, -⟩ := hs (level0.my_blocks block).read.box
  unfold rebuild_operator_block cell_ijk
  simp only [hb, hj, hk]

/-- The facts about one block of `rebuild_operator` run from a state whose memory is in the
frame of `level0`: the frame is kept, finished cells stay finished, the running maximum does
not decrease, every cell of the block is finished and bounded by the maximum, and the maximum
is the old one or the bound of a cell of the block. -/
theorem rebuild_operator_block_spec (level0 : Level R) (a b : R) (block : Int)
    (s : Level R × R) (hf : RebuildFrame level0 s.1) :
    RebuildFrame level0 (rebuild_operator_block a b block s).1
    ∧ (∀ box ijk, CellDone level0 a b box ijk s.1 →
        CellDone level0 a b box ijk (rebuild_operator_block a b block s).1)
    ∧ s.2 ≤ (rebuild_operator_block a b block s).2
    ∧ (∀ i j k : Int,
        (level0.my_blocks block).read.i ≤ i →
        i < (level0.my_blocks block).dim.i + (level0.my_blocks block).read.i →
        (level0.my_blocks block).read.j ≤ j →
        j < (level0.my_blocks block).dim.j + (level0.my_blocks block).read.j →
        (level0.my_blocks block).read.k ≤ k →
        k < (level0.my_blocks block).dim.k + (level0.my_blocks block).read.k →
        CellDone level0 a b (level0.my_blocks block).read.box (cell_ijk level0 block i j k)
          (rebuild_operator_block a b block s).1
        ∧ cell_Di level0 a b block i j k ≤ (rebuild_operator_block a b block s).2)
    ∧ (-1000000000 ≤ s.2 →
        (rebuild_operator_block a b block s).2 = s.2
        ∨ ∃ i j k : Int,
          ((level0.my_blocks block).read.i ≤ i
            ∧ i < (level0.my_blocks block).dim.i + (level0.my_blocks block).read.i
            ∧ (level0.my_blocks block).read.j ≤ j
            ∧ j < (level0.my_blocks block).dim.j + (level0.my_blocks block).read.j
            ∧ (level0.my_blocks block).read.k ≤ k
            ∧ k < (level0.my_blocks block).dim.k + (level0.my_blocks block).read.k)
          ∧ (rebuild_operator_block a b block s).2 = cell_Di level0 a b block i j k) := by
  rw [rebuild_operator_block_eq level0 a b block s hf]
  have hInv : ∀ k j i : Int, ∀ t : RebuildState R, RebuildFrame level0 t.level →
      RebuildFrame level0 (rebuild_operator_cell a b (level0.my_blocks block).read.box
        (cell_ijk level0 block i j k) t).level :=
    fun k j i t ht => rebuild_operator_cell_frame level0 a b _ _ t ht
  refine ⟨?_, ?_, ?_, ?_, ?_⟩
  · exact forLoop3_invariant (fun t : RebuildState R => RebuildFrame level0 t.level)
      _ _ _ _ _ _ _ _ hf (fun k j i _ _ _ _ _ _ t ht => hInv k j i t ht)
  · intro box ijk hd
    exact (forLoop3_invariant
      (fun t : RebuildState R => RebuildFrame level0 t.level ∧ CellDone level0 a b box ijk t.level)
      _ _ _ _ _ _ _ _ ⟨hf, hd⟩ (fun k j i _ _ _ _ _ _ t ht => ⟨hInv k j i t ht.1,
        rebuild_operator_cell_keep level0 a b box ijk _ _ t ht.1 ht.2⟩)).2
  · show s.2 ≤ (if _ then _ else _)
    split
    · rename_i h
      exact le_of_lt h
    · exact le_refl _
  · intro i j k hi1 hi2 hj1 hj2 hk1 hk2
    refine ⟨?_, ?_⟩
    · exact forLoop3_established (fun t : RebuildState R => RebuildFrame level0 t.level)
        (fun t : RebuildState R => CellDone level0 a b (level0.my_blocks block).read.box
          (cell_ijk level0 block i j k) t.level)
        _ _ _ _ _ _ _ _ k j i hk1 hk2 hj1 hj2 hi1 hi2 hf
        (fun k' j' i' _ _ _ _ _ _ t ht => hInv k' j' i' t ht)
        (fun t ht => rebuild_operator_cell_done level0 a b _ _ t ht)
        (fun k' j' i' _ _ _ _ _ _ t ht hd =>
          rebuild_operator_cell_keep level0 a b _ _ _ _ t ht hd)
    · have hbe := forLoop3_established (fun t : RebuildState R => RebuildFrame level0 t.level)
        (fun t : RebuildState R => cell_Di level0 a b block i j k ≤ t.block_eigenvalue)
        _ _ _ _ _ _ (fun k j i => rebuild_operator_cell a b (level0.my_blocks block).read.box
          (cell_ijk level0 block i j k))
        { level := s.1, block_eigenvalue := -1000000000 }
        k j i hk1 hk2 hj1 hj2 hi1 hi2 hf
        (fun k' j' i' _ _ _ _ _ _ t ht => hInv k' j' i' t ht)
        (fun t ht => (rebuild_operator_cell_eig level0 a b _ _ t ht).2.1)
        (fun k' j' i' _ _ _ _ _ _ t ht hd =>
          le_trans hd (rebuild_operator_cell_eig level0 a b _ _ t ht).1)
      show _ ≤ (if _ then _ else _)
      split
      · exact hbe
      · rename_i h
        exact le_trans hbe (not_lt.mp h)
  · intro hlow
    have hatt := forLoop3_invariant
      (fun t : RebuildState R => RebuildFrame level0 t.level
        ∧ (t.block_eigenvalue = -1000000000
          ∨ ∃ i j k : Int,
            ((level0.my_blocks block).read.i ≤ i
              ∧ i < (level0.my_blocks block).dim.i + (level0.my_blocks block).read.i
              ∧ (level0.my_blocks block).read.j ≤ j
              ∧ j < (level0.my_blocks block).dim.j + (level0.my_blocks block).read.j
              ∧ (level0.my_blocks block).read.k ≤ k
              ∧ k < (level0.my_blocks block).dim.k + (level0.my_blocks block).read.k)
            ∧ t.block_eigenvalue = cell_Di level0 a b block i j k))
      (level0.my_blocks block).read.k
      ((level0.my_blocks block).dim.k + (level0.my_blocks block).read.k)
      (level0.my_blocks block).read.j
      ((level0.my_blocks block).dim.j + (level0.my_blocks block).read.j)
      (level0.my_blocks block).read.i
      ((level0.my_blocks block).dim.i + (level0.my_blocks block).read.i)
      (fun k j i => rebuild_operator_cell a b (level0.my_blocks block).read.box
          (cell_ijk level0 block i j k))
      { level := s.1, block_eigenvalue := -1000000000 }
      ⟨hf, Or.inl rfl⟩
      (fun k j i hk1 hk2 hj1 hj2 hi1 hi2 t ht => by
        refine ⟨hInv k j i t ht.1, ?_⟩
        rcases (rebuild_operator_cell_eig level0 a b (level0.my_blocks block).read.box
          (cell_ijk level0 block i j k) t ht.1).2.2 with h | h
        · rw [h]
          exact ht.2
        · exact Or.inr ⟨i, j, k, ⟨hi1, hi2, hj1, hj2, hk1, hk2⟩, h⟩)
    dsimp only
    split_ifs with h
    · rcases hatt.2 with h' | h'
      · rw [h'] at h
        exact absurd hlow (not_le.mpr h)
      · exact Or.inr h'
    · exact Or.inl rfl

/-- The facts about the compute phase of `rebuild_operator` (lines 230-310): it stays in the
frame of the level it started from, its maximum is at least the floor `-1e9`, every cell of
every owned block is finished and bounded by the maximum, and the maximum is the floor or the
bound of a cell of an owned block. -/
theorem rebuild_operator_compute_spec (level : Level R) (a b : R) :
    RebuildFrame level (rebuild_operator_compute level a b).1
    ∧ -1000000000 ≤ (rebuild_operator_compute level a b).2
    ∧ (∀ block i j k : Int, InBlock level block i j k →
        CellDone level a b (level.my_blocks block).read.box (cell_ijk level block i j k)
          (rebuild_operator_compute level a b).1
        ∧ cell_Di level a b block i j k ≤ (rebuild_operator_compute level a b).2)
    ∧ ((rebuild_operator_compute level a b).2 = -1000000000
        ∨ ∃ block i j k : Int, InBlock level block i j k
          ∧ (rebuild_operator_compute level a b).2 = cell_Di level a b block i j k) := by
  unfold rebuild_operator_compute
  have hstep : ∀ blk : Int, 0 ≤ blk → blk < level.num_my_blocks → ∀ t : Level R × R,
      (RebuildFrame level t.1 ∧ -1000000000 ≤ t.2) →
      (RebuildFrame level (rebuild_operator_block a b blk t).1
        ∧ -1000000000 ≤ (rebuild_operator_block a b blk t).2) := by
    intro blk _ _ t ht
    have hsp := rebuild_operator_block_spec level a b blk t ht.1
    exact ⟨hsp.1, le_trans ht.2 hsp.2.2.1⟩
  have hbase : RebuildFrame level (level, (-1000000000 : R)).1
      ∧ (-1000000000 : R) ≤ (level, (-1000000000 : R)).2 :=
    ⟨RebuildFrame.refl level, le_refl _⟩
  have hI := forLoop_invariant
    (fun t : Level R × R => RebuildFrame level t.1 ∧ -1000000000 ≤ t.2)
    0 level.num_my_blocks (rebuild_operator_block a b) (level, -1000000000) hbase hstep
  refine ⟨hI.1, hI.2, ?_, ?_⟩
  · intro block i j k hin
    obtain ⟨hb1, hb2, hi1, hi2, hj1, hj2, hk1, hk2⟩ := hin
    exact forLoop_established
      (fun t : Level R × R => RebuildFrame level t.1 ∧ -1000000000 ≤ t.2)
      (fun t : Level R × R =>
        CellDone level a b (level.my_blocks block).read.box (cell_ijk level block i j k) t.1
        ∧ cell_Di level a b block i j k ≤ t.2)
      0 level.num_my_blocks (rebuild_operator_block a b) (level, -1000000000)
      block hb1 hb2 hbase hstep
      (fun t ht =>
        (rebuild_operator_block_spec level a b block t ht.1).2.2.2.1 i j k
          hi1 hi2 hj1 hj2 hk1 hk2)
      (fun blk _ _ t ht hd =>
        ⟨(rebuild_operator_block_spec level a b blk t ht.1).2.1 _ _ hd.1,
          le_trans hd.2 (rebuild_operator_block_spec level a b blk t ht.1).2.2.1⟩)
  · have hA := forLoop_invariant
      (fun t : Level R × R => (RebuildFrame level t.1 ∧ -1000000000 ≤ t.2)
        ∧ (t.2 = -1000000000
          ∨ ∃ block i j k : Int, InBlock level block i j k
            ∧ t.2 = cell_Di level a b block i j k))
      0 level.num_my_blocks (rebuild_operator_block a b) (level, -1000000000)
      ⟨hbase, Or.inl rfl⟩
      (fun blk h1 h2 t ht => by
        refine ⟨hstep blk h1 h2 t ht.1, ?_⟩
        rcases (rebuild_operator_block_spec level a b blk t ht.1.1).2.2.2.2 ht.1.2 with h | h
        · rw [h]
          exact ht.2
        · obtain ⟨i, j, k, hr, he⟩ := h
          exact Or.inr ⟨blk, i, j, k, ⟨h1, h2, hr⟩, he⟩)
    exact hA.2

/-- The reduction over the ranks returns a value that bounds the rank's own value and every
other rank's value, and is one of them. -/
theorem MPI_Allreduce_MAX_spec (send : R) (others : List R) :
    send ≤ MPI_Allreduce_MAX send others
    ∧ (∀ v ∈ others, v ≤ MPI_Allreduce_MAX send others)
    ∧ (MPI_Allreduce_MAX send others = send ∨ MPI_Allreduce_MAX send others ∈ others) := by
  unfold MPI_Allreduce_MAX
  induction others generalizing send with
  | nil => simp
  | cons v vs ih =>
    obtain ⟨h1, h2, h3⟩ := ih (max send v)
    refine ⟨le_trans (le_max_left _ _) h1, ?_, ?_⟩
    · intro w hw
      rcases List.mem_cons.mp hw with h | h
      · rw [h]
        exact le_trans (le_max_right _ _) h1
      · exact h2 w h
    · simp only [List.foldl_cons]
      rcases h3 with h | h
      · rcases max_choice send v with h' | h'
        · left
          rw [h, h']
        · right
          rw [h, h']
          exact List.mem_cons_self _ _
      · right
        exact List.mem_cons_of_mem _ h

/-- Lines 230-324 of `rebuild_operator` keep the frame of the level they start from. -/
theorem rebuild_operator_local_frame (USE_MPI : Bool) (level : Level R) (a b : R)
    (others : List R) : RebuildFrame level (rebuild_operator_local USE_MPI level a b others) :=
  (rebuild_operator_compute_spec level a b).1

/-- After lines 230-324 of `rebuild_operator`, at a cell of an owned block: the block's
locals and the cell's index are those of the input level, and `Dinv[ijk]`, `L1inv[ijk]` hold
the values computed from the input coefficients. -/
theorem rebuild_operator_local_cell (USE_MPI : Bool) (level : Level R) (a b : R)
    (others : List R) (block i j k : Int) (hin : InBlock level block i j k) :
    block_env (rebuild_operator_local USE_MPI level a b others) block a b
      = block_env level block a b
    ∧ cell_ijk (rebuild_operator_local USE_MPI level a b others) block i j k
      = cell_ijk level block i j k
    ∧ block_load (rebuild_operator_local USE_MPI level a b others) block VECTOR_DINV
        (cell_ijk level block i j k)
      = rebuild_Dinv (block_env level block a b) (cell_ijk level block i j k)
    ∧ block_load (rebuild_operator_local USE_MPI level a b others) block VECTOR_L1INV
        (cell_ijk level block i j k)
      = rebuild_L1inv (block_env level block a b) (cell_ijk level block i j k) := by
  have hf := rebuild_operator_local_frame USE_MPI level a b others
  have hd := ((rebuild_operator_compute_spec level a b).2.2.1 block i j k hin).1
  obtain ⟨-, -, hb, hs, -⟩ := hf
  obtain ⟨hj, hk, hg⟩ := hs (level.my_blocks block).read.box
  refine ⟨?_, ?_, ?_, ?_⟩
  · unfold block_env
    rw [hb]
    exact box_env_frame level _ _ a b (rebuild_operator_local_frame USE_MPI level a b others)
  · unfold cell_ijk
    rw [hb, hj, hk]
  · unfold block_load
    rw [hb, hj, hk, hg]
    exact hd.1
  · unfold block_load
    rw [hb, hj, hk, hg]
    exact hd.2

/-- The Gershgorin radius is a sum of absolute values, hence non-negative. -/
theorem rebuild_sumAbsAij_nonneg (e : StencilEnv R) (ijk : Int) :
    0 ≤ rebuild_sumAbsAij e ijk := by
  unfold rebuild_sumAbsAij
  positivity

/-- A positive diagonal term gives a Gershgorin bound of at least 1. -/
theorem rebuild_Di_ge_one_of_pos (e : StencilEnv R) (ijk : Int)
    (hpos : 0 < rebuild_Aii e ijk) : 1 ≤ rebuild_Di e ijk := by
  unfold rebuild_Di
  rw [le_div_iff₀ hpos]
  linarith [rebuild_sumAbsAij_nonneg e ijk]

/-- Under the sign convention `a >= 0`, `b >= 0`, `h2inv >= 0`, with non-negative coefficients
and validity values in `{0,1}`, the diagonal term is non-negative. -/
theorem rebuild_Aii_nonneg (e : StencilEnv R) (ijk : Int)
    (ha : 0 ≤ e.a) (hb : 0 ≤ e.b) (hh : 0 ≤ e.h2inv) (hal : 0 ≤ e.alpha ijk)
    (h1 : 0 ≤ e.beta_i ijk) (h2 : 0 ≤ e.beta_j ijk) (h3 : 0 ≤ e.beta_k ijk)
    (h4 : 0 ≤ e.beta_i (ijk + 1)) (h5 : 0 ≤ e.beta_j (ijk + e.jStride))
    (h6 : 0 ≤ e.beta_k (ijk + e.kStride))
    (v1 : e.valid (ijk - 1) = 0 ∨ e.valid (ijk - 1) = 1)
    (v2 : e.valid (ijk - e.jStride) = 0 ∨ e.valid (ijk - e.jStride) = 1)
    (v3 : e.valid (ijk - e.kStride) = 0 ∨ e.valid (ijk - e.kStride) = 1)
    (v4 : e.valid (ijk + 1) = 0 ∨ e.valid (ijk + 1) = 1)
    (v5 : e.valid (ijk + e.jStride) = 0 ∨ e.valid (ijk + e.jStride) = 1)
    (v6 : e.valid (ijk + e.kStride) = 0 ∨ e.valid (ijk + e.kStride) = 1) :
    0 ≤ rebuild_Aii e ijk := by
  have key : ∀ β v : R, 0 ≤ β → (v = 0 ∨ v = 1) → β * (v - 2) ≤ 0 := by
    intro β v hβ hv
    rcases hv with h | h <;> rw [h] <;> nlinarith
  have hsum : e.beta_i ijk * (e.valid (ijk - 1) - 2)
      + e.beta_j ijk * (e.valid (ijk - e.jStride) - 2)
      + e.beta_k ijk * (e.valid (ijk - e.kStride) - 2)
      + e.beta_i (ijk + 1) * (e.valid (ijk + 1) - 2)
      + e.beta_j (ijk + e.jStride) * (e.valid (ijk + e.jStride) - 2)
      + e.beta_k (ijk + e.kStride) * (e.valid (ijk + e.kStride) - 2) ≤ 0 := by
    linarith [key _ _ h1 v1, key _ _ h2 v2, key _ _ h3 v3, key _ _ h4 v4, key _ _ h5 v5,
      key _ _ h6 v6]
  have hbh : 0 ≤ e.b * e.h2inv := mul_nonneg hb hh
  have haa : 0 ≤ e.a * e.alpha ijk := mul_nonneg ha hal
  unfold rebuild_Aii
  nlinarith [mul_nonneg hbh (neg_nonneg.mpr hsum)]

/-- The eigenvalue estimate stored by lines 230-324 of `rebuild_operator`, without and with
`USE_MPI`, as a maximum over the floor `-1e9`, the cells of the owned blocks and the other
ranks. -/
theorem rebuild_operator_local_eig (level : Level R) (a b : R) (others : List R) :
    -1000000000 ≤ (rebuild_operator_local false level a b others).dominant_eigenvalue_of_DinvA
    ∧ (∀ block i j k : Int, InBlock level block i j k →
        cell_Di level a b block i j k
          ≤ (rebuild_operator_local false level a b others).dominant_eigenvalue_of_DinvA)
    ∧ ((rebuild_operator_local false level a b others).dominant_eigenvalue_of_DinvA
          = -1000000000
        ∨ ∃ block i j k : Int, InBlock level block i j k
          ∧ (rebuild_operator_local false level a b others).dominant_eigenvalue_of_DinvA
              = cell_Di level a b block i j k)
    ∧ ((∃ block i j k : Int, InBlock level block i j k
          ∧ -1000000000 ≤ cell_Di level a b block i j k) →
        ∃ block i j k : Int, InBlock level block i j k
          ∧ (rebuild_operator_local false level a b others).dominant_eigenvalue_of_DinvA
              = cell_Di level a b block i j k)
    ∧ (rebuild_operator_local false level a b others).dominant_eigenvalue_of_DinvA
        ≤ (rebuild_operator_local true level a b others).dominant_eigenvalue_of_DinvA
    ∧ (∀ v ∈ others,
        v ≤ (rebuild_operator_local true level a b others).dominant_eigenvalue_of_DinvA)
    ∧ ((rebuild_operator_local true level a b others).dominant_eigenvalue_of_DinvA
          = (rebuild_operator_local false level a b others).dominant_eigenvalue_of_DinvA
        ∨ (rebuild_operator_local true level a b others).dominant_eigenvalue_of_DinvA
            ∈ others) := by
  obtain ⟨-, hlow, hcells, hatt⟩ := rebuild_operator_compute_spec level a b
  obtain ⟨m1, m2, m3⟩ := MPI_Allreduce_MAX_spec (rebuild_operator_compute level a b).2 others
  have hE : (rebuild_operator_local false level a b others).dominant_eigenvalue_of_DinvA
      = (rebuild_operator_compute level a b).2 := rfl
  have hG : (rebuild_operator_local true level a b others).dominant_eigenvalue_of_DinvA
      = MPI_Allreduce_MAX (rebuild_operator_compute level a b).2 others := rfl
  rw [hE, hG]
  refine ⟨hlow, fun block i j k hin => (hcells block i j k hin).2, hatt, ?_, m1, m2, m3⟩
  rintro ⟨block, i, j, k, hin, hge⟩
  rcases hatt with h | h
  · refine ⟨block, i, j, k, hin, ?_⟩
    have := (hcells block i j k hin).2
    rw [h] at this ⊢
    exact le_antisymm hge this
  · exact h

end RebuildLemmas

/-! ## Fused and un-fused boundary conditions -/

section FuseLemmas

variable [LinearOrderedField R]

/-- The fused form of `apply_op_ijk` on `x` is the un-fused form on any field `x'` that keeps
the centre value, holds `-x[ijk]` at the neighbours with `valid = 0` and keeps the
neighbours with `valid = 1`. -/
theorem fused_eq_unfused_of_filled (mode : CoeffMode) (e : StencilEnv R) (x x' : Int → R)
    (ijk : Int)
    (hv : ∀ p ∈ neighbours e ijk, e.valid p = 0 ∨ e.valid p = 1)
    (hc : x' ijk = x ijk)
    (h0 : ∀ p ∈ neighbours e ijk, e.valid p = 0 → x' p = -x ijk)
    (h1 : ∀ p ∈ neighbours e ijk, e.valid p = 1 → x' p = x p) :
    apply_op_ijk true mode e x ijk = apply_op_ijk false mode e x' ijk := by
  have key : ∀ p ∈ neighbours e ijk,
      e.valid p * (x ijk + x p) - 2 * x ijk = x' p - x ijk
      ∧ e.valid p * (x ijk + x p) = x' p + x ijk := by
    intro p hp
    rcases hv p hp with h | h
    · rw [h0 p hp h, h]
      constructor <;> ring
    · rw [h1 p hp h, h]
      constructor <;> ring
  have m1 : ijk - 1 ∈ neighbours e ijk := by simp [neighbours]
  have m2 : ijk - e.jStride ∈ neighbours e ijk := by simp [neighbours]
  have m3 : ijk - e.kStride ∈ neighbours e ijk := by simp [neighbours]
  have m4 : ijk + 1 ∈ neighbours e ijk := by simp [neighbours]
  have m5 : ijk + e.jStride ∈ neighbours e ijk := by simp [neighbours]
  have m6 : ijk + e.kStride ∈ neighbours e ijk := by simp [neighbours]
  cases mode
  · simp only [apply_op_ijk, apply_op_ijk_fuse_helmholtz, apply_op_ijk_helmholtz,
      (key _ m1).1, (key _ m2).1, (key _ m3).1, (key _ m4).1, (key _ m5).1, (key _ m6).1, hc]
    ring
  · simp only [apply_op_ijk, apply_op_ijk_fuse_poisson, apply_op_ijk_poisson,
      (key _ m1).1, (key _ m2).1, (key _ m3).1, (key _ m4).1, (key _ m5).1, (key _ m6).1, hc]
    ring
  · simp only [apply_op_ijk, apply_op_ijk_fuse_constant, apply_op_ijk_constant,
      (key _ m1).2, (key _ m2).2, (key _ m3).2, (key _ m4).2, (key _ m5).2, (key _ m6).2, hc]
    ring

end FuseLemmas

/-! ## Claims -/

section Claims

variable [LinearOrderedField R]

/-- C1. For every block, every k-slab `blockIdx.y`, every thread with `tx < dim.i`,
`ty < dim.j` and every `k < kdim`, when `res_id` is a field other than `x_id` and the
coefficient vectors: the thread reaches iteration `k` of the k-loop (its result is the
remaining iterations run from there); at the start of iteration `k` the input field
`x` is still unmodified and the register window holds `xc0 = x[ijk-kStride]`, `xc1 = x[ijk]`,
`bkc1 = beta_k[ijk]`; and iteration `k` writes `res[ijk] = rhs[ijk] - Ax`, where `Ax` is the
un-fused `apply_op_ijk` of `operators.7pt.c` (Helmholtz or Poisson) evaluated directly on the
input field at the box index `ijk` of the cell. -/
theorem residual_kernel_refines_apply_op (USE_HELMHOLTZ : Bool) (BLOCK_K : Int)
    (level : Level R) (res_id x_id rhs_id : VectorId) (a b : R)
    (blockIdx_x blockIdx_y threadIdx_x threadIdx_y k : Nat)
    (hx : res_id ≠ x_id) (ha : res_id ≠ VECTOR_ALPHA) (hbi : res_id ≠ VECTOR_BETA_I)
    (hbj : res_id ≠ VECTOR_BETA_J) (hbk : res_id ≠ VECTOR_BETA_K)
    (hi : (threadIdx_x : Int) < (level.my_blocks blockIdx_x).dim.i)
    (hi32 : (level.my_blocks blockIdx_x).dim.i < 4294967296)
    (hj : (threadIdx_y : Int) < (level.my_blocks blockIdx_x).dim.j)
    (hj32 : (level.my_blocks blockIdx_x).dim.j < 4294967296)
    (hk : (k : Int) < min (level.my_blocks blockIdx_x).dim.k BLOCK_K) :
    let blk := level.my_blocks blockIdx_x
    let box := blk.read.box
    let jStride := (level.my_boxes box).jStride
    let kStride := (level.my_boxes box).kStride
    let g := (level.my_boxes box).ghosts * (1 + jStride + kStride)
    let ijk := (blk.read.i + threadIdx_x) + (blk.read.j + threadIdx_y) * jStride
      + (blk.read.k + BLOCK_K * blockIdx_y + k) * kStride
    let x := level.ptr box x_id g
    let beta_k := level.ptr box VECTOR_BETA_K g
    let c := residual_kernel_prologue BLOCK_K level blockIdx_x blockIdx_y
    let iter := residual_kernel_iter USE_HELMHOLTZ c res_id x_id rhs_id a b
      threadIdx_x threadIdx_y
    let init := residual_kernel_init c level x_id threadIdx_x threadIdx_y
    let s := forLoopN 0 iter k init
    residual_kernel USE_HELMHOLTZ BLOCK_K level res_id x_id rhs_id a b
        blockIdx_x blockIdx_y threadIdx_x threadIdx_y
      = (forLoopN (0 + ((k + 1 : Nat) : Int)) iter ((min blk.dim.k BLOCK_K).toNat - (k + 1))
          (iter k s)).level
    ∧ (∀ p, s.level.ptr box x_id g p = x p)
    ∧ s.xc0 = x (ijk - kStride) ∧ s.xc1 = x ijk ∧ s.bkc1 = beta_k ijk
    ∧ (iter k s).level.ptr box res_id g ijk
        = s.level.ptr box rhs_id g ijk
          - apply_op_ijk false (modeOf USE_HELMHOLTZ) (box_env level box a b) x ijk := by
  intro blk box jStride kStride g ijk x beta_k c iter init s
  have hs : KernelInv level c res_id x_id threadIdx_x threadIdx_y k s :=
    kernel_window USE_HELMHOLTZ c level res_id x_id rhs_id a b threadIdx_x threadIdx_y
      (Ne.symm hx) (Ne.symm hbk) k
  have hp : ∀ (id : VectorId) (d : Int),
      level.ptr c.box id c.off (kernel_ijk c threadIdx_x threadIdx_y k + d)
        = level.ptr box id g (ijk + d) := by
    intro id d
    simp only [c, box, g, ijk, jStride, kStride, blk, residual_kernel_prologue, kernel_ijk,
      Level.ptr]
    congr 1
    ring
  have hp0 : ∀ (l : Level R) (id : VectorId),
      l.ptr c.box id c.off (kernel_ijk c threadIdx_x threadIdx_y k) = l.ptr box id g ijk := by
    intro l id
    simp only [c, box, g, ijk, jStride, kStride, blk, residual_kernel_prologue, kernel_ijk,
      Level.ptr]
    congr 1
    ring
  obtain ⟨hframe, h0, h1, hb⟩ := hs
  refine ⟨?_, ?_, ?_, ?_, ?_, ?_⟩
  · have hK : (min blk.dim.k BLOCK_K).toNat
        = (k + 1) + ((min blk.dim.k BLOCK_K).toNat - (k + 1)) := by
      have : (k : Int) < min blk.dim.k BLOCK_K := hk
      omega
    rw [residual_kernel_eq_loop USE_HELMHOLTZ BLOCK_K level res_id x_id rhs_id a b
      blockIdx_x blockIdx_y threadIdx_x threadIdx_y hi hi32 hj hj32]
    show (forLoopN 0 iter (min blk.dim.k BLOCK_K).toNat init).level = _
    rw [hK, forLoopN_split, ← hK]
    simp only [forLoopN, zero_add, s]
  · intro p
    exact hframe _ _ _ (Ne.symm hx)
  · rw [h0, sub_eq_add_neg, hp, ← sub_eq_add_neg]
    rfl
  · rw [h1, hp0]
  · rw [hb, hp0]
  · have hw := kernel_iter_level USE_HELMHOLTZ c level res_id x_id rhs_id a b
      threadIdx_x threadIdx_y (Ne.symm hx) (Ne.symm ha) (Ne.symm hbi) (Ne.symm hbj)
      (Ne.symm hbk) k s ⟨hframe, h0, h1, hb⟩
    have hk0 : (k : Int) = 0 + (k : Int) := (zero_add _).symm
    have hidx : g + ijk = c.off + kernel_ijk c threadIdx_x threadIdx_y k := by
      simp only [c, box, g, ijk, jStride, kStride, blk, residual_kernel_prologue, kernel_ijk]
      ring
    have hbox : box = c.box := rfl
    show (iter (k : Int) s).level.load box res_id (g + ijk) = _
    rw [hk0, hw, hidx, hbox, Level.load_store_same, hp0,
      kernel_apply_op_eq USE_HELMHOLTZ BLOCK_K level x_id a b blockIdx_x blockIdx_y
        threadIdx_x threadIdx_y k]
    rfl

/-- Witness for C1: thread (1,1) of the single block of `exLevel`, iteration `k = 1`, residual
written to the field `other 2`. -/
theorem residual_kernel_refines_apply_op_witness :
    (other 2 ≠ other 0 ∧ ((1 : Nat) : Int) < (exLevel.my_blocks ((0 : Nat) : Int)).dim.i
      ∧ ((1 : Nat) : Int) < min (exLevel.my_blocks ((0 : Nat) : Int)).dim.k 4)
    ∧ (forLoopN 0
        (residual_kernel_iter true (residual_kernel_prologue 4 exLevel 0 0)
          (other 2) (other 0) (other 1) 1 1 1 1) 1
        (residual_kernel_init (residual_kernel_prologue 4 exLevel 0 0) exLevel (other 0)
          1 1)).xc1 = exLevel.ptr 0 (other 0) 21 21 :=
  ⟨⟨by decide, by decide, by decide⟩,
    (residual_kernel_refines_apply_op true 4 exLevel (other 2) (other 0) (other 1) 1 1
      0 0 1 1 1 (by decide) (by decide) (by decide) (by decide) (by decide)
      (by decide) (by decide) (by decide) (by decide) (by decide)).2.2.2.1⟩

/-- C2. For every field `x` and every cell of a block (thread `tx < dim.i`, `ty < dim.j`,
iteration `k < kdim`), when the right-hand side is zero everywhere and `res_id` is a field
other than `x_id`, `rhs_id` and the coefficient vectors, the residual left in memory by
`residual_kernel` at the cell is the negation of the un-fused variable-coefficient
`apply_op_ijk` of `operators.7pt.c` applied to `x` at that cell (same coefficient mode, same
`a`, `b`, `h`). -/
theorem residual_zero_rhs_eq_neg_apply_op (USE_HELMHOLTZ : Bool) (BLOCK_K : Int)
    (level : Level R) (res_id x_id rhs_id : VectorId) (a b : R)
    (blockIdx_x blockIdx_y threadIdx_x threadIdx_y k : Nat)
    (hx : res_id ≠ x_id) (hr : res_id ≠ rhs_id) (ha : res_id ≠ VECTOR_ALPHA)
    (hbi : res_id ≠ VECTOR_BETA_I) (hbj : res_id ≠ VECTOR_BETA_J)
    (hbk : res_id ≠ VECTOR_BETA_K)
    (hi : (threadIdx_x : Int) < (level.my_blocks blockIdx_x).dim.i)
    (hi32 : (level.my_blocks blockIdx_x).dim.i < 4294967296)
    (hj : (threadIdx_y : Int) < (level.my_blocks blockIdx_x).dim.j)
    (hj32 : (level.my_blocks blockIdx_x).dim.j < 4294967296)
    (hk : (k : Int) < min (level.my_blocks blockIdx_x).dim.k BLOCK_K)
    (hzero : ∀ addr, level.load (level.my_blocks blockIdx_x).read.box rhs_id addr = 0) :
    let blk := level.my_blocks blockIdx_x
    let box := blk.read.box
    let jStride := (level.my_boxes box).jStride
    let kStride := (level.my_boxes box).kStride
    let g := (level.my_boxes box).ghosts * (1 + jStride + kStride)
    let ijk := (blk.read.i + threadIdx_x) + (blk.read.j + threadIdx_y) * jStride
      + (blk.read.k + BLOCK_K * blockIdx_y + k) * kStride
    (residual_kernel USE_HELMHOLTZ BLOCK_K level res_id x_id rhs_id a b
        blockIdx_x blockIdx_y threadIdx_x threadIdx_y).ptr box res_id g ijk
      = - apply_op_ijk false (modeOf USE_HELMHOLTZ) (box_env level box a b)
            (level.ptr box x_id g) ijk := by
  intro blk box jStride kStride g ijk
  have hK : k < (min blk.dim.k BLOCK_K).toNat := by
    have : (k : Int) < min blk.dim.k BLOCK_K := hk
    omega
  have hkept := kernel_writes_kept USE_HELMHOLTZ
    (residual_kernel_prologue BLOCK_K level blockIdx_x blockIdx_y) level res_id x_id rhs_id
    a b threadIdx_x threadIdx_y (Ne.symm hx) (Ne.symm hr) (Ne.symm ha) (Ne.symm hbi)
    (Ne.symm hbj) (Ne.symm hbk) (min blk.dim.k BLOCK_K).toNat k hK
  have hidx : g + ijk = (residual_kernel_prologue BLOCK_K level blockIdx_x blockIdx_y).off
      + kernel_ijk (residual_kernel_prologue BLOCK_K level blockIdx_x blockIdx_y)
          threadIdx_x threadIdx_y k := by
    simp only [box, g, ijk, jStride, kStride, blk, residual_kernel_prologue, kernel_ijk]
    ring
  rw [residual_kernel_eq_loop USE_HELMHOLTZ BLOCK_K level res_id x_id rhs_id a b
    blockIdx_x blockIdx_y threadIdx_x threadIdx_y hi hi32 hj hj32]
  show Level.load _ box res_id (g + ijk) = _
  rw [hidx]
  have hz : level.ptr (residual_kernel_prologue BLOCK_K level blockIdx_x blockIdx_y).box
      rhs_id (residual_kernel_prologue BLOCK_K level blockIdx_x blockIdx_y).off
      (kernel_ijk (residual_kernel_prologue BLOCK_K level blockIdx_x blockIdx_y)
        threadIdx_x threadIdx_y k) = 0 := hzero _
  rw [hz, zero_sub, kernel_apply_op_eq USE_HELMHOLTZ BLOCK_K level x_id a b blockIdx_x
    blockIdx_y threadIdx_x threadIdx_y k] at hkept
  exact hkept

/-- Witness for C2: thread (1,1) of the single block of `exLevel`, `k = 1`, with the zero
field `other 1` as right-hand side and the residual written to `other 2`. -/
theorem residual_zero_rhs_eq_neg_apply_op_witness :
    (other 2 ≠ other 1 ∧ (∀ addr, exLevel.load (exLevel.my_blocks ((0 : Nat) : Int)).read.box
        (other 1) addr = 0))
    ∧ (residual_kernel true 4 exLevel (other 2) (other 0) (other 1) 1 1 0 0 1 1).ptr 0
          (other 2) 21 21
        = - apply_op_ijk false CoeffMode.helmholtz (box_env exLevel 0 1 1)
              (exLevel.ptr 0 (other 0) 21) 21 :=
  ⟨⟨by decide, fun _ => rfl⟩,
    residual_zero_rhs_eq_neg_apply_op true 4 exLevel (other 2) (other 0) (other 1) 1 1
      0 0 1 1 1 (by decide) (by decide) (by decide) (by decide) (by decide) (by decide)
      (by decide) (by decide) (by decide) (by decide) (by decide) (fun _ => rfl)⟩

/-- C3. After `rebuild_operator` (lines 230-324), for every cell `(i,j,k)` inside the extent
of an owned block whose diagonal term `Aii = a*alpha[ijk] - b*h2inv*(sum over the six faces of
beta_face*(valid[neighbour] - 2))` is non-zero: the coefficients, hence `Aii`, are those of
the input, and `Dinv[ijk] * Aii[ijk] = 1` (exact arithmetic), whatever `USE_HELMHOLTZ`. -/
theorem rebuild_operator_Dinv_mul_Aii (USE_MPI : Bool) (level : Level R) (a b : R)
    (others : List R) (block i j k : Int) (hin : InBlock level block i j k)
    (hne : rebuild_Aii (block_env level block a b) (cell_ijk level block i j k) ≠ 0) :
    rebuild_Aii (block_env (rebuild_operator_local USE_MPI level a b others) block a b)
        (cell_ijk (rebuild_operator_local USE_MPI level a b others) block i j k)
      = rebuild_Aii (block_env level block a b) (cell_ijk level block i j k)
    ∧ block_load (rebuild_operator_local USE_MPI level a b others) block VECTOR_DINV
          (cell_ijk (rebuild_operator_local USE_MPI level a b others) block i j k)
        * rebuild_Aii (block_env (rebuild_operator_local USE_MPI level a b others) block a b)
            (cell_ijk (rebuild_operator_local USE_MPI level a b others) block i j k) = 1 := by
  obtain ⟨he, hc, hd, -⟩ := rebuild_operator_local_cell USE_MPI level a b others block i j k hin
  rw [he, hc, hd]
  exact ⟨rfl, one_div_mul_cancel hne⟩

/-- Witness for C3: the cell (0,0,0) of the block of `exLevel`, where `Aii = 7`. -/
theorem rebuild_operator_Dinv_mul_Aii_witness :
    (InBlock exLevel 0 0 0 0
      ∧ rebuild_Aii (block_env exLevel 0 1 1) (cell_ijk exLevel 0 0 0 0) ≠ 0)
    ∧ block_load (rebuild_operator_local false exLevel 1 1 []) 0 VECTOR_DINV
          (cell_ijk (rebuild_operator_local false exLevel 1 1 []) 0 0 0 0)
        * rebuild_Aii (block_env (rebuild_operator_local false exLevel 1 1 []) 0 1 1)
            (cell_ijk (rebuild_operator_local false exLevel 1 1 []) 0 0 0 0) = 1 :=
  ⟨⟨by simp [InBlock, exLevel],
      by norm_num [rebuild_Aii, block_env, box_env, cell_ijk, exLevel, exBox, Level.ptr,
        Level.load]⟩,
    (rebuild_operator_Dinv_mul_Aii false exLevel 1 1 [] 0 0 0 0 (by simp [InBlock, exLevel])
      (by norm_num [rebuild_Aii, block_env, box_env, cell_ijk, exLevel, exBox, Level.ptr,
        Level.load])).2⟩

/-- C4. After `rebuild_operator` (lines 230-324), for every cell inside the extent of an
owned block, `L1inv[ijk] = 1/Aii` if `Aii >= 1.5*sumAbsAij` and
`L1inv[ijk] = 1/(Aii + 0.5*sumAbsAij)` otherwise, with `Aii` and `sumAbsAij` the cell's
diagonal term and sum of absolute off-diagonal coefficients as `rebuild_operator` computes
them (threshold `3/2` and blend factor `1/2` exactly). -/
theorem rebuild_operator_L1inv (USE_MPI : Bool) (level : Level R) (a b : R)
    (others : List R) (block i j k : Int) (hin : InBlock level block i j k) :
    (rebuild_Aii (block_env level block a b) (cell_ijk level block i j k)
        ≥ 3 / 2 * rebuild_sumAbsAij (block_env level block a b) (cell_ijk level block i j k) →
      block_load (rebuild_operator_local USE_MPI level a b others) block VECTOR_L1INV
          (cell_ijk (rebuild_operator_local USE_MPI level a b others) block i j k)
        = 1 / rebuild_Aii (block_env level block a b) (cell_ijk level block i j k))
    ∧ (¬ rebuild_Aii (block_env level block a b) (cell_ijk level block i j k)
        ≥ 3 / 2 * rebuild_sumAbsAij (block_env level block a b) (cell_ijk level block i j k) →
      block_load (rebuild_operator_local USE_MPI level a b others) block VECTOR_L1INV
          (cell_ijk (rebuild_operator_local USE_MPI level a b others) block i j k)
        = 1 / (rebuild_Aii (block_env level block a b) (cell_ijk level block i j k)
            + 1 / 2 * rebuild_sumAbsAij (block_env level block a b)
                (cell_ijk level block i j k))) := by
  obtain ⟨-, hc, -, hd⟩ := rebuild_operator_local_cell USE_MPI level a b others block i j k hin
  rw [hc, hd]
  unfold rebuild_L1inv
  exact ⟨fun h => if_pos h, fun h => if_neg h⟩

/-- Witness for C4: the cell (0,0,0) of the block of `exLevel`, where `Aii = 7 < 1.5 * 6`, so
`L1inv = 1/(7 + 0.5*6)`. -/
theorem rebuild_operator_L1inv_witness :
    InBlock exLevel 0 0 0 0
    ∧ (¬ rebuild_Aii (block_env exLevel 0 1 1) (cell_ijk exLevel 0 0 0 0)
        ≥ 3 / 2 * rebuild_sumAbsAij (block_env exLevel 0 1 1) (cell_ijk exLevel 0 0 0 0) →
      block_load (rebuild_operator_local false exLevel 1 1 []) 0 VECTOR_L1INV
          (cell_ijk (rebuild_operator_local false exLevel 1 1 []) 0 0 0 0)
        = 1 / (rebuild_Aii (block_env exLevel 0 1 1) (cell_ijk exLevel 0 0 0 0)
            + 1 / 2 * rebuild_sumAbsAij (block_env exLevel 0 1 1)
                (cell_ijk exLevel 0 0 0 0))) :=
  ⟨by simp [InBlock, exLevel],
    (rebuild_operator_L1inv false exLevel 1 1 [] 0 0 0 0 (by simp [InBlock, exLevel])).2⟩

/-- C5, counterexample. On `steepLevel` (one cell, `a = b = h = 1`) the cell has `Aii = -1`
and `sumAbsAij = 6e9`, so its bound is `(-1 + 6e9)/(-1) = -5999999999`, below the initial
value `-1e9` of `dominant_eigenvalue`; the stored value is `-1e9`, which is the bound of no
cell. -/
theorem rebuild_eigenvalue_floor_counterexample :
    InBlock steepLevel 0 0 0 0
    ∧ rebuild_Aii (block_env steepLevel 0 1 1) (cell_ijk steepLevel 0 0 0 0) = -1
    ∧ rebuild_sumAbsAij (block_env steepLevel 0 1 1) (cell_ijk steepLevel 0 0 0 0)
        = 6000000000
    ∧ (rebuild_operator_local false steepLevel 1 1 []).dominant_eigenvalue_of_DinvA
        = -1000000000
    ∧ cell_Di steepLevel 1 1 0 0 0 0 = -5999999999
    ∧ ¬ ∃ block i j k : Int, InBlock steepLevel block i j k
        ∧ (rebuild_operator_local false steepLevel 1 1 []).dominant_eigenvalue_of_DinvA
            = cell_Di steepLevel 1 1 block i j k := by
  have hE : (rebuild_operator_local false steepLevel 1 1 []).dominant_eigenvalue_of_DinvA
      = -1000000000 := by
    norm_num [rebuild_operator_local, rebuild_operator_compute, forLoop, forLoopN,
      rebuild_operator_block, rebuild_operator_cell, rebuild_Aii, rebuild_sumAbsAij,
      box_env, steepLevel, steepBox, Level.ptr, Level.load, Level.store, Box.store]
  have hD : ∀ block i j k : Int, cell_Di steepLevel 1 1 block i j k = -5999999999 := by
    intro block i j k
    norm_num [cell_Di, rebuild_Di, rebuild_Aii, rebuild_sumAbsAij, block_env, box_env,
      steepLevel, steepBox, Level.ptr, Level.load, cell_ijk]
  refine ⟨by simp [InBlock, steepLevel],
    by norm_num [rebuild_Aii, block_env, box_env, steepLevel, steepBox, Level.ptr, Level.load,
      cell_ijk],
    by norm_num [rebuild_sumAbsAij, block_env, box_env, steepLevel, steepBox, Level.ptr,
      Level.load, cell_ijk],
    hE, hD 0 0 0 0, ?_⟩
  rintro ⟨block, i, j, k, -, h⟩
  rw [hE, hD] at h
  norm_num at h

/-- C5, amended. On a level in which every cell of every owned block has a non-zero diagonal
term `Aii` (so that each per-cell Gershgorin bound `Di = (Aii + sumAbsAij)/Aii` is a quotient
by a non-zero number, `Di * Aii = Aii + sumAbsAij`), the value `rebuild_operator` stores in
`level->dominant_eigenvalue_of_DinvA` is the maximum of the floor `-1e9` and of the per-cell
bounds over all cells of all owned blocks: without `USE_MPI` it is at least `-1e9` and at
least every cell's bound, it is `-1e9` or the bound of some cell, and it is the bound of some
cell as soon as one cell has a bound of at least `-1e9`; with `USE_MPI` it is the maximum of
that per-rank value and of the values of the other ranks. -/
theorem rebuild_operator_dominant_eigenvalue (level : Level R) (a b : R) (others : List R)
    (hne : ∀ block i j k : Int, InBlock level block i j k →
      rebuild_Aii (block_env level block a b) (cell_ijk level block i j k) ≠ 0) :
    (∀ block i j k : Int, InBlock level block i j k →
        cell_Di level a b block i j k
            * rebuild_Aii (block_env level block a b) (cell_ijk level block i j k)
          = rebuild_Aii (block_env level block a b) (cell_ijk level block i j k)
            + rebuild_sumAbsAij (block_env level block a b) (cell_ijk level block i j k))
    ∧ -1000000000
        ≤ (rebuild_operator_local false level a b others).dominant_eigenvalue_of_DinvA
    ∧ (∀ block i j k : Int, InBlock level block i j k →
        cell_Di level a b block i j k
          ≤ (rebuild_operator_local false level a b others).dominant_eigenvalue_of_DinvA)
    ∧ ((rebuild_operator_local false level a b others).dominant_eigenvalue_of_DinvA
          = -1000000000
        ∨ ∃ block i j k : Int, InBlock level block i j k
          ∧ (rebuild_operator_local false level a b others).dominant_eigenvalue_of_DinvA
              = cell_Di level a b block i j k)
    ∧ ((∃ block i j k : Int, InBlock level block i j k
          ∧ -1000000000 ≤ cell_Di level a b block i j k) →
        ∃ block i j k : Int, InBlock level block i j k
          ∧ (rebuild_operator_local false level a b others).dominant_eigenvalue_of_DinvA
              = cell_Di level a b block i j k)
    ∧ (rebuild_operator_local false level a b others).dominant_eigenvalue_of_DinvA
        ≤ (rebuild_operator_local true level a b others).dominant_eigenvalue_of_DinvA
    ∧ (∀ v ∈ others,
        v ≤ (rebuild_operator_local true level a b others).dominant_eigenvalue_of_DinvA)
    ∧ ((rebuild_operator_local true level a b others).dominant_eigenvalue_of_DinvA
          = (rebuild_operator_local false level a b others).dominant_eigenvalue_of_DinvA
        ∨ (rebuild_operator_local true level a b others).dominant_eigenvalue_of_DinvA
            ∈ others) :=
  ⟨fun block i j k hin => div_mul_cancel₀ _ (hne block i j k hin),
    rebuild_operator_local_eig level a b others⟩

/-- Witness for C5: the 8x8x8 level `lapLevel` with `a = b = 1`, where every cell has
`Aii = 7`, `sumAbsAij = 6` and bound `13/7`; the stored estimate is the bound of a cell. -/
theorem rebuild_operator_dominant_eigenvalue_witness :
    (∀ block i j k : Int, InBlock lapLevel block i j k →
      rebuild_Aii (block_env lapLevel block 1 1) (cell_ijk lapLevel block i j k) ≠ 0)
    ∧ (InBlock lapLevel 0 0 0 0 ∧ -1000000000 ≤ cell_Di lapLevel 1 1 0 0 0 0)
    ∧ ∃ block i j k : Int, InBlock lapLevel block i j k
        ∧ (rebuild_operator_local false lapLevel 1 1 []).dominant_eigenvalue_of_DinvA
            = cell_Di lapLevel 1 1 block i j k :=
  ⟨fun block i j k _ => by
      norm_num [rebuild_Aii, block_env, box_env, cell_ijk, lapLevel, lapBox, Level.ptr,
        Level.load],
    ⟨by simp [InBlock, lapLevel],
      by norm_num [cell_Di, rebuild_Di, rebuild_Aii, rebuild_sumAbsAij, block_env, box_env,
        cell_ijk, lapLevel, lapBox, Level.ptr, Level.load]⟩,
    (rebuild_operator_dominant_eigenvalue lapLevel 1 1 []
      (fun block i j k _ => by
        norm_num [rebuild_Aii, block_env, box_env, cell_ijk, lapLevel, lapBox, Level.ptr,
          Level.load])).2.2.2.2.1
      ⟨0, 0, 0, 0, by simp [InBlock, lapLevel],
        by norm_num [cell_Di, rebuild_Di, rebuild_Aii, rebuild_sumAbsAij, block_env, box_env,
          cell_ijk, lapLevel, lapBox, Level.ptr, Level.load]⟩⟩

/-- C6, counterexample. The claim's own example: the constant-coefficient 7-point Laplacian
on the 8x8x8 level with `h = 1`, `a = 1`, `b = -1`, `alpha = beta = 1`, `valid = 1`.  All the
sign hypotheses of the claim hold, yet every cell has `Aii = 1 - 6 = -5`, `sumAbsAij = 6` and
bound `(-5 + 6)/(-5) = -1/5 < 1`, and the stored eigenvalue estimate is below 1 as well. -/
theorem gershgorin_bound_negative_b_counterexample :
    ((0 : ℚ) ≤ 1 ∧ (-1 : ℚ) ≤ 0
      ∧ (∀ p, (block_env lapLevel 0 1 (-1)).alpha p = 1
          ∧ (block_env lapLevel 0 1 (-1)).beta_i p = 1
          ∧ (block_env lapLevel 0 1 (-1)).beta_j p = 1
          ∧ (block_env lapLevel 0 1 (-1)).beta_k p = 1
          ∧ (block_env lapLevel 0 1 (-1)).valid p = 1)
      ∧ InBlock lapLevel 0 0 0 0)
    ∧ cell_Di lapLevel 1 (-1) 0 0 0 0 = -1 / 5
    ∧ ¬ (1 ≤ cell_Di lapLevel 1 (-1) 0 0 0 0)
    ∧ ¬ (1 ≤ (rebuild_operator_local false lapLevel 1 (-1) []).dominant_eigenvalue_of_DinvA) := by
  have hD : ∀ block i j k : Int, cell_Di lapLevel 1 (-1) block i j k = -1 / 5 := by
    intro block i j k
    norm_num [cell_Di, rebuild_Di, rebuild_Aii, rebuild_sumAbsAij, block_env, box_env,
      lapLevel, lapBox, Level.ptr, Level.load, cell_ijk]
  refine ⟨⟨by norm_num, by norm_num, fun p => ⟨rfl, rfl, rfl, rfl, rfl⟩,
    by simp [InBlock, lapLevel]⟩, hD 0 0 0 0, by rw [hD]; norm_num, ?_⟩
  rcases (rebuild_operator_local_eig lapLevel 1 (-1) []).2.2.1 with h | ⟨block, i, j, k, -, h⟩
  · rw [h]
    norm_num
  · rw [h, hD]
    norm_num

/-- C6, amended. For every cell of an owned block, with `a >= 0` and `b >= 0` (the sign
convention under which the code's `Aii` is non-negative), non-negative `alpha` and `beta`
coefficients, `valid` values in `{0,1}` and a non-zero `Aii`, the per-cell Gershgorin bound
`(Aii + sumAbsAij)/Aii` computed by `rebuild_operator` is at least 1, and so is the eigenvalue
estimate stored for the level (with or without `USE_MPI`). -/
theorem gershgorin_bound_ge_one (USE_MPI : Bool) (level : Level R) (a b : R)
    (others : List R) (block i j k : Int) (hin : InBlock level block i j k)
    (ha : 0 ≤ a) (hb : 0 ≤ b)
    (hal : 0 ≤ (block_env level block a b).alpha (cell_ijk level block i j k))
    (h1 : 0 ≤ (block_env level block a b).beta_i (cell_ijk level block i j k))
    (h2 : 0 ≤ (block_env level block a b).beta_j (cell_ijk level block i j k))
    (h3 : 0 ≤ (block_env level block a b).beta_k (cell_ijk level block i j k))
    (h4 : 0 ≤ (block_env level block a b).beta_i (cell_ijk level block i j k + 1))
    (h5 : 0 ≤ (block_env level block a b).beta_j
      (cell_ijk level block i j k + (block_env level block a b).jStride))
    (h6 : 0 ≤ (block_env level block a b).beta_k
      (cell_ijk level block i j k + (block_env level block a b).kStride))
    (hv : ∀ p ∈ neighbours (block_env level block a b) (cell_ijk level block i j k),
      (block_env level block a b).valid p = 0 ∨ (block_env level block a b).valid p = 1)
    (hne : rebuild_Aii (block_env level block a b) (cell_ijk level block i j k) ≠ 0) :
    1 ≤ cell_Di level a b block i j k
    ∧ 1 ≤ (rebuild_operator_local USE_MPI level a b others).dominant_eigenvalue_of_DinvA := by
  have hh : 0 ≤ (block_env level block a b).h2inv := by
    show 0 ≤ 1 / (level.h * level.h)
    exact div_nonneg zero_le_one (mul_self_nonneg _)
  have hnn := rebuild_Aii_nonneg (block_env level block a b) (cell_ijk level block i j k)
    ha hb hh hal h1 h2 h3 h4 h5 h6 (hv _ (by simp [neighbours])) (hv _ (by simp [neighbours]))
    (hv _ (by simp [neighbours])) (hv _ (by simp [neighbours])) (hv _ (by simp [neighbours]))
    (hv _ (by simp [neighbours]))
  have hD : 1 ≤ cell_Di level a b block i j k :=
    rebuild_Di_ge_one_of_pos _ _ (lt_of_le_of_ne hnn (Ne.symm hne))
  obtain ⟨-, e2, -, -, e5, -, -⟩ := rebuild_operator_local_eig level a b others
  refine ⟨hD, ?_⟩
  cases USE_MPI
  · exact le_trans hD (e2 block i j k hin)
  · exact le_trans (le_trans hD (e2 block i j k hin)) e5

/-- Witness for C6: the constant-coefficient 7-point Laplacian on the 8x8x8 level with
`h = 1`, `a = 1`, `b = 1`, `alpha = beta = 1`, `valid = 1`: the stored estimate is at least 1. -/
theorem gershgorin_bound_ge_one_witness :
    (InBlock lapLevel 0 0 0 0 ∧ (0 : ℚ) ≤ 1
      ∧ rebuild_Aii (block_env lapLevel 0 1 1) (cell_ijk lapLevel 0 0 0 0) ≠ 0)
    ∧ 1 ≤ (rebuild_operator_local false lapLevel 1 1 []).dominant_eigenvalue_of_DinvA :=
  ⟨⟨by simp [InBlock, lapLevel], by norm_num,
      by norm_num [rebuild_Aii, block_env, box_env, cell_ijk, lapLevel, lapBox, Level.ptr,
        Level.load]⟩,
    (gershgorin_bound_ge_one false lapLevel 1 1 [] 0 0 0 0 (by simp [InBlock, lapLevel])
      (by norm_num) (by norm_num)
      (by norm_num [block_env, box_env, lapLevel, lapBox, Level.ptr, Level.load])
      (by norm_num [block_env, box_env, lapLevel, lapBox, Level.ptr, Level.load])
      (by norm_num [block_env, box_env, lapLevel, lapBox, Level.ptr, Level.load])
      (by norm_num [block_env, box_env, lapLevel, lapBox, Level.ptr, Level.load])
      (by norm_num [block_env, box_env, lapLevel, lapBox, Level.ptr, Level.load])
      (by norm_num [block_env, box_env, lapLevel, lapBox, Level.ptr, Level.load])
      (by norm_num [block_env, box_env, lapLevel, lapBox, Level.ptr, Level.load])
      (fun _ _ => Or.inr rfl)
      (by norm_num [rebuild_Aii, block_env, box_env, cell_ijk, lapLevel, lapBox, Level.ptr,
        Level.load])).2⟩

/-- C7. With `jStride = dim.i + 2*ghosts` and `kStride = jStride*(dim.j + 2*ghosts)`, the
addressing formula `index(i,j,k) = ghosts*(1+jStride+kStride) + i + j*jStride + k*kStride`
maps every padded coordinate (`-ghosts <= i < dim.i+ghosts`, likewise `j`, `k`) into
`[0, (dim.i+2*ghosts)*(dim.j+2*ghosts)*(dim.k+2*ghosts))` and is injective on that range;
and when `ghosts >= 1` the six neighbour offsets `+-1`, `+-jStride`, `+-kStride` of every
interior cell address pairwise distinct elements of the buffer. -/
theorem index_in_buffer_injective (dim_i dim_j dim_k ghosts : Int) :
    (∀ i j k : Int, -ghosts ≤ i → i < dim_i + ghosts → -ghosts ≤ j → j < dim_j + ghosts →
      -ghosts ≤ k → k < dim_k + ghosts →
      0 ≤ index ghosts (dim_i + 2 * ghosts) ((dim_i + 2 * ghosts) * (dim_j + 2 * ghosts)) i j k
      ∧ index ghosts (dim_i + 2 * ghosts) ((dim_i + 2 * ghosts) * (dim_j + 2 * ghosts)) i j k
          < (dim_i + 2 * ghosts) * (dim_j + 2 * ghosts) * (dim_k + 2 * ghosts))
    ∧ (∀ i j k i' j' k' : Int,
      -ghosts ≤ i → i < dim_i + ghosts → -ghosts ≤ j → j < dim_j + ghosts →
      -ghosts ≤ k → k < dim_k + ghosts →
      -ghosts ≤ i' → i' < dim_i + ghosts → -ghosts ≤ j' → j' < dim_j + ghosts →
      -ghosts ≤ k' → k' < dim_k + ghosts →
      index ghosts (dim_i + 2 * ghosts) ((dim_i + 2 * ghosts) * (dim_j + 2 * ghosts)) i j k
        = index ghosts (dim_i + 2 * ghosts) ((dim_i + 2 * ghosts) * (dim_j + 2 * ghosts))
            i' j' k' →
      i = i' ∧ j = j' ∧ k = k')
    ∧ (1 ≤ ghosts → ∀ i j k : Int, 0 ≤ i → i < dim_i → 0 ≤ j → j < dim_j → 0 ≤ k → k < dim_k →
      (∀ p ∈ [index ghosts (dim_i + 2 * ghosts) ((dim_i + 2 * ghosts) * (dim_j + 2 * ghosts))
                  i j k + 1,
              index ghosts (dim_i + 2 * ghosts) ((dim_i + 2 * ghosts) * (dim_j + 2 * ghosts))
                  i j k - 1,
              index ghosts (dim_i + 2 * ghosts) ((dim_i + 2 * ghosts) * (dim_j + 2 * ghosts))
                  i j k + (dim_i + 2 * ghosts),
              index ghosts (dim_i + 2 * ghosts) ((dim_i + 2 * ghosts) * (dim_j + 2 * ghosts))
                  i j k - (dim_i + 2 * ghosts),
              index ghosts (dim_i + 2 * ghosts) ((dim_i + 2 * ghosts) * (dim_j + 2 * ghosts))
                  i j k + (dim_i + 2 * ghosts) * (dim_j + 2 * ghosts),
              index ghosts (dim_i + 2 * ghosts) ((dim_i + 2 * ghosts) * (dim_j + 2 * ghosts))
                  i j k - (dim_i + 2 * ghosts) * (dim_j + 2 * ghosts)],
          0 ≤ p ∧ p < (dim_i + 2 * ghosts) * (dim_j + 2 * ghosts) * (dim_k + 2 * ghosts))
      ∧ [index ghosts (dim_i + 2 * ghosts) ((dim_i + 2 * ghosts) * (dim_j + 2 * ghosts))
              i j k + 1,
          index ghosts (dim_i + 2 * ghosts) ((dim_i + 2 * ghosts) * (dim_j + 2 * ghosts))
              i j k - 1,
          index ghosts (dim_i + 2 * ghosts) ((dim_i + 2 * ghosts) * (dim_j + 2 * ghosts))
              i j k + (dim_i + 2 * ghosts),
          index ghosts (dim_i + 2 * ghosts) ((dim_i + 2 * ghosts) * (dim_j + 2 * ghosts))
              i j k - (dim_i + 2 * ghosts),
          index ghosts (dim_i + 2 * ghosts) ((dim_i + 2 * ghosts) * (dim_j + 2 * ghosts))
              i j k + (dim_i + 2 * ghosts) * (dim_j + 2 * ghosts),
          index ghosts (dim_i + 2 * ghosts) ((dim_i + 2 * ghosts) * (dim_j + 2 * ghosts))
              i j k - (dim_i + 2 * ghosts) * (dim_j + 2 * ghosts)].Nodup) := by
  have hrange : ∀ i j k : Int, -ghosts ≤ i → i < dim_i + ghosts → -ghosts ≤ j →
      j < dim_j + ghosts → -ghosts ≤ k → k < dim_k + ghosts →
      0 ≤ index ghosts (dim_i + 2 * ghosts) ((dim_i + 2 * ghosts) * (dim_j + 2 * ghosts)) i j k
      ∧ index ghosts (dim_i + 2 * ghosts) ((dim_i + 2 * ghosts) * (dim_j + 2 * ghosts)) i j k
          < (dim_i + 2 * ghosts) * (dim_j + 2 * ghosts) * (dim_k + 2 * ghosts) :=
    index_range dim_i dim_j dim_k ghosts
  have hinj := index_injective dim_i dim_j dim_k ghosts
  refine ⟨hrange, hinj, ?_⟩
  intro hg i j k hi1 hi2 hj1 hj2 hk1 hk2
  have e1 : index ghosts (dim_i + 2 * ghosts) ((dim_i + 2 * ghosts) * (dim_j + 2 * ghosts))
      i j k + 1 = index ghosts (dim_i + 2 * ghosts)
        ((dim_i + 2 * ghosts) * (dim_j + 2 * ghosts)) (i + 1) j k := by
    unfold index; ring
  have e2 : index ghosts (dim_i + 2 * ghosts) ((dim_i + 2 * ghosts) * (dim_j + 2 * ghosts))
      i j k - 1 = index ghosts (dim_i + 2 * ghosts)
        ((dim_i + 2 * ghosts) * (dim_j + 2 * ghosts)) (i - 1) j k := by
    unfold index; ring
  have e3 : index ghosts (dim_i + 2 * ghosts) ((dim_i + 2 * ghosts) * (dim_j + 2 * ghosts))
      i j k + (dim_i + 2 * ghosts) = index ghosts (dim_i + 2 * ghosts)
        ((dim_i + 2 * ghosts) * (dim_j + 2 * ghosts)) i (j + 1) k := by
    unfold index; ring
  have e4 : index ghosts (dim_i + 2 * ghosts) ((dim_i + 2 * ghosts) * (dim_j + 2 * ghosts))
      i j k - (dim_i + 2 * ghosts) = index ghosts (dim_i + 2 * ghosts)
        ((dim_i + 2 * ghosts) * (dim_j + 2 * ghosts)) i (j - 1) k := by
    unfold index; ring
  have e5 : index ghosts (dim_i + 2 * ghosts) ((dim_i + 2 * ghosts) * (dim_j + 2 * ghosts))
      i j k + (dim_i + 2 * ghosts) * (dim_j + 2 * ghosts) = index ghosts (dim_i + 2 * ghosts)
        ((dim_i + 2 * ghosts) * (dim_j + 2 * ghosts)) i j (k + 1) := by
    unfold index; ring
  have e6 : index ghosts (dim_i + 2 * ghosts) ((dim_i + 2 * ghosts) * (dim_j + 2 * ghosts))
      i j k - (dim_i + 2 * ghosts) * (dim_j + 2 * ghosts) = index ghosts (dim_i + 2 * ghosts)
        ((dim_i + 2 * ghosts) * (dim_j + 2 * ghosts)) i j (k - 1) := by
    unfold index; ring
  rw [e1, e2, e3, e4, e5, e6]
  have r1 := hrange (i + 1) j k (by omega) (by omega) (by omega) (by omega) (by omega) (by omega)
  have r2 := hrange (i - 1) j k (by omega) (by omega) (by omega) (by omega) (by omega) (by omega)
  have r3 := hrange i (j + 1) k (by omega) (by omega) (by omega) (by omega) (by omega) (by omega)
  have r4 := hrange i (j - 1) k (by omega) (by omega) (by omega) (by omega) (by omega) (by omega)
  have r5 := hrange i j (k + 1) (by omega) (by omega) (by omega) (by omega) (by omega) (by omega)
  have r6 := hrange i j (k - 1) (by omega) (by omega) (by omega) (by omega) (by omega) (by omega)
  have hne : ∀ i1 j1 k1 i2 j2 k2 : Int,
      -ghosts ≤ i1 → i1 < dim_i + ghosts → -ghosts ≤ j1 → j1 < dim_j + ghosts →
      -ghosts ≤ k1 → k1 < dim_k + ghosts →
      -ghosts ≤ i2 → i2 < dim_i + ghosts → -ghosts ≤ j2 → j2 < dim_j + ghosts →
      -ghosts ≤ k2 → k2 < dim_k + ghosts →
      (i1 ≠ i2 ∨ j1 ≠ j2 ∨ k1 ≠ k2) →
      index ghosts (dim_i + 2 * ghosts) ((dim_i + 2 * ghosts) * (dim_j + 2 * ghosts)) i1 j1 k1
        ≠ index ghosts (dim_i + 2 * ghosts) ((dim_i + 2 * ghosts) * (dim_j + 2 * ghosts))
            i2 j2 k2 := by
    intro i1 j1 k1 i2 j2 k2 a1 a2 a3 a4 a5 a6 b1 b2 b3 b4 b5 b6 hd heq
    obtain ⟨q1, q2, q3⟩ := hinj i1 j1 k1 i2 j2 k2 a1 a2 a3 a4 a5 a6 b1 b2 b3 b4 b5 b6 heq
    rcases hd with h | h | h
    · exact h q1
    · exact h q2
    · exact h q3
  refine ⟨?_, ?_⟩
  · intro p hp
    simp only [List.mem_cons, List.mem_singleton, List.not_mem_nil, or_false] at hp
    rcases hp with h | h | h | h | h | h <;> rw [h] <;> assumption
  · simp only [List.nodup_cons, List.mem_cons, List.mem_singleton, List.not_mem_nil,
      not_or, List.nodup_nil, and_true, not_false_eq_true]
    refine ⟨⟨?_, ?_, ?_, ?_, ?_⟩, ⟨?_, ?_, ?_, ?_⟩, ⟨?_, ?_, ?_⟩, ⟨?_, ?_⟩, ?_⟩ <;>
      (apply hne <;> omega)

/-- Witness for C7: a box of 8x8x8 cells with one ghost layer (`jStride = 10`,
`kStride = 100`, 1000 elements): the padded corners `(-1,-1,-1)` and `(8,8,8)` are addressed
in the buffer, and the six neighbours of the interior cell `(0,0,0)` are distinct elements. -/
theorem index_in_buffer_injective_witness :
    (0 ≤ index 1 (8 + 2 * 1) ((8 + 2 * 1) * (8 + 2 * 1)) (-1) (-1) (-1)
      ∧ index 1 (8 + 2 * 1) ((8 + 2 * 1) * (8 + 2 * 1)) (-1) (-1) (-1)
          < (8 + 2 * 1) * (8 + 2 * 1) * (8 + 2 * 1))
    ∧ (0 ≤ index 1 (8 + 2 * 1) ((8 + 2 * 1) * (8 + 2 * 1)) 8 8 8
      ∧ index 1 (8 + 2 * 1) ((8 + 2 * 1) * (8 + 2 * 1)) 8 8 8
          < (8 + 2 * 1) * (8 + 2 * 1) * (8 + 2 * 1))
    ∧ [index 1 (8 + 2 * 1) ((8 + 2 * 1) * (8 + 2 * 1)) 0 0 0 + 1,
        index 1 (8 + 2 * 1) ((8 + 2 * 1) * (8 + 2 * 1)) 0 0 0 - 1,
        index 1 (8 + 2 * 1) ((8 + 2 * 1) * (8 + 2 * 1)) 0 0 0 + (8 + 2 * 1),
        index 1 (8 + 2 * 1) ((8 + 2 * 1) * (8 + 2 * 1)) 0 0 0 - (8 + 2 * 1),
        index 1 (8 + 2 * 1) ((8 + 2 * 1) * (8 + 2 * 1)) 0 0 0 + (8 + 2 * 1) * (8 + 2 * 1),
        index 1 (8 + 2 * 1) ((8 + 2 * 1) * (8 + 2 * 1)) 0 0 0
          - (8 + 2 * 1) * (8 + 2 * 1)].Nodup :=
  ⟨(index_in_buffer_injective 8 8 8 1).1 (-1) (-1) (-1) (by decide) (by decide) (by decide)
      (by decide) (by decide) (by decide),
    (index_in_buffer_injective 8 8 8 1).1 8 8 8 (by decide) (by decide) (by decide)
      (by decide) (by decide) (by decide),
    ((index_in_buffer_injective 8 8 8 1).2.2 (by decide) 0 0 0 (by decide) (by decide)
      (by decide) (by decide) (by decide) (by decide)).2⟩

/-- C8. The fused-boundary-condition and precomputed-ghost forms of `apply_op_ijk` agree,
in the variable-coefficient Helmholtz and Poisson modes and in the constant-coefficient mode:
for every cell whose six neighbours have `valid` in `{0,1}`, the fused formula on `x` equals
the un-fused formula on every field that keeps the centre, holds `-x[ijk]` at the neighbours
with `valid = 0` and keeps the neighbours with `valid = 1`; such a field is `ghost_fill`
(replace the value at each neighbour with `valid = 0` by `-x[ijk]`) when the cell is not its
own neighbour; and the two formulas are equal on `x` itself when `valid = 1` at all six
neighbours. -/
theorem fused_bc_eq_precomputed_ghost (mode : CoeffMode) (e : StencilEnv R) (x : Int → R)
    (ijk : Int) (hv : ∀ p ∈ neighbours e ijk, e.valid p = 0 ∨ e.valid p = 1) :
    (∀ x' : Int → R, x' ijk = x ijk →
      (∀ p ∈ neighbours e ijk, e.valid p = 0 → x' p = -x ijk) →
      (∀ p ∈ neighbours e ijk, e.valid p = 1 → x' p = x p) →
      apply_op_ijk true mode e x ijk = apply_op_ijk false mode e x' ijk)
    ∧ (ijk ∉ neighbours e ijk →
      apply_op_ijk true mode e x ijk = apply_op_ijk false mode e (ghost_fill e x ijk) ijk)
    ∧ ((∀ p ∈ neighbours e ijk, e.valid p = 1) →
      apply_op_ijk true mode e x ijk = apply_op_ijk false mode e x ijk) := by
  refine ⟨fun x' hc h0 h1 => fused_eq_unfused_of_filled mode e x x' ijk hv hc h0 h1, ?_, ?_⟩
  · intro hself
    apply fused_eq_unfused_of_filled mode e x _ ijk hv
    · unfold ghost_fill
      rw [if_neg (fun h => hself h.1)]
    · intro p hp h
      unfold ghost_fill
      rw [if_pos ⟨hp, h⟩]
    · intro p _ h
      unfold ghost_fill
      rw [if_neg (fun h' => by rw [h] at h'; exact one_ne_zero h'.2)]
  · intro hall
    apply fused_eq_unfused_of_filled mode e x x ijk hv rfl
    · intro p hp h
      rw [hall p hp] at h
      exact absurd h one_ne_zero
    · intro p _ _
      rfl

/-- Witness for C8: the cell 21 of `exEnv`, whose neighbour 22 has `valid = 0`, in Helmholtz
mode on `exField`. -/
theorem fused_bc_eq_precomputed_ghost_witness :
    (∀ p ∈ neighbours exEnv 21, exEnv.valid p = 0 ∨ exEnv.valid p = 1)
    ∧ (21 ∉ neighbours exEnv 21 →
      apply_op_ijk true CoeffMode.helmholtz exEnv exField 21
        = apply_op_ijk false CoeffMode.helmholtz exEnv (ghost_fill exEnv exField 21) 21) :=
  ⟨fun p _ => by unfold exEnv; dsimp only; split <;> simp,
    (fused_bc_eq_precomputed_ghost CoeffMode.helmholtz exEnv exField 21
      (fun p _ => by unfold exEnv; dsimp only; split <;> simp)).2.1⟩

/-- C9. In the fused-boundary-condition form of `apply_op_ijk` (every coefficient mode) a
face neighbour whose validity mask is 0 contributes nothing: two fields that agree at the
cell and at every face neighbour whose `valid` is non-zero give the same value, whatever
they hold at the neighbours with `valid = 0`; and `apply_BCs` leaves the level unchanged when
`STENCIL_FUSE_BC` is defined. -/
theorem fused_bc_ignores_invalid_neighbours (mode : CoeffMode) (e : StencilEnv R)
    (x y : Int → R) (ijk : Int) (hc : x ijk = y ijk)
    (hn : ∀ p ∈ neighbours e ijk, e.valid p ≠ 0 → x p = y p)
    (apply_BCs_p1 : Level R → VectorId → Int → Level R) (level : Level R) (x_id : VectorId)
    (shape : Int) :
    apply_op_ijk true mode e x ijk = apply_op_ijk true mode e y ijk
    ∧ apply_BCs true apply_BCs_p1 level x_id shape = level := by
  have key : ∀ p ∈ neighbours e ijk,
      e.valid p * (y ijk + x p) = e.valid p * (y ijk + y p) := by
    intro p hp
    by_cases h : e.valid p = 0
    · rw [h, zero_mul, zero_mul]
    · rw [hn p hp h]
  have m1 : ijk - 1 ∈ neighbours e ijk := by simp [neighbours]
  have m2 : ijk - e.jStride ∈ neighbours e ijk := by simp [neighbours]
  have m3 : ijk - e.kStride ∈ neighbours e ijk := by simp [neighbours]
  have m4 : ijk + 1 ∈ neighbours e ijk := by simp [neighbours]
  have m5 : ijk + e.jStride ∈ neighbours e ijk := by simp [neighbours]
  have m6 : ijk + e.kStride ∈ neighbours e ijk := by simp [neighbours]
  refine ⟨?_, rfl⟩
  cases mode <;>
    simp only [apply_op_ijk, apply_op_ijk_fuse_helmholtz, apply_op_ijk_fuse_poisson,
      apply_op_ijk_fuse_constant, hc, key _ m1, key _ m2, key _ m3, key _ m4, key _ m5,
      key _ m6]

/-- Witness for C9: `exField` and `exField2` differ at element 22 only, a neighbour of the
cell 21 with `valid = 0` in `exEnv`. -/
theorem fused_bc_ignores_invalid_neighbours_witness :
    (exField 21 = exField2 21
      ∧ (∀ p ∈ neighbours exEnv 21, exEnv.valid p ≠ 0 → exField p = exField2 p)
      ∧ exField 22 ≠ exField2 22)
    ∧ apply_op_ijk true CoeffMode.poisson exEnv exField 21
        = apply_op_ijk true CoeffMode.poisson exEnv exField2 21 :=
  ⟨⟨rfl,
      fun p _ h => by
        have h22 : p ≠ 22 := fun hp => h (by rw [hp]; rfl)
        simp [exField, exField2, h22],
      by norm_num [exField, exField2]⟩,
    (fused_bc_ignores_invalid_neighbours CoeffMode.poisson exEnv exField exField2 21 rfl
      (fun p _ h => by
        have h22 : p ≠ 22 := fun hp => h (by rw [hp]; rfl)
        simp [exField, exField2, h22])
      (fun l _ _ => l) exLevel (other 0) 0).1⟩

end Claims

/-- C10. Smoother selection as a function of the build flags (`-DUSE_GSRB`, `-DUSE_CHEBY`,
`-DUSE_JACOBI`, `-DUSE_L1JACOBI`, `-DUSE_SYMGS`, each given or not): for every combination
the build fails or selects exactly one smoother variant, whose own flag is set; it fails if
and only if none of the five flags is set; and `NUM_SMOOTHS` is 2 for Gauss-Seidel Red-Black,
1 for Chebyshev (with `CHEBYSHEV_DEGREE` 4), 6 for Jacobi, 6 for L1-Jacobi and 2 for symmetric
Gauss-Seidel. -/
theorem smoother_select_spec (gsrb cheby jacobi l1jacobi symgs : Bool) :
    (smoother_select (dflag gsrb) (dflag cheby) (dflag jacobi) (dflag l1jacobi) (dflag symgs)
        = Except.error BuildError.no_smoother_selected
      ∨ ∃! sb : SmootherBuild,
          smoother_select (dflag gsrb) (dflag cheby) (dflag jacobi) (dflag l1jacobi)
            (dflag symgs) = Except.ok sb)
    ∧ (smoother_select (dflag gsrb) (dflag cheby) (dflag jacobi) (dflag l1jacobi) (dflag symgs)
        = Except.error BuildError.no_smoother_selected
      ↔ (gsrb = false ∧ cheby = false ∧ jacobi = false ∧ l1jacobi = false ∧ symgs = false))
    ∧ (∀ sb : SmootherBuild,
        smoother_select (dflag gsrb) (dflag cheby) (dflag jacobi) (dflag l1jacobi)
          (dflag symgs) = Except.ok sb →
        (sb.smoother = Smoother.gsrb →
          gsrb = true ∧ sb.NUM_SMOOTHS = 2 ∧ sb.file = SmootherFile.gsrb_c)
        ∧ (sb.smoother = Smoother.chebyshev →
          cheby = true ∧ sb.NUM_SMOOTHS = 1 ∧ sb.CHEBYSHEV_DEGREE = some 4
            ∧ sb.file = SmootherFile.chebyshev_c)
        ∧ (sb.smoother = Smoother.jacobi →
          jacobi = true ∧ sb.NUM_SMOOTHS = 6 ∧ sb.file = SmootherFile.jacobi_c)
        ∧ (sb.smoother = Smoother.l1jacobi →
          l1jacobi = true ∧ sb.NUM_SMOOTHS = 6 ∧ sb.file = SmootherFile.jacobi_c)
        ∧ (sb.smoother = Smoother.symgs →
          symgs = true ∧ sb.NUM_SMOOTHS = 2 ∧ sb.file = SmootherFile.symgs_c)) := by
  cases gsrb <;> cases cheby <;> cases jacobi <;> cases l1jacobi <;> cases symgs <;>
    simp [smoother_select, dflag, ifdef, elifValue]

/-! ## The stores of `residual_kernel` -/

section KernelStores

variable [LinearOrderedField R]

/-- A thread that passes the guard of line 37 reaches every iteration `k < kdim`: its result
is the remaining iterations run after iteration `k`. -/
theorem residual_kernel_runs_iter (USE_HELMHOLTZ : Bool) (BLOCK_K : Int) (level : Level R)
    (res_id x_id rhs_id : VectorId) (a b : R) (bx by_ tx ty k : Nat)
    (hr : KernelRuns BLOCK_K level bx tx ty k) :
    residual_kernel USE_HELMHOLTZ BLOCK_K level res_id x_id rhs_id a b bx by_ tx ty
      = (forLoopN (0 + ((k + 1 : Nat) : Int))
          (residual_kernel_iter USE_HELMHOLTZ (residual_kernel_prologue BLOCK_K level bx by_)
            res_id x_id rhs_id a b tx ty)
          ((min (level.my_blocks bx).dim.k BLOCK_K).toNat - (k + 1))
          (residual_kernel_iter USE_HELMHOLTZ (residual_kernel_prologue BLOCK_K level bx by_)
            res_id x_id rhs_id a b tx ty (k : Int)
            (forLoopN 0
              (residual_kernel_iter USE_HELMHOLTZ
                (residual_kernel_prologue BLOCK_K level bx by_) res_id x_id rhs_id a b tx ty)
              k
              (residual_kernel_init (residual_kernel_prologue BLOCK_K level bx by_) level
                x_id tx ty)))).level := by
  obtain ⟨h1, h2, h3⟩ := hr
  have hg : ¬ ((tx : Int) ≥ toUnsigned (level.my_blocks bx).dim.i
      ∨ (ty : Int) ≥ toUnsigned (level.my_blocks bx).dim.j) := by
    omega
  have hK : (min (level.my_blocks bx).dim.k BLOCK_K).toNat
      = (k + 1) + ((min (level.my_blocks bx).dim.k BLOCK_K).toNat - (k + 1)) := by
    omega
  unfold residual_kernel
  simp only [if_neg hg, forLoop, sub_zero]
  rw [hK, forLoopN_split, ← hK]
  simp only [forLoopN, zero_add]

end KernelStores

section KernelValue

variable [LinearOrderedField R]

/-- The value iteration `k` of a thread of `residual_kernel` stores in the `res` element of its
cell: the current `rhs` element of the cell minus the un-fused `apply_op_ijk` evaluated on the
field `x_id` of the memory the kernel started on, at the box index of the cell. -/
theorem residual_kernel_iter_value (USE_HELMHOLTZ : Bool) (BLOCK_K : Int) (level : Level R)
    (res_id x_id rhs_id : VectorId) (a b : R) (bx by_ tx ty k : Nat)
    (hx : res_id ≠ x_id) (ha : res_id ≠ VECTOR_ALPHA) (hbi : res_id ≠ VECTOR_BETA_I)
    (hbj : res_id ≠ VECTOR_BETA_J) (hbk : res_id ≠ VECTOR_BETA_K) :
    (residual_kernel_iter USE_HELMHOLTZ (residual_kernel_prologue BLOCK_K level bx by_)
        res_id x_id rhs_id a b tx ty (k : Int)
        (forLoopN 0
          (residual_kernel_iter USE_HELMHOLTZ (residual_kernel_prologue BLOCK_K level bx by_)
            res_id x_id rhs_id a b tx ty) k
          (residual_kernel_init (residual_kernel_prologue BLOCK_K level bx by_) level x_id
            tx ty))).level.load (level.my_blocks bx).read.box res_id
        (cell_index level bx (kernel_cell BLOCK_K level bx by_ tx ty k))
      = (forLoopN 0
          (residual_kernel_iter USE_HELMHOLTZ (residual_kernel_prologue BLOCK_K level bx by_)
            res_id x_id rhs_id a b tx ty) k
          (residual_kernel_init (residual_kernel_prologue BLOCK_K level bx by_) level x_id
            tx ty)).level.load (level.my_blocks bx).read.box rhs_id
          (cell_index level bx (kernel_cell BLOCK_K level bx by_ tx ty k))
        - apply_op_ijk false (modeOf USE_HELMHOLTZ) (block_env level bx a b)
            (block_load level bx x_id)
            (cell_ijk level bx (kernel_cell BLOCK_K level bx by_ tx ty k).1
              (kernel_cell BLOCK_K level bx by_ tx ty k).2.1
              (kernel_cell BLOCK_K level bx by_ tx ty k).2.2) := by
  have hs := kernel_window USE_HELMHOLTZ (residual_kernel_prologue BLOCK_K level bx by_) level
    res_id x_id rhs_id a b tx ty (Ne.symm hx) (Ne.symm hbk) k
  have hw := kernel_iter_level USE_HELMHOLTZ (residual_kernel_prologue BLOCK_K level bx by_)
    level res_id x_id rhs_id a b tx ty (Ne.symm hx) (Ne.symm ha) (Ne.symm hbi) (Ne.symm hbj)
    (Ne.symm hbk) k _ hs
  have hidx : cell_index level bx (kernel_cell BLOCK_K level bx by_ tx ty k)
      = (residual_kernel_prologue BLOCK_K level bx by_).off
        + kernel_ijk (residual_kernel_prologue BLOCK_K level bx by_) tx ty k := by
    simp only [cell_index, kernel_cell, index, residual_kernel_prologue, kernel_ijk]
    ring
  have hk0 : (k : Int) = 0 + (k : Int) := (zero_add _).symm
  have hbox : (level.my_blocks bx).read.box
      = (residual_kernel_prologue BLOCK_K level bx by_).box := rfl
  rw [hk0, hw, hidx, hbox, Level.load_store_same,
    kernel_apply_op_eq USE_HELMHOLTZ BLOCK_K level x_id a b bx by_ tx ty k]
  rfl

/-- The residual written at a cell, in the vocabulary of the kernel: the `rhs` element read
in that iteration minus the un-fused operator on the input field. -/
theorem kernel_stored_value_eq (USE_HELMHOLTZ : Bool) (BLOCK_K : Int) (level : Level R)
    (res_id x_id rhs_id : VectorId) (a b : R) (bx by_ tx ty k : Nat)
    (hx : res_id ≠ x_id) (ha : res_id ≠ VECTOR_ALPHA) (hbi : res_id ≠ VECTOR_BETA_I)
    (hbj : res_id ≠ VECTOR_BETA_J) (hbk : res_id ≠ VECTOR_BETA_K) :
    kernel_stored_value USE_HELMHOLTZ BLOCK_K level res_id x_id rhs_id a b bx by_ tx ty k
      = kernel_rhs_value USE_HELMHOLTZ BLOCK_K level res_id x_id rhs_id a b bx by_ tx ty k
        - apply_op_ijk false (modeOf USE_HELMHOLTZ) (block_env level bx a b)
            (block_load level bx x_id) (kernel_cell_ijk BLOCK_K level bx by_ tx ty k) :=
  residual_kernel_iter_value USE_HELMHOLTZ BLOCK_K level res_id x_id rhs_id a b bx by_ tx ty k
    hx ha hbi hbj hbk

/-- When `res_id` is not `rhs_id`, the `rhs` element a thread reads in iteration `k` is the
one of the memory the kernel started on. -/
theorem kernel_rhs_value_eq (USE_HELMHOLTZ : Bool) (BLOCK_K : Int) (level : Level R)
    (res_id x_id rhs_id : VectorId) (a b : R) (bx by_ tx ty k : Nat)
    (hx : res_id ≠ x_id) (hr : res_id ≠ rhs_id) (hbk : res_id ≠ VECTOR_BETA_K) :
    kernel_rhs_value USE_HELMHOLTZ BLOCK_K level res_id x_id rhs_id a b bx by_ tx ty k
      = level.load (level.my_blocks bx).read.box rhs_id
          (cell_index level bx (kernel_cell BLOCK_K level bx by_ tx ty k)) :=
  (kernel_window USE_HELMHOLTZ (residual_kernel_prologue BLOCK_K level bx by_) level
    res_id x_id rhs_id a b tx ty (Ne.symm hx) (Ne.symm hbk) k).1 _ _ _ (Ne.symm hr)

/-- The 7-point stencil reads its field at the cell and at the six face neighbours only. -/
theorem apply_op_ijk_footprint (fuse_bc : Bool) (mode : CoeffMode) (e : StencilEnv R)
    (x y : Int → R) (ijk : Int) (hc : x ijk = y ijk)
    (hn : ∀ p ∈ neighbours e ijk, x p = y p) :
    apply_op_ijk fuse_bc mode e x ijk = apply_op_ijk fuse_bc mode e y ijk := by
  have m1 : x (ijk - 1) = y (ijk - 1) := hn _ (by simp [neighbours])
  have m2 : x (ijk - e.jStride) = y (ijk - e.jStride) := hn _ (by simp [neighbours])
  have m3 : x (ijk - e.kStride) = y (ijk - e.kStride) := hn _ (by simp [neighbours])
  have m4 : x (ijk + 1) = y (ijk + 1) := hn _ (by simp [neighbours])
  have m5 : x (ijk + e.jStride) = y (ijk + e.jStride) := hn _ (by simp [neighbours])
  have m6 : x (ijk + e.kStride) = y (ijk + e.kStride) := hn _ (by simp [neighbours])
  cases fuse_bc <;> cases mode <;>
    simp only [apply_op_ijk, apply_op_ijk_helmholtz, apply_op_ijk_poisson,
      apply_op_ijk_constant, apply_op_ijk_fuse_helmholtz, apply_op_ijk_fuse_poisson,
      apply_op_ijk_fuse_constant, hc, m1, m2, m3, m4, m5, m6]

/-- The fused variable-coefficient operator is the diagonal coefficient `fused_diag` times
`x[ijk]` plus the six off-diagonal coefficients `fused_offdiag` times their neighbours. -/
theorem fused_apply_op_decomposition (USE_HELMHOLTZ : Bool) (e : StencilEnv R) (x : Int → R)
    (ijk : Int) :
    apply_op_ijk true (modeOf USE_HELMHOLTZ) e x ijk
      = fused_diag (modeOf USE_HELMHOLTZ) e ijk * x ijk
        + ((fused_offdiag e ijk).map (fun q => q.2 * x q.1)).sum := by
  cases USE_HELMHOLTZ <;>
    simp [apply_op_ijk, modeOf, apply_op_ijk_fuse_helmholtz, apply_op_ijk_fuse_poisson,
      fused_diag, fused_offdiag] <;>
    ring

/-- The macro `calculate_Dinv()` is the reciprocal of the diagonal coefficient of the fused
operator of the same variable-coefficient mode. -/
theorem calculate_Dinv_eq_inv_diag (USE_HELMHOLTZ : Bool) (e : StencilEnv R) (ijk : Int) :
    calculate_Dinv (modeOf USE_HELMHOLTZ) e ijk
      = 1 / fused_diag (modeOf USE_HELMHOLTZ) e ijk := by
  cases USE_HELMHOLTZ <;>
    simp [calculate_Dinv, modeOf, calculate_Dinv_helmholtz, calculate_Dinv_poisson, fused_diag]

/-- The value `rebuild_operator` stores in `Dinv` is what `calculate_Dinv()` computes in
Helmholtz mode, and in Poisson mode when `a*alpha[ijk] = 0`. -/
theorem rebuild_Dinv_eq_calculate (USE_HELMHOLTZ : Bool) (e : StencilEnv R) (ijk : Int)
    (hmode : USE_HELMHOLTZ = true ∨ e.a * e.alpha ijk = 0) :
    rebuild_Dinv e ijk = calculate_Dinv (modeOf USE_HELMHOLTZ) e ijk := by
  cases USE_HELMHOLTZ
  · rcases hmode with h | h
    · exact absurd h (by decide)
    · simp only [rebuild_Dinv, rebuild_Aii, calculate_Dinv, modeOf, calculate_Dinv_poisson, h,
        Bool.false_eq_true, if_false]
      congr 1
      ring
  · rfl

/-- The Gershgorin radius is the sum of the absolute values of the off-diagonal coefficients
of the fused operator. -/
theorem rebuild_sumAbsAij_eq_sum_abs (e : StencilEnv R) (ijk : Int) :
    rebuild_sumAbsAij e ijk = ((fused_offdiag e ijk).map (fun q => |q.2|)).sum := by
  have key : ∀ β v : R, |-(e.b * e.h2inv * β * v)| = |e.b * e.h2inv| * |β * v| := by
    intro β v
    rw [abs_neg, mul_assoc, abs_mul]
  simp only [rebuild_sumAbsAij, fused_offdiag, List.map_cons, List.map_nil, List.sum_cons,
    List.sum_nil, key]
  ring

end KernelValue

/-! ## Diagonal dominance and the L1-Jacobi damping -/

section Dominance

variable [LinearOrderedField R]

/-- Under the sign convention of the code (`a >= 0`, `b >= 0`, `h2inv >= 0`, non-negative
coefficients, validity values in `{0,1}`) the diagonal term is at least the Gershgorin
radius. -/
theorem rebuild_Aii_ge_sumAbsAij (e : StencilEnv R) (ijk : Int)
    (ha : 0 ≤ e.a) (hb : 0 ≤ e.b) (hh : 0 ≤ e.h2inv) (hal : 0 ≤ e.alpha ijk)
    (h1 : 0 ≤ e.beta_i ijk) (h2 : 0 ≤ e.beta_j ijk) (h3 : 0 ≤ e.beta_k ijk)
    (h4 : 0 ≤ e.beta_i (ijk + 1)) (h5 : 0 ≤ e.beta_j (ijk + e.jStride))
    (h6 : 0 ≤ e.beta_k (ijk + e.kStride))
    (v1 : e.valid (ijk - 1) = 0 ∨ e.valid (ijk - 1) = 1)
    (v2 : e.valid (ijk - e.jStride) = 0 ∨ e.valid (ijk - e.jStride) = 1)
    (v3 : e.valid (ijk - e.kStride) = 0 ∨ e.valid (ijk - e.kStride) = 1)
    (v4 : e.valid (ijk + 1) = 0 ∨ e.valid (ijk + 1) = 1)
    (v5 : e.valid (ijk + e.jStride) = 0 ∨ e.valid (ijk + e.jStride) = 1)
    (v6 : e.valid (ijk + e.kStride) = 0 ∨ e.valid (ijk + e.kStride) = 1) :
    rebuild_sumAbsAij e ijk ≤ rebuild_Aii e ijk := by
  have vnn : ∀ v : R, (v = 0 ∨ v = 1) → 0 ≤ v ∧ 0 ≤ 1 - v := by
    intro v hv
    rcases hv with h | h <;> rw [h] <;> norm_num
  have hbh : 0 ≤ e.b * e.h2inv := mul_nonneg hb hh
  have haa : 0 ≤ e.a * e.alpha ijk := mul_nonneg ha hal
  have ht : 0 ≤ e.beta_i ijk * (1 - e.valid (ijk - 1))
      + e.beta_j ijk * (1 - e.valid (ijk - e.jStride))
      + e.beta_k ijk * (1 - e.valid (ijk - e.kStride))
      + e.beta_i (ijk + 1) * (1 - e.valid (ijk + 1))
      + e.beta_j (ijk + e.jStride) * (1 - e.valid (ijk + e.jStride))
      + e.beta_k (ijk + e.kStride) * (1 - e.valid (ijk + e.kStride)) := by
    have t1 := mul_nonneg h1 (vnn _ v1).2
    have t2 := mul_nonneg h2 (vnn _ v2).2
    have t3 := mul_nonneg h3 (vnn _ v3).2
    have t4 := mul_nonneg h4 (vnn _ v4).2
    have t5 := mul_nonneg h5 (vnn _ v5).2
    have t6 := mul_nonneg h6 (vnn _ v6).2
    linarith
  have hprod := mul_nonneg hbh ht
  unfold rebuild_sumAbsAij rebuild_Aii
  rw [abs_of_nonneg hbh, abs_of_nonneg (mul_nonneg h1 (vnn _ v1).1),
    abs_of_nonneg (mul_nonneg h2 (vnn _ v2).1), abs_of_nonneg (mul_nonneg h3 (vnn _ v3).1),
    abs_of_nonneg (mul_nonneg h4 (vnn _ v4).1), abs_of_nonneg (mul_nonneg h5 (vnn _ v5).1),
    abs_of_nonneg (mul_nonneg h6 (vnn _ v6).1)]
  linarith

/-- A diagonal term that is positive and at least the Gershgorin radius gives a bound of at
most 2. -/
theorem rebuild_Di_le_two (e : StencilEnv R) (ijk : Int) (hpos : 0 < rebuild_Aii e ijk)
    (hdom : rebuild_sumAbsAij e ijk ≤ rebuild_Aii e ijk) : rebuild_Di e ijk ≤ 2 := by
  unfold rebuild_Di
  rw [div_le_iff₀ hpos]
  linarith

/-- The L1-Jacobi damping: for a positive diagonal term, `L1inv*(Aii + sumAbsAij)` lies in
`[1, 2)` (at most `5/3` in the branch `Aii >= 1.5*sumAbsAij`), and `L1inv <= Dinv` with
equality exactly in that branch. -/
theorem rebuild_L1inv_bounds (e : StencilEnv R) (ijk : Int) (hpos : 0 < rebuild_Aii e ijk) :
    1 ≤ rebuild_L1inv e ijk * (rebuild_Aii e ijk + rebuild_sumAbsAij e ijk)
    ∧ rebuild_L1inv e ijk * (rebuild_Aii e ijk + rebuild_sumAbsAij e ijk) < 2
    ∧ (rebuild_Aii e ijk ≥ 3 / 2 * rebuild_sumAbsAij e ijk →
        rebuild_L1inv e ijk * (rebuild_Aii e ijk + rebuild_sumAbsAij e ijk) ≤ 5 / 3)
    ∧ rebuild_L1inv e ijk ≤ rebuild_Dinv e ijk
    ∧ (rebuild_L1inv e ijk = rebuild_Dinv e ijk
        ↔ rebuild_Aii e ijk ≥ 3 / 2 * rebuild_sumAbsAij e ijk) := by
  have hs := rebuild_sumAbsAij_nonneg e ijk
  unfold rebuild_L1inv rebuild_Dinv
  by_cases h : rebuild_Aii e ijk ≥ 3 / 2 * rebuild_sumAbsAij e ijk
  · simp only [if_pos h]
    have hrw : 1 / rebuild_Aii e ijk * (rebuild_Aii e ijk + rebuild_sumAbsAij e ijk)
        = (rebuild_Aii e ijk + rebuild_sumAbsAij e ijk) / rebuild_Aii e ijk := by
      rw [div_mul_eq_mul_div, one_mul]
    rw [hrw]
    refine ⟨?_, ?_, ?_, le_refl _, ⟨fun _ => h, fun _ => trivial⟩⟩
    · rw [le_div_iff₀ hpos]
      linarith
    · rw [div_lt_iff₀ hpos]
      linarith
    · intro _
      rw [div_le_iff₀ hpos]
      linarith
  · simp only [if_neg h]
    have hlt : rebuild_Aii e ijk < 3 / 2 * rebuild_sumAbsAij e ijk := not_le.mp h
    have hspos : 0 < rebuild_sumAbsAij e ijk := by linarith
    have hden : 0 < rebuild_Aii e ijk + 1 / 2 * rebuild_sumAbsAij e ijk := by linarith
    have hrw : 1 / (rebuild_Aii e ijk + 1 / 2 * rebuild_sumAbsAij e ijk)
          * (rebuild_Aii e ijk + rebuild_sumAbsAij e ijk)
        = (rebuild_Aii e ijk + rebuild_sumAbsAij e ijk)
          / (rebuild_Aii e ijk + 1 / 2 * rebuild_sumAbsAij e ijk) := by
      rw [div_mul_eq_mul_div, one_mul]
    have hstrict : 1 / (rebuild_Aii e ijk + 1 / 2 * rebuild_sumAbsAij e ijk)
        < 1 / rebuild_Aii e ijk :=
      one_div_lt_one_div_of_lt hpos (by linarith)
    rw [hrw]
    refine ⟨?_, ?_, fun h' => absurd h' h, le_of_lt hstrict,
      ⟨fun heq => absurd heq (ne_of_lt hstrict), fun h' => absurd h' h⟩⟩
    · rw [le_div_iff₀ hden]
      linarith
    · rw [div_lt_iff₀ hden]
      linarith

end Dominance

/-! ## Which iterations of `residual_kernel` address a cell -/

section KernelCover

variable [LinearOrderedField R]

end KernelCover

/-! ## Claims on degenerate levels, the launch grid and the stencil footprint -/

section Claims2

variable [LinearOrderedField R]

/-- C11. On a level with zero owned blocks (`num_my_blocks = 0`) the operators are no-ops:
`cuda_residual` returns without launching a kernel and leaves the level (every field of every
box) unchanged, and the compute phase of `rebuild_operator` (lines 230-310) executes no cell
body, so it writes no element of `Dinv` or `L1inv` and leaves the level unchanged, with
`dominant_eigenvalue` still at its initial value. -/
theorem zero_blocks_no_op (USE_HELMHOLTZ : Bool) (BLOCKCOPY_TILE_K block_i block_j block_k : Int)
    (level : Level R) (res_id x_id rhs_id : VectorId) (a b : R)
    (h0 : level.num_my_blocks = 0) :
    cuda_residual USE_HELMHOLTZ BLOCKCOPY_TILE_K block_i block_j block_k level res_id x_id
        rhs_id a b = (level, [])
    ∧ rebuild_operator_compute level a b = (level, -1000000000) := by
  refine ⟨?_, ?_⟩
  · unfold cuda_residual
    simp only [h0, le_refl, if_true]
  · unfold rebuild_operator_compute forLoop
    rw [h0]
    rfl

/-- Witness for C11: `emptyLevel` owns no block. -/
theorem zero_blocks_no_op_witness :
    emptyLevel.num_my_blocks = 0
    ∧ cuda_residual true 8 32 4 4 emptyLevel (other 2) (other 0) (other 1) 1 1
        = (emptyLevel, [])
    ∧ rebuild_operator_compute emptyLevel 1 1 = (emptyLevel, -1000000000) :=
  ⟨rfl, zero_blocks_no_op true 8 32 4 4 emptyLevel (other 2) (other 0) (other 1) 1 1 rfl⟩

/-- C12, failing input. On `tailLevel` (`box_dim = 6`, one block of extent 6x6x6 at the
origin) with `BLOCKCOPY_TILE_K = 8` and `BLOCK_K = 4`, the launch grid has
`(6+4-1)/4 = 2` k-slabs.  In the slab `blockIdx.y = 1` the thread (0,0) computes
`kdim = min(6,4) = 4` and runs iteration `k = 2`, whose cell is `(0,0,6)`: outside the block's
extent `0 <= k < 6`.  The kernel changes the `res` element of that cell from 0 to -1, and the
next iteration changes an element at offset 521, beyond the 512 elements of the buffer. -/
theorem residual_kernel_tail_slab_writes_outside :
    (1 : Int) < Int.tdiv (min tailLevel.box_dim 8 + 4 - 1) 4
    ∧ KernelRuns 4 tailLevel 0 0 0 2
    ∧ kernel_cell 4 tailLevel 0 1 0 0 2 = (0, 0, 6)
    ∧ ¬ InExtent tailLevel ((0 : Nat) : Int) (kernel_cell 4 tailLevel 0 1 0 0 2)
    ∧ tailLevel.load 0 (other 2) (cell_index tailLevel 0 (0, 0, 6)) = 0
    ∧ (residual_kernel true 4 tailLevel (other 2) (other 0) (other 1) 1 1 0 1 0 0).load 0
          (other 2) (cell_index tailLevel 0 (0, 0, 6)) = -1
    ∧ cell_index tailLevel 0 (kernel_cell 4 tailLevel 0 1 0 0 3) = 521
    ∧ (8 : Int) * 8 * 8 ≤ cell_index tailLevel 0 (kernel_cell 4 tailLevel 0 1 0 0 3)
    ∧ tailLevel.load 0 (other 2) 521 = 0
    ∧ (residual_kernel true 4 tailLevel (other 2) (other 0) (other 1) 1 1 0 1 0 0).load 0
          (other 2) 521 = -1 := by
  refine ⟨by decide, by simp [KernelRuns, tailLevel, toUnsigned],
    by simp [kernel_cell, tailLevel], by simp [InExtent, kernel_cell, tailLevel], rfl, ?_,
    by simp [cell_index, kernel_cell, index, tailLevel, tailBox],
    by simp [cell_index, kernel_cell, index, tailLevel, tailBox], rfl, ?_⟩
  · norm_num [residual_kernel, residual_kernel_prologue, residual_kernel_init,
      residual_kernel_iter, forLoop, forLoopN, toUnsigned, tailLevel, tailBox, Level.load,
      Level.store, Box.store, Level.ptr, X, BI, BJ, BK, cell_index, index]
  · norm_num [residual_kernel, residual_kernel_prologue, residual_kernel_init,
      residual_kernel_iter, forLoop, forLoopN, toUnsigned, tailLevel, tailBox, Level.load,
      Level.store, Box.store, Level.ptr, X, BI, BJ, BK]

/-- C13, counterexample. Poisson mode on `exLevel` with `a = b = h = 1` and
`alpha = beta = valid = 1`: at the cell (0,0,0) `rebuild_operator` stores
`Dinv = 1/(1 + 6) = 1/7`, while `calculate_Dinv()` and the reciprocal of the diagonal of the
fused Poisson operator are `1/6`, so `Dinv_ijk()` differs between its two definitions. -/
theorem stored_Dinv_poisson_counterexample :
    InBlock exLevel 0 0 0 0
    ∧ block_load (rebuild_operator_local false exLevel 1 1 []) 0 VECTOR_DINV
        (cell_ijk (rebuild_operator_local false exLevel 1 1 []) 0 0 0 0) = 1 / 7
    ∧ calculate_Dinv CoeffMode.poisson (block_env (rebuild_operator_local false exLevel 1 1 [])
        0 1 1) (cell_ijk (rebuild_operator_local false exLevel 1 1 []) 0 0 0 0) = 1 / 6
    ∧ 1 / fused_diag CoeffMode.poisson (block_env (rebuild_operator_local false exLevel 1 1 [])
        0 1 1) (cell_ijk (rebuild_operator_local false exLevel 1 1 []) 0 0 0 0) = 1 / 6
    ∧ Dinv_ijk true true CoeffMode.poisson
          (block_env (rebuild_operator_local false exLevel 1 1 []) 0 1 1)
          (block_load (rebuild_operator_local false exLevel 1 1 []) 0 VECTOR_DINV)
          (cell_ijk (rebuild_operator_local false exLevel 1 1 []) 0 0 0 0)
        ≠ Dinv_ijk false true CoeffMode.poisson
          (block_env (rebuild_operator_local false exLevel 1 1 []) 0 1 1)
          (block_load (rebuild_operator_local false exLevel 1 1 []) 0 VECTOR_DINV)
          (cell_ijk (rebuild_operator_local false exLevel 1 1 []) 0 0 0 0) := by
  have hin : InBlock exLevel 0 0 0 0 := by simp [InBlock, exLevel]
  obtain ⟨he, hc, hd, -⟩ := rebuild_operator_local_cell false exLevel 1 1 [] 0 0 0 0 hin
  have h7 : rebuild_Dinv (block_env exLevel 0 1 1) (cell_ijk exLevel 0 0 0 0) = 1 / 7 := by
    norm_num [rebuild_Dinv, rebuild_Aii, block_env, box_env, cell_ijk, exLevel, exBox,
      Level.ptr, Level.load]
  have h6 : calculate_Dinv CoeffMode.poisson (block_env exLevel 0 1 1)
      (cell_ijk exLevel 0 0 0 0) = 1 / 6 := by
    norm_num [calculate_Dinv, calculate_Dinv_poisson, block_env, box_env, cell_ijk, exLevel,
      exBox, Level.ptr, Level.load]
  have hdiag : 1 / fused_diag CoeffMode.poisson (block_env exLevel 0 1 1)
      (cell_ijk exLevel 0 0 0 0) = 1 / 6 := by
    have hmode : ¬ (CoeffMode.poisson = CoeffMode.helmholtz) := by decide
    norm_num [fused_diag, hmode, block_env, box_env, cell_ijk, exLevel, exBox, Level.ptr,
      Level.load]
  unfold Dinv_ijk
  simp only [Bool.and_self, if_true, Bool.false_and, Bool.false_eq_true, if_false]
  rw [he, hc, hd, h7, h6, hdiag]
  refine ⟨hin, rfl, rfl, rfl, ?_⟩
  norm_num

/-- C13, amended. In the Helmholtz variable-coefficient mode for every `a`, `b`, `h`, `alpha`,
`beta` and `valid`, and in the Poisson mode when `a*alpha[ijk] = 0`, the `Dinv` value stored
by `rebuild_operator` at a cell of an owned block equals the value the `calculate_Dinv()`
macro recomputes for that cell, so `Dinv_ijk()` is the same whether retrieved or recomputed
under `STENCIL_FUSE_DINV`, and it equals the reciprocal of the coefficient multiplying
`x[ijk]` in the fused `apply_op_ijk` of the same mode. -/
theorem stored_Dinv_eq_calculate_Dinv (USE_MPI USE_HELMHOLTZ STENCIL_FUSE_DINV
    STENCIL_FUSE_BC : Bool) (level : Level R) (a b : R) (others : List R)
    (block i j k : Int) (hin : InBlock level block i j k)
    (hmode : USE_HELMHOLTZ = true
      ∨ a * (block_env level block a b).alpha (cell_ijk level block i j k) = 0) :
    block_load (rebuild_operator_local USE_MPI level a b others) block VECTOR_DINV
        (cell_ijk (rebuild_operator_local USE_MPI level a b others) block i j k)
      = calculate_Dinv (modeOf USE_HELMHOLTZ)
          (block_env (rebuild_operator_local USE_MPI level a b others) block a b)
          (cell_ijk (rebuild_operator_local USE_MPI level a b others) block i j k)
    ∧ Dinv_ijk STENCIL_FUSE_DINV STENCIL_FUSE_BC (modeOf USE_HELMHOLTZ)
          (block_env (rebuild_operator_local USE_MPI level a b others) block a b)
          (block_load (rebuild_operator_local USE_MPI level a b others) block VECTOR_DINV)
          (cell_ijk (rebuild_operator_local USE_MPI level a b others) block i j k)
        = block_load (rebuild_operator_local USE_MPI level a b others) block VECTOR_DINV
            (cell_ijk (rebuild_operator_local USE_MPI level a b others) block i j k)
    ∧ block_load (rebuild_operator_local USE_MPI level a b others) block VECTOR_DINV
          (cell_ijk (rebuild_operator_local USE_MPI level a b others) block i j k)
        = 1 / fused_diag (modeOf USE_HELMHOLTZ)
            (block_env (rebuild_operator_local USE_MPI level a b others) block a b)
            (cell_ijk (rebuild_operator_local USE_MPI level a b others) block i j k)
    ∧ ∀ x : Int → R,
        apply_op_ijk true (modeOf USE_HELMHOLTZ)
            (block_env (rebuild_operator_local USE_MPI level a b others) block a b) x
            (cell_ijk (rebuild_operator_local USE_MPI level a b others) block i j k)
          = fused_diag (modeOf USE_HELMHOLTZ)
                (block_env (rebuild_operator_local USE_MPI level a b others) block a b)
                (cell_ijk (rebuild_operator_local USE_MPI level a b others) block i j k)
              * x (cell_ijk (rebuild_operator_local USE_MPI level a b others) block i j k)
            + ((fused_offdiag
                (block_env (rebuild_operator_local USE_MPI level a b others) block a b)
                (cell_ijk (rebuild_operator_local USE_MPI level a b others) block i j k)).map
                (fun q => q.2 * x q.1)).sum := by
  obtain ⟨he, hc, hd, -⟩ := rebuild_operator_local_cell USE_MPI level a b others block i j k hin
  have hcalc := rebuild_Dinv_eq_calculate USE_HELMHOLTZ (block_env level block a b)
    (cell_ijk level block i j k) hmode
  unfold Dinv_ijk
  rw [he, hc, hd, hcalc]
  refine ⟨rfl, ?_, calculate_Dinv_eq_inv_diag USE_HELMHOLTZ _ _,
    fun x => fused_apply_op_decomposition USE_HELMHOLTZ _ x _⟩
  split <;> rfl

/-- Witness for C13: Poisson mode with `a = 0` on `exLevel`, cell (0,0,0). -/
theorem stored_Dinv_eq_calculate_Dinv_witness :
    (InBlock exLevel 0 0 0 0
      ∧ (0 : ℚ) * (block_env exLevel 0 0 1).alpha (cell_ijk exLevel 0 0 0 0) = 0)
    ∧ block_load (rebuild_operator_local false exLevel 0 1 []) 0 VECTOR_DINV
        (cell_ijk (rebuild_operator_local false exLevel 0 1 []) 0 0 0 0)
      = calculate_Dinv (modeOf false)
          (block_env (rebuild_operator_local false exLevel 0 1 []) 0 0 1)
          (cell_ijk (rebuild_operator_local false exLevel 0 1 []) 0 0 0 0) :=
  ⟨⟨by simp [InBlock, exLevel], zero_mul _⟩,
    (stored_Dinv_eq_calculate_Dinv false false true true exLevel 0 1 [] 0 0 0 0
      (by simp [InBlock, exLevel]) (Or.inr (zero_mul _))).1⟩

/-- C14. The Gershgorin radius `sumAbsAij` computed by `rebuild_operator` at a cell is the sum
of the absolute values of the six off-diagonal coefficients of the operator at that cell,
where the off-diagonal coefficient for a neighbour is the factor
`-b*h2inv*beta_face*valid[neighbour]` multiplying `x[neighbour]` in the fused
variable-coefficient `apply_op_ijk` (Helmholtz or Poisson); for every `a`, `b`, `h`, `beta` and
`valid`. -/
theorem sumAbsAij_eq_sum_abs_offdiag (USE_HELMHOLTZ : Bool) (e : StencilEnv R) (ijk : Int) :
    rebuild_sumAbsAij e ijk = ((fused_offdiag e ijk).map (fun q => |q.2|)).sum
    ∧ (∀ x : Int → R,
        apply_op_ijk true (modeOf USE_HELMHOLTZ) e x ijk
          = fused_diag (modeOf USE_HELMHOLTZ) e ijk * x ijk
            + ((fused_offdiag e ijk).map (fun q => q.2 * x q.1)).sum)
    ∧ (fused_offdiag e ijk).map (fun q => q.1) = neighbours e ijk :=
  ⟨rebuild_sumAbsAij_eq_sum_abs e ijk,
    fun x => fused_apply_op_decomposition USE_HELMHOLTZ e x ijk, rfl⟩

/-- C18. Diagonal dominance under the code's sign convention: for every cell with `a >= 0`,
`b >= 0`, `h != 0`, `alpha >= 0`, all six face coefficients `beta >= 0` and all six neighbour
`valid` values in `{0,1}`, the `Aii` and `sumAbsAij` of `rebuild_operator` satisfy
`Aii >= sumAbsAij >= 0`; and whenever additionally `Aii > 0`, the per-cell Gershgorin bound
satisfies `1 <= (Aii + sumAbsAij)/Aii <= 2`. -/
theorem diagonal_dominance (level : Level R) (a b : R) (block i j k : Int)
    (ha : 0 ≤ a) (hb : 0 ≤ b) (_hh : level.h ≠ 0)
    (hal : 0 ≤ (block_env level block a b).alpha (cell_ijk level block i j k))
    (h1 : 0 ≤ (block_env level block a b).beta_i (cell_ijk level block i j k))
    (h2 : 0 ≤ (block_env level block a b).beta_j (cell_ijk level block i j k))
    (h3 : 0 ≤ (block_env level block a b).beta_k (cell_ijk level block i j k))
    (h4 : 0 ≤ (block_env level block a b).beta_i (cell_ijk level block i j k + 1))
    (h5 : 0 ≤ (block_env level block a b).beta_j
      (cell_ijk level block i j k + (block_env level block a b).jStride))
    (h6 : 0 ≤ (block_env level block a b).beta_k
      (cell_ijk level block i j k + (block_env level block a b).kStride))
    (hv : ∀ p ∈ neighbours (block_env level block a b) (cell_ijk level block i j k),
      (block_env level block a b).valid p = 0 ∨ (block_env level block a b).valid p = 1) :
    rebuild_sumAbsAij (block_env level block a b) (cell_ijk level block i j k)
      ≤ rebuild_Aii (block_env level block a b) (cell_ijk level block i j k)
    ∧ 0 ≤ rebuild_sumAbsAij (block_env level block a b) (cell_ijk level block i j k)
    ∧ (0 < rebuild_Aii (block_env level block a b) (cell_ijk level block i j k) →
        1 ≤ cell_Di level a b block i j k ∧ cell_Di level a b block i j k ≤ 2) := by
  have hh : 0 ≤ (block_env level block a b).h2inv := by
    show 0 ≤ 1 / (level.h * level.h)
    exact div_nonneg zero_le_one (mul_self_nonneg _)
  have hdom := rebuild_Aii_ge_sumAbsAij (block_env level block a b)
    (cell_ijk level block i j k) ha hb hh hal h1 h2 h3 h4 h5 h6
    (hv _ (by simp [neighbours])) (hv _ (by simp [neighbours])) (hv _ (by simp [neighbours]))
    (hv _ (by simp [neighbours])) (hv _ (by simp [neighbours])) (hv _ (by simp [neighbours]))
  exact ⟨hdom, rebuild_sumAbsAij_nonneg _ _,
    fun hpos => ⟨rebuild_Di_ge_one_of_pos _ _ hpos, rebuild_Di_le_two _ _ hpos hdom⟩⟩

/-- Witness for C18: the cell (0,0,0) of `lapLevel` with `a = b = 1`, where `Aii = 7`,
`sumAbsAij = 6` and the bound is `13/7`. -/
theorem diagonal_dominance_witness :
    ((0 : ℚ) ≤ 1 ∧ lapLevel.h ≠ 0
      ∧ 0 < rebuild_Aii (block_env lapLevel 0 1 1) (cell_ijk lapLevel 0 0 0 0))
    ∧ 1 ≤ cell_Di lapLevel 1 1 0 0 0 0 ∧ cell_Di lapLevel 1 1 0 0 0 0 ≤ 2 :=
  ⟨⟨by norm_num, by norm_num [lapLevel],
      by norm_num [rebuild_Aii, block_env, box_env, cell_ijk, lapLevel, lapBox, Level.ptr,
        Level.load]⟩,
    (diagonal_dominance lapLevel 1 1 0 0 0 0 (by norm_num) (by norm_num)
      (by norm_num [lapLevel])
      (by norm_num [block_env, box_env, lapLevel, lapBox, Level.ptr, Level.load])
      (by norm_num [block_env, box_env, lapLevel, lapBox, Level.ptr, Level.load])
      (by norm_num [block_env, box_env, lapLevel, lapBox, Level.ptr, Level.load])
      (by norm_num [block_env, box_env, lapLevel, lapBox, Level.ptr, Level.load])
      (by norm_num [block_env, box_env, lapLevel, lapBox, Level.ptr, Level.load])
      (by norm_num [block_env, box_env, lapLevel, lapBox, Level.ptr, Level.load])
      (by norm_num [block_env, box_env, lapLevel, lapBox, Level.ptr, Level.load])
      (fun _ _ => Or.inr rfl)).2.2
      (by norm_num [rebuild_Aii, block_env, box_env, cell_ijk, lapLevel, lapBox, Level.ptr,
        Level.load])⟩

/-- C19. The L1-Jacobi damping keeps the L1-preconditioned Gershgorin bound below 2: for
every cell of an owned block with `Aii > 0` (and `sumAbsAij >= 0`, which always holds), the
stored `L1inv` satisfies `1 <= L1inv[ijk]*(Aii + sumAbsAij) < 2` (at most `5/3` in the branch
`Aii >= 1.5*sumAbsAij`), and `L1inv[ijk] <= Dinv[ijk]` with equality exactly when
`Aii >= 1.5*sumAbsAij`. -/
theorem L1inv_damping_bounds (USE_MPI : Bool) (level : Level R) (a b : R) (others : List R)
    (block i j k : Int) (hin : InBlock level block i j k)
    (hpos : 0 < rebuild_Aii (block_env level block a b) (cell_ijk level block i j k)) :
    0 ≤ rebuild_sumAbsAij (block_env level block a b) (cell_ijk level block i j k)
    ∧ 1 ≤ block_load (rebuild_operator_local USE_MPI level a b others) block VECTOR_L1INV
            (cell_ijk level block i j k)
          * (rebuild_Aii (block_env level block a b) (cell_ijk level block i j k)
            + rebuild_sumAbsAij (block_env level block a b) (cell_ijk level block i j k))
    ∧ block_load (rebuild_operator_local USE_MPI level a b others) block VECTOR_L1INV
            (cell_ijk level block i j k)
          * (rebuild_Aii (block_env level block a b) (cell_ijk level block i j k)
            + rebuild_sumAbsAij (block_env level block a b) (cell_ijk level block i j k)) < 2
    ∧ (rebuild_Aii (block_env level block a b) (cell_ijk level block i j k)
          ≥ 3 / 2 * rebuild_sumAbsAij (block_env level block a b) (cell_ijk level block i j k) →
        block_load (rebuild_operator_local USE_MPI level a b others) block VECTOR_L1INV
            (cell_ijk level block i j k)
          * (rebuild_Aii (block_env level block a b) (cell_ijk level block i j k)
            + rebuild_sumAbsAij (block_env level block a b) (cell_ijk level block i j k))
          ≤ 5 / 3)
    ∧ block_load (rebuild_operator_local USE_MPI level a b others) block VECTOR_L1INV
          (cell_ijk level block i j k)
        ≤ block_load (rebuild_operator_local USE_MPI level a b others) block VECTOR_DINV
            (cell_ijk level block i j k)
    ∧ (block_load (rebuild_operator_local USE_MPI level a b others) block VECTOR_L1INV
          (cell_ijk level block i j k)
        = block_load (rebuild_operator_local USE_MPI level a b others) block VECTOR_DINV
            (cell_ijk level block i j k)
      ↔ rebuild_Aii (block_env level block a b) (cell_ijk level block i j k)
          ≥ 3 / 2 * rebuild_sumAbsAij (block_env level block a b)
              (cell_ijk level block i j k)) := by
  obtain ⟨-, -, hd, hl⟩ := rebuild_operator_local_cell USE_MPI level a b others block i j k hin
  rw [hd, hl]
  exact ⟨rebuild_sumAbsAij_nonneg _ _, rebuild_L1inv_bounds _ _ hpos⟩

/-- Witness for C19: the cell (0,0,0) of `exLevel` with `a = b = 1`, where `Aii = 7`,
`sumAbsAij = 6`, `L1inv = 1/10` and `L1inv*(Aii + sumAbsAij) = 13/10`. -/
theorem L1inv_damping_bounds_witness :
    (InBlock exLevel 0 0 0 0
      ∧ 0 < rebuild_Aii (block_env exLevel 0 1 1) (cell_ijk exLevel 0 0 0 0))
    ∧ block_load (rebuild_operator_local false exLevel 1 1 []) 0 VECTOR_L1INV
          (cell_ijk exLevel 0 0 0 0)
        * (rebuild_Aii (block_env exLevel 0 1 1) (cell_ijk exLevel 0 0 0 0)
          + rebuild_sumAbsAij (block_env exLevel 0 1 1) (cell_ijk exLevel 0 0 0 0)) < 2 :=
  ⟨⟨by simp [InBlock, exLevel],
      by norm_num [rebuild_Aii, block_env, box_env, cell_ijk, exLevel, exBox, Level.ptr,
        Level.load]⟩,
    (L1inv_damping_bounds false exLevel 1 1 [] 0 0 0 0 (by simp [InBlock, exLevel])
      (by norm_num [rebuild_Aii, block_env, box_env, cell_ijk, exLevel, exBox, Level.ptr,
        Level.load])).2.2.1⟩

/-- C15. The 7-point operator has a radius-1 star footprint, as `stencil_get_radius() = 1`
and `stencil_get_shape() = STENCIL_SHAPE_STAR` declare: for any two fields `x` and `y` that
agree at `ijk`, `ijk+-1`, `ijk+-jStride` and `ijk+-kStride`, every form of `apply_op_ijk`
gives the same value on `x` and on `y`; and for any two fields `x_id`, `y_id` of a level that
agree at the cell of an iteration of `residual_kernel` and at its six face neighbours, the
residual the kernel writes at that cell is the same with either field as input (`res_id`
being a field other than the inputs).  No edge, corner or distance-2 cell influences the
result. -/
theorem stencil_footprint_radius_one_star (fuse_bc : Bool) (mode : CoeffMode)
    (e : StencilEnv R) (x y : Int → R) (ijk : Int) (hc : x ijk = y ijk)
    (hn : ∀ p ∈ neighbours e ijk, x p = y p) :
    stencil_get_radius = 1
    ∧ stencil_get_shape = StencilShape.STENCIL_SHAPE_STAR
    ∧ apply_op_ijk fuse_bc mode e x ijk = apply_op_ijk fuse_bc mode e y ijk
    ∧ ∀ (USE_HELMHOLTZ : Bool) (BLOCK_K : Int) (level : Level R)
        (res_id x_id y_id rhs_id : VectorId) (a b : R)
        (blockIdx_x blockIdx_y threadIdx_x threadIdx_y k : Nat),
        res_id ≠ x_id → res_id ≠ y_id → res_id ≠ rhs_id → res_id ≠ VECTOR_ALPHA →
        res_id ≠ VECTOR_BETA_I → res_id ≠ VECTOR_BETA_J → res_id ≠ VECTOR_BETA_K →
        block_load level blockIdx_x x_id
            (kernel_cell_ijk BLOCK_K level blockIdx_x blockIdx_y threadIdx_x threadIdx_y k)
          = block_load level blockIdx_x y_id
              (kernel_cell_ijk BLOCK_K level blockIdx_x blockIdx_y threadIdx_x threadIdx_y k) →
        (∀ p ∈ neighbours (block_env level blockIdx_x a b)
            (kernel_cell_ijk BLOCK_K level blockIdx_x blockIdx_y threadIdx_x threadIdx_y k),
          block_load level blockIdx_x x_id p = block_load level blockIdx_x y_id p) →
        kernel_stored_value USE_HELMHOLTZ BLOCK_K level res_id x_id rhs_id a b
            blockIdx_x blockIdx_y threadIdx_x threadIdx_y k
          = kernel_stored_value USE_HELMHOLTZ BLOCK_K level res_id y_id rhs_id a b
              blockIdx_x blockIdx_y threadIdx_x threadIdx_y k := by
  refine ⟨rfl, rfl, apply_op_ijk_footprint fuse_bc mode e x y ijk hc hn, ?_⟩
  intro H BLOCK_K level res_id x_id y_id rhs_id a b bx by_ tx ty k hx hy hr ha hbi hbj hbk
    hc' hn'
  rw [kernel_stored_value_eq H BLOCK_K level res_id x_id rhs_id a b bx by_ tx ty k hx ha hbi
      hbj hbk,
    kernel_stored_value_eq H BLOCK_K level res_id y_id rhs_id a b bx by_ tx ty k hy ha hbi
      hbj hbk,
    kernel_rhs_value_eq H BLOCK_K level res_id x_id rhs_id a b bx by_ tx ty k hx hr hbk,
    kernel_rhs_value_eq H BLOCK_K level res_id y_id rhs_id a b bx by_ tx ty k hy hr hbk,
    apply_op_ijk_footprint false (modeOf H) (block_env level bx a b) (block_load level bx x_id)
      (block_load level bx y_id) _ hc' hn']

/-- Witness for C15: `exField` and `exField3` agree at the cell 21 of `exEnv` and at its six
face neighbours and differ at the edge neighbour 26. -/
theorem stencil_footprint_radius_one_star_witness :
    (exField 21 = exField3 21 ∧ (∀ p ∈ neighbours exEnv 21, exField p = exField3 p)
      ∧ exField 26 ≠ exField3 26)
    ∧ apply_op_ijk true CoeffMode.helmholtz exEnv exField 21
        = apply_op_ijk true CoeffMode.helmholtz exEnv exField3 21 :=
  ⟨⟨rfl,
      fun p hp => by
        have h26 : p ≠ 26 := by
          intro h
          rw [h] at hp
          simp [neighbours, exEnv] at hp
        simp [exField, exField3, h26],
      by norm_num [exField, exField3]⟩,
    (stencil_footprint_radius_one_star true CoeffMode.helmholtz exEnv exField exField3 21 rfl
      (fun p hp => by
        have h26 : p ≠ 26 := by
          intro h
          rw [h] at hp
          simp [neighbours, exEnv] at hp
        simp [exField, exField3, h26])).2.2.1⟩

/-- C16. In every execution of `rebuild_operator` the observed steps occur in this order:
(when `fromLevel` is non-null) restriction of `alpha` (`RESTRICT_CELL`), `beta_i`
(`RESTRICT_FACE_I`), `beta_j` (`RESTRICT_FACE_J`), `beta_k` (`RESTRICT_FACE_K`); then
`exchange_boundary` of `alpha`, `beta_i`, `beta_j`, `beta_k`; then a device synchronize; then
the compute phase, the only place where `Dinv`, `L1inv` and the eigenvalue estimate are
computed (followed by the reduction over the ranks under `USE_MPI` and the store of the
estimate); then `exchange_boundary` of `Dinv` and `L1inv`; then a final device synchronize.
The compute phase runs on the memory left by the coefficient exchanges and the
synchronization, and the `Dinv`/`L1inv` exchanges run on the memory it leaves. -/
theorem rebuild_operator_call_order (USE_MPI : Bool) (co : Collaborators R) (level : Level R)
    (fromLevel : Option (Level R)) (a b : R) (others : List R) :
    (rebuild_operator USE_MPI co level fromLevel a b others).steps
      = (match fromLevel with
          | some _ =>
            [Step.restriction VECTOR_ALPHA VECTOR_ALPHA RestrictType.RESTRICT_CELL,
             Step.restriction VECTOR_BETA_I VECTOR_BETA_I RestrictType.RESTRICT_FACE_I,
             Step.restriction VECTOR_BETA_J VECTOR_BETA_J RestrictType.RESTRICT_FACE_J,
             Step.restriction VECTOR_BETA_K VECTOR_BETA_K RestrictType.RESTRICT_FACE_K]
          | none => [])
        ++ [Step.exchange_boundary VECTOR_ALPHA StencilShape.STENCIL_SHAPE_BOX,
            Step.exchange_boundary VECTOR_BETA_I StencilShape.STENCIL_SHAPE_BOX,
            Step.exchange_boundary VECTOR_BETA_J StencilShape.STENCIL_SHAPE_BOX,
            Step.exchange_boundary VECTOR_BETA_K StencilShape.STENCIL_SHAPE_BOX,
            Step.cudaDeviceSynchronize,
            Step.compute]
        ++ (if USE_MPI then [Step.MPI_Allreduce] else [])
        ++ [Step.store_dominant_eigenvalue,
            Step.exchange_boundary VECTOR_DINV StencilShape.STENCIL_SHAPE_BOX,
            Step.exchange_boundary VECTOR_L1INV StencilShape.STENCIL_SHAPE_BOX,
            Step.cudaDeviceSynchronize]
    ∧ (rebuild_operator USE_MPI co level fromLevel a b others).level
      = co.cudaDeviceSynchronize
          (co.exchange_boundary
            (co.exchange_boundary
              (rebuild_operator_local USE_MPI
                (co.cudaDeviceSynchronize
                  (co.exchange_boundary
                    (co.exchange_boundary
                      (co.exchange_boundary
                        (co.exchange_boundary
                          (match fromLevel with
                            | some fromLevel =>
                              co.restriction
                                (co.restriction
                                  (co.restriction
                                    (co.restriction level VECTOR_ALPHA fromLevel VECTOR_ALPHA
                                      RestrictType.RESTRICT_CELL)
                                    VECTOR_BETA_I fromLevel VECTOR_BETA_I
                                    RestrictType.RESTRICT_FACE_I)
                                  VECTOR_BETA_J fromLevel VECTOR_BETA_J
                                  RestrictType.RESTRICT_FACE_J)
                                VECTOR_BETA_K fromLevel VECTOR_BETA_K
                                RestrictType.RESTRICT_FACE_K
                            | none => level)
                          VECTOR_ALPHA StencilShape.STENCIL_SHAPE_BOX)
                        VECTOR_BETA_I StencilShape.STENCIL_SHAPE_BOX)
                      VECTOR_BETA_J StencilShape.STENCIL_SHAPE_BOX)
                    VECTOR_BETA_K StencilShape.STENCIL_SHAPE_BOX))
                a b others)
              VECTOR_DINV StencilShape.STENCIL_SHAPE_BOX)
            VECTOR_L1INV StencilShape.STENCIL_SHAPE_BOX) := by
  cases fromLevel <;> cases USE_MPI <;>
    simp [rebuild_operator, Run.step, rebuild_operator_local]

end Claims2

/-! ## Symmetry of the un-fused operator -/

section Symmetry

variable [LinearOrderedField R]

/-- The unit field of `q` is 1 at `q`. -/
theorem unit_field_self (q : Int) : (unit_field q q : R) = 1 := if_pos rfl

/-- The unit field of `q` is 0 away from `q`. -/
theorem unit_field_of_ne {q r : Int} (h : r ≠ q) : (unit_field q r : R) = 0 := if_neg h

/-- The un-fused variable-coefficient operator is linear in the element `x[q]`, with slope
`unfused_coeff`: adding `t` to `x[q]` adds `unfused_coeff p q * t` to the operator at `p`. -/
theorem apply_op_ijk_add_unit (USE_HELMHOLTZ : Bool) (e : StencilEnv R) (x : Int → R)
    (p q : Int) (t : R) :
    apply_op_ijk false (modeOf USE_HELMHOLTZ) e (fun r => x r + t * unit_field q r) p
      = apply_op_ijk false (modeOf USE_HELMHOLTZ) e x p
        + unfused_coeff (modeOf USE_HELMHOLTZ) e p q * t := by
  cases USE_HELMHOLTZ <;>
    simp only [apply_op_ijk, modeOf, apply_op_ijk_helmholtz, apply_op_ijk_poisson,
      unfused_coeff, if_true, if_false, Bool.false_eq_true] <;>
    ring

/-- The two flux terms of one direction (stride `s`, face coefficient `β`) expanded at `p` on
the unit field of `q` equal the same two terms expanded at `q` on the unit field of `p`. -/
theorem unit_field_face_symm (β : Int → R) (p q s : Int) (h : p ≠ q) :
    β (p + s) * (unit_field q (p + s) - unit_field q p)
        + β p * (unit_field q (p - s) - unit_field q p)
      = β (q + s) * (unit_field p (q + s) - unit_field p q)
        + β q * (unit_field p (q - s) - unit_field p q) := by
  rw [unit_field_of_ne h, unit_field_of_ne (Ne.symm h)]
  by_cases h1 : p + s = q
  · have h2 : p - s ≠ q := by omega
    have h3 : q - s = p := by omega
    have h4 : q + s ≠ p := by omega
    rw [unit_field_of_ne h2, unit_field_of_ne h4, h3, h1, unit_field_self, unit_field_self]
    ring
  · by_cases h2 : p - s = q
    · have h3 : q + s = p := by omega
      have h4 : q - s ≠ p := by omega
      rw [unit_field_of_ne h1, unit_field_of_ne h4, h3, h2, unit_field_self, unit_field_self]
      ring
    · have h3 : q + s ≠ p := by omega
      have h4 : q - s ≠ p := by omega
      rw [unit_field_of_ne h1, unit_field_of_ne h2, unit_field_of_ne h3, unit_field_of_ne h4]
      ring

/-- The coefficient of `x[q]` at `p` is the coefficient of `x[p]` at `q`, for every pair of
elements and every pair of strides. -/
theorem unfused_coeff_symm (USE_HELMHOLTZ : Bool) (e : StencilEnv R) (p q : Int) :
    unfused_coeff (modeOf USE_HELMHOLTZ) e p q = unfused_coeff (modeOf USE_HELMHOLTZ) e q p := by
  by_cases h : p = q
  · rw [h]
  · have e1 := unit_field_face_symm e.beta_i p q 1 h
    have e2 := unit_field_face_symm e.beta_j p q e.jStride h
    have e3 := unit_field_face_symm e.beta_k p q e.kStride h
    have z1 : (unit_field q p : R) = 0 := unit_field_of_ne h
    have z2 : (unit_field p q : R) = 0 := unit_field_of_ne (Ne.symm h)
    cases USE_HELMHOLTZ
    · simp only [unfused_coeff, apply_op_ijk, modeOf, apply_op_ijk_poisson, if_false,
        Bool.false_eq_true]
      linear_combination (-(e.b * e.h2inv)) * (e1 + e2 + e3)
    · simp only [unfused_coeff, apply_op_ijk, modeOf, apply_op_ijk_helmholtz, if_true]
      linear_combination (-(e.b * e.h2inv)) * (e1 + e2 + e3) + e.a * e.alpha p * z1
        - e.a * e.alpha q * z2

/-- The macro expanded at `p` on the unit field of `q`, term by term. -/
theorem unfused_coeff_expand (USE_HELMHOLTZ : Bool) (e : StencilEnv R) (p q : Int) :
    unfused_coeff (modeOf USE_HELMHOLTZ) e p q
      = (if USE_HELMHOLTZ then e.a * e.alpha p else 0) * unit_field q p
        - e.b * e.h2inv * (
            e.beta_i (p + 1) * (unit_field q (p + 1) - unit_field q p)
          + e.beta_i p * (unit_field q (p - 1) - unit_field q p)
          + e.beta_j (p + e.jStride) * (unit_field q (p + e.jStride) - unit_field q p)
          + e.beta_j p * (unit_field q (p - e.jStride) - unit_field q p)
          + e.beta_k (p + e.kStride) * (unit_field q (p + e.kStride) - unit_field q p)
          + e.beta_k p * (unit_field q (p - e.kStride) - unit_field q p)) := by
  cases USE_HELMHOLTZ
  · simp only [apply_op_ijk, modeOf, apply_op_ijk_poisson, unfused_coeff, if_false,
      Bool.false_eq_true]
    ring
  · simp only [apply_op_ijk, modeOf, apply_op_ijk_helmholtz, unfused_coeff, if_true]

/-- When the strides satisfy `1 < jStride < kStride`, the seven coefficients of the un-fused
variable-coefficient operator at `p`: `-b*h2inv` times the coefficient stored for the face
towards each of the six face neighbours, and the diagonal coefficient. -/
theorem unfused_coeff_face (USE_HELMHOLTZ : Bool) (e : StencilEnv R) (p : Int)
    (hj : 1 < e.jStride) (hk : e.jStride < e.kStride) :
    unfused_coeff (modeOf USE_HELMHOLTZ) e p (p + 1) = -(e.b * e.h2inv) * e.beta_i (p + 1)
    ∧ unfused_coeff (modeOf USE_HELMHOLTZ) e p (p + e.jStride)
        = -(e.b * e.h2inv) * e.beta_j (p + e.jStride)
    ∧ unfused_coeff (modeOf USE_HELMHOLTZ) e p (p + e.kStride)
        = -(e.b * e.h2inv) * e.beta_k (p + e.kStride)
    ∧ unfused_coeff (modeOf USE_HELMHOLTZ) e p (p - 1) = -(e.b * e.h2inv) * e.beta_i p
    ∧ unfused_coeff (modeOf USE_HELMHOLTZ) e p (p - e.jStride)
        = -(e.b * e.h2inv) * e.beta_j p
    ∧ unfused_coeff (modeOf USE_HELMHOLTZ) e p (p - e.kStride)
        = -(e.b * e.h2inv) * e.beta_k p
    ∧ unfused_coeff (modeOf USE_HELMHOLTZ) e p p
        = (if USE_HELMHOLTZ then e.a * e.alpha p else 0)
          + e.b * e.h2inv * (e.beta_i (p + 1) + e.beta_i p + e.beta_j (p + e.jStride)
              + e.beta_j p + e.beta_k (p + e.kStride) + e.beta_k p) := by
  refine ⟨?_, ?_, ?_, ?_, ?_, ?_, ?_⟩
  · rw [unfused_coeff_expand, unit_field_self,
      unit_field_of_ne (show p ≠ p + 1 by omega),
      unit_field_of_ne (show p - 1 ≠ p + 1 by omega),
      unit_field_of_ne (show p + e.jStride ≠ p + 1 by omega),
      unit_field_of_ne (show p - e.jStride ≠ p + 1 by omega),
      unit_field_of_ne (show p + e.kStride ≠ p + 1 by omega),
      unit_field_of_ne (show p - e.kStride ≠ p + 1 by omega)]
    ring
  · rw [unfused_coeff_expand, unit_field_self,
      unit_field_of_ne (show p ≠ p + e.jStride by omega),
      unit_field_of_ne (show p + 1 ≠ p + e.jStride by omega),
      unit_field_of_ne (show p - 1 ≠ p + e.jStride by omega),
      unit_field_of_ne (show p - e.jStride ≠ p + e.jStride by omega),
      unit_field_of_ne (show p + e.kStride ≠ p + e.jStride by omega),
      unit_field_of_ne (show p - e.kStride ≠ p + e.jStride by omega)]
    ring
  · rw [unfused_coeff_expand, unit_field_self,
      unit_field_of_ne (show p ≠ p + e.kStride by omega),
      unit_field_of_ne (show p + 1 ≠ p + e.kStride by omega),
      unit_field_of_ne (show p - 1 ≠ p + e.kStride by omega),
      unit_field_of_ne (show p + e.jStride ≠ p + e.kStride by omega),
      unit_field_of_ne (show p - e.jStride ≠ p + e.kStride by omega),
      unit_field_of_ne (show p - e.kStride ≠ p + e.kStride by omega)]
    ring
  · rw [unfused_coeff_expand, unit_field_self,
      unit_field_of_ne (show p ≠ p - 1 by omega),
      unit_field_of_ne (show p + 1 ≠ p - 1 by omega),
      unit_field_of_ne (show p + e.jStride ≠ p - 1 by omega),
      unit_field_of_ne (show p - e.jStride ≠ p - 1 by omega),
      unit_field_of_ne (show p + e.kStride ≠ p - 1 by omega),
      unit_field_of_ne (show p - e.kStride ≠ p - 1 by omega)]
    ring
  · rw [unfused_coeff_expand, unit_field_self,
      unit_field_of_ne (show p ≠ p - e.jStride by omega),
      unit_field_of_ne (show p + 1 ≠ p - e.jStride by omega),
      unit_field_of_ne (show p - 1 ≠ p - e.jStride by omega),
      unit_field_of_ne (show p + e.jStride ≠ p - e.jStride by omega),
      unit_field_of_ne (show p + e.kStride ≠ p - e.jStride by omega),
      unit_field_of_ne (show p - e.kStride ≠ p - e.jStride by omega)]
    ring
  · rw [unfused_coeff_expand, unit_field_self,
      unit_field_of_ne (show p ≠ p - e.kStride by omega),
      unit_field_of_ne (show p + 1 ≠ p - e.kStride by omega),
      unit_field_of_ne (show p - 1 ≠ p - e.kStride by omega),
      unit_field_of_ne (show p + e.jStride ≠ p - e.kStride by omega),
      unit_field_of_ne (show p - e.jStride ≠ p - e.kStride by omega),
      unit_field_of_ne (show p + e.kStride ≠ p - e.kStride by omega)]
    ring
  · rw [unfused_coeff_expand, unit_field_self,
      unit_field_of_ne (show p + 1 ≠ p by omega),
      unit_field_of_ne (show p - 1 ≠ p by omega),
      unit_field_of_ne (show p + e.jStride ≠ p by omega),
      unit_field_of_ne (show p - e.jStride ≠ p by omega),
      unit_field_of_ne (show p + e.kStride ≠ p by omega),
      unit_field_of_ne (show p - e.kStride ≠ p by omega)]
    ring

/-- When the strides satisfy `1 < jStride < kStride`, the un-fused variable-coefficient
operator at `p` is the sum, over `p` and its six face neighbours `q`, of `unfused_coeff p q`
times `x[q]`. -/
theorem unfused_apply_op_decomposition (USE_HELMHOLTZ : Bool) (e : StencilEnv R)
    (x : Int → R) (p : Int) (hj : 1 < e.jStride) (hk : e.jStride < e.kStride) :
    apply_op_ijk false (modeOf USE_HELMHOLTZ) e x p
      = unfused_coeff (modeOf USE_HELMHOLTZ) e p p * x p
        + ((neighbours e p).map
            (fun q => unfused_coeff (modeOf USE_HELMHOLTZ) e p q * x q)).sum := by
  obtain ⟨c1, c2, c3, c4, c5, c6, c0⟩ := unfused_coeff_face USE_HELMHOLTZ e p hj hk
  simp only [neighbours, List.map_cons, List.map_nil, List.sum_cons, List.sum_nil, c0, c1, c2,
    c3, c4, c5, c6]
  cases USE_HELMHOLTZ <;>
    simp only [apply_op_ijk, modeOf, apply_op_ijk_helmholtz, apply_op_ijk_poisson,
      if_true, if_false, Bool.false_eq_true] <;>
    ring

end Symmetry

/-! ## Claim on the symmetry of the un-fused operator -/

section Claims3

variable [LinearOrderedField R]

/-- C21. The un-fused variable-coefficient operator is symmetric. With
`unfused_coeff p q` the coefficient multiplying `x[q]` in `apply_op_ijk` at `p` (adding `t` to
`x[q]` adds `unfused_coeff p q * t` to the operator at `p`), and strides with
`1 < jStride < kStride`: for `q = p+1`, `q = p+jStride` and `q = p+kStride`, the coefficient
of `x[q]` at `p` and the coefficient of `x[p]` at `q` are both `-b*h2inv` times the
coefficient stored for the shared face, `beta_i[q]`, `beta_j[q]` or `beta_k[q]`; the
coefficient of `x[q]` at `p` equals the coefficient of `x[p]` at `q` for every `q`; and the
residual `residual_kernel` stores at a cell is the `rhs` element minus the sum, over the cell
and its six face neighbours `q`, of these coefficients times `x[q]`. -/
theorem unfused_operator_symmetric (USE_HELMHOLTZ : Bool) (e : StencilEnv R) (p : Int)
    (hj : 1 < e.jStride) (hk : e.jStride < e.kStride) :
    (∀ (x : Int → R) (q : Int) (t : R),
        apply_op_ijk false (modeOf USE_HELMHOLTZ) e (fun r => x r + t * unit_field q r) p
          = apply_op_ijk false (modeOf USE_HELMHOLTZ) e x p
            + unfused_coeff (modeOf USE_HELMHOLTZ) e p q * t)
    ∧ (unfused_coeff (modeOf USE_HELMHOLTZ) e p (p + 1)
          = -(e.b * e.h2inv) * e.beta_i (p + 1)
        ∧ unfused_coeff (modeOf USE_HELMHOLTZ) e (p + 1) p
          = -(e.b * e.h2inv) * e.beta_i (p + 1))
    ∧ (unfused_coeff (modeOf USE_HELMHOLTZ) e p (p + e.jStride)
          = -(e.b * e.h2inv) * e.beta_j (p + e.jStride)
        ∧ unfused_coeff (modeOf USE_HELMHOLTZ) e (p + e.jStride) p
          = -(e.b * e.h2inv) * e.beta_j (p + e.jStride))
    ∧ (unfused_coeff (modeOf USE_HELMHOLTZ) e p (p + e.kStride)
          = -(e.b * e.h2inv) * e.beta_k (p + e.kStride)
        ∧ unfused_coeff (modeOf USE_HELMHOLTZ) e (p + e.kStride) p
          = -(e.b * e.h2inv) * e.beta_k (p + e.kStride))
    ∧ (∀ q : Int, unfused_coeff (modeOf USE_HELMHOLTZ) e p q
          = unfused_coeff (modeOf USE_HELMHOLTZ) e q p)
    ∧ ∀ (BLOCK_K : Int) (level : Level R) (res_id x_id rhs_id : VectorId) (a b : R)
        (blockIdx_x blockIdx_y threadIdx_x threadIdx_y k : Nat),
        res_id ≠ x_id → res_id ≠ VECTOR_ALPHA →
        res_id ≠ VECTOR_BETA_I → res_id ≠ VECTOR_BETA_J → res_id ≠ VECTOR_BETA_K →
        1 < (level.my_boxes (level.my_blocks blockIdx_x).read.box).jStride →
        (level.my_boxes (level.my_blocks blockIdx_x).read.box).jStride
          < (level.my_boxes (level.my_blocks blockIdx_x).read.box).kStride →
        kernel_stored_value USE_HELMHOLTZ BLOCK_K level res_id x_id rhs_id a b
            blockIdx_x blockIdx_y threadIdx_x threadIdx_y k
          = kernel_rhs_value USE_HELMHOLTZ BLOCK_K level res_id x_id rhs_id a b
              blockIdx_x blockIdx_y threadIdx_x threadIdx_y k
            - (unfused_coeff (modeOf USE_HELMHOLTZ) (block_env level blockIdx_x a b)
                  (kernel_cell_ijk BLOCK_K level blockIdx_x blockIdx_y threadIdx_x
                    threadIdx_y k)
                  (kernel_cell_ijk BLOCK_K level blockIdx_x blockIdx_y threadIdx_x
                    threadIdx_y k)
                * block_load level blockIdx_x x_id
                    (kernel_cell_ijk BLOCK_K level blockIdx_x blockIdx_y threadIdx_x
                      threadIdx_y k)
              + ((neighbours (block_env level blockIdx_x a b)
                    (kernel_cell_ijk BLOCK_K level blockIdx_x blockIdx_y threadIdx_x
                      threadIdx_y k)).map
                  (fun q =>
                    unfused_coeff (modeOf USE_HELMHOLTZ) (block_env level blockIdx_x a b)
                        (kernel_cell_ijk BLOCK_K level blockIdx_x blockIdx_y threadIdx_x
                          threadIdx_y k) q
                      * block_load level blockIdx_x x_id q)).sum) := by
  obtain ⟨c1, c2, c3, -⟩ := unfused_coeff_face USE_HELMHOLTZ e p hj hk
  refine ⟨fun x q t => apply_op_ijk_add_unit USE_HELMHOLTZ e x p q t,
    ⟨c1, (unfused_coeff_symm USE_HELMHOLTZ e (p + 1) p).trans c1⟩,
    ⟨c2, (unfused_coeff_symm USE_HELMHOLTZ e (p + e.jStride) p).trans c2⟩,
    ⟨c3, (unfused_coeff_symm USE_HELMHOLTZ e (p + e.kStride) p).trans c3⟩,
    fun q => unfused_coeff_symm USE_HELMHOLTZ e p q, ?_⟩
  intro BLOCK_K level res_id x_id rhs_id a b bx by_ tx ty k hx ha hbi hbj hbk hj' hk'
  rw [kernel_stored_value_eq USE_HELMHOLTZ BLOCK_K level res_id x_id rhs_id a b bx by_ tx ty k
      hx ha hbi hbj hbk,
    unfused_apply_op_decomposition USE_HELMHOLTZ (block_env level bx a b)
      (block_load level bx x_id) _ hj' hk']

/-- Witness for C21: the cell 21 of `faceEnv` and its neighbours 22, 25 and 37; the shared
faces carry `beta_i[22] = 23`, `beta_j[25] = 53` and `beta_k[37] = 1369`, and
`-b*h2inv = -15`. -/
theorem unfused_operator_symmetric_witness :
    (1 < faceEnv.jStride ∧ faceEnv.jStride < faceEnv.kStride)
    ∧ (unfused_coeff CoeffMode.helmholtz faceEnv 21 22 = -345
        ∧ unfused_coeff CoeffMode.helmholtz faceEnv 22 21 = -345)
    ∧ (unfused_coeff CoeffMode.helmholtz faceEnv 21 25 = -795
        ∧ unfused_coeff CoeffMode.helmholtz faceEnv 25 21 = -795)
    ∧ (unfused_coeff CoeffMode.helmholtz faceEnv 21 37 = -20535
        ∧ unfused_coeff CoeffMode.helmholtz faceEnv 37 21 = -20535) :=
  ⟨⟨by decide, by decide⟩,
    ⟨((unfused_operator_symmetric true faceEnv 21 (by decide) (by decide)).2.1.1).trans
        (by norm_num [faceEnv]),
      ((unfused_operator_symmetric true faceEnv 21 (by decide) (by decide)).2.1.2).trans
        (by norm_num [faceEnv])⟩,
    ⟨((unfused_operator_symmetric true faceEnv 21 (by decide) (by decide)).2.2.1.1).trans
        (by norm_num [faceEnv]),
      ((unfused_operator_symmetric true faceEnv 21 (by decide) (by decide)).2.2.1.2).trans
        (by norm_num [faceEnv])⟩,
    ⟨((unfused_operator_symmetric true faceEnv 21 (by decide) (by decide)).2.2.2.1.1).trans
        (by norm_num [faceEnv]),
      ((unfused_operator_symmetric true faceEnv 21 (by decide) (by decide)).2.2.2.1.2).trans
        (by norm_num [faceEnv])⟩⟩

end Claims3

end HPGMG
